import Mathlib

/-!
Verification development for the vista centroid-tracking and
crossing-counting engine (`src/cv/centroid/mod.rs` and the tracking part of
`src/cv/net.rs`).

Modelling conventions:
* Rust `HashMap` registries are embedded as association lists with unique
  keys; the list order is the (arbitrary) iteration order of the map, which
  the source observes through `self.objects.keys()`.
* `f32` arithmetic is idealised as exact real arithmetic.  Distances are
  only ever compared to each other or to `max_distance`, so the embedding
  works with exact squared distances (`d ≤ b ↔ d² ≤ b²` for nonnegative
  reals) and stores the squared threshold `maxDist2`.
* The scaled integer cost `(d * 1000.0).round() as i32` is embedded exactly
  as the nearest integer to `1000·√d²` (ties are impossible on integer
  radicands), saturated at `i32::MAX` as the Rust float-to-int cast does.
* The external `pathfinding` crate is modelled by its documented contract:
  `Matrix::from_rows` requires rows of equal length, and `kuhn_munkres_min`
  returns a total-cost-minimising row→column assignment and asserts that
  the matrix has at least as many columns as rows (a violated assertion is
  a process abort, embedded as the error `UpdateErr.kmAssert`).
-/

set_option linter.unusedVariables false

/-- Modelled from the spec: the movement direction enum
`crate::direction::Direction` is declared by `main.rs` (`pub mod direction;`)
but its file is not among the sources; the spec describes it as the
two-valued enum with values Up and Down. -/
inductive Direction where
  | Up
  | Down
deriving DecidableEq, Repr

/-- An axis-aligned bounding box (opencv `Rect` with `i32` fields,
idealised as unbounded integers). -/
structure Rect where
  x : Int
  y : Int
  width : Int
  height : Int
deriving DecidableEq, Repr

/-- A 2-D point, the center of a bounding box (`Centroid` in the source). -/
structure Centroid where
  x : Int
  y : Int
deriving DecidableEq, Repr

/-- Centroid::from_rect: `(x + width / 2, y + height / 2)` with Rust `i32`
division, which truncates toward zero (`Int.div`). -/
def Centroid.from_rect (r : Rect) : Centroid :=
  { x := r.x + Int.tdiv r.width 2, y := r.y + Int.tdiv r.height 2 }

/-- Squared Euclidean distance between two centroids.  The source's
`Centroid::distance_to` computes the `f32` value `sqrt(dx² + dy²)`; every
use compares it to another distance or to `max_distance`, so the embedding
keeps the exact squared value. -/
def dist2 (a b : Centroid) : Nat :=
  (a.x - b.x).natAbs ^ 2 + (a.y - b.y).natAbs ^ 2

/-- A tracked object: identity, bounded centroid history, one-shot counting
latch and last inferred movement direction. -/
structure TrackableObject where
  oid : Nat
  centroids : List Centroid
  counted : Bool
  last_direction : Option Direction
deriving DecidableEq, Repr

/-- The tracker state.  `objects` and `disappeared` embed the source's
`HashMap`s as association lists with unique keys; the list order is the
map's iteration order.  `maxDist2` is the square of the configured
`max_distance`. -/
structure CentroidTracker where
  next_oid : Nat
  objects : List (Nat × TrackableObject)
  disappeared : List (Nat × Nat)
  max_disappeared : Nat
  maxDist2 : Nat
deriving DecidableEq, Repr

deriving instance DecidableEq for Except

/-- Lookup in an association list (HashMap::get). -/
def alGet {α : Type} : List (Nat × α) → Nat → Option α
  | [], _ => none
  | p :: t, key => if p.1 = key then some p.2 else alGet t key

/-- Insert in an association list (HashMap::insert): replace in place if the
key is present (a HashMap keeps the slot, hence the iteration position, of
an existing key), append otherwise. -/
def alInsert {α : Type} : List (Nat × α) → Nat → α → List (Nat × α)
  | [], key, v => [(key, v)]
  | p :: t, key, v => if p.1 = key then (key, v) :: t else p :: alInsert t key v

/-- Removal from an association list (HashMap::remove). -/
def alRemove {α : Type} : List (Nat × α) → Nat → List (Nat × α)
  | [], _ => []
  | p :: t, key => if p.1 = key then alRemove t key else p :: alRemove t key

/-- CentroidTracker::register: insert a fresh object with a one-element
history, `counted = false`, no direction, and bump the monotone counter. -/
def register (s : CentroidTracker) (c : Centroid) : CentroidTracker :=
  { s with
    next_oid := s.next_oid + 1
    objects := alInsert s.objects s.next_oid
      { oid := s.next_oid, centroids := [c], counted := false, last_direction := none } }

/-- CentroidTracker::deregister: drop the identity from both maps. -/
def deregister (s : CentroidTracker) (oid : Nat) : CentroidTracker :=
  { s with
    objects := alRemove s.objects oid
    disappeared := alRemove s.disappeared oid }

/-- CentroidTracker::current_centroids: the latest centroid of every object
that has one. -/
def current_centroids (s : CentroidTracker) : List (Nat × Centroid) :=
  s.objects.filterMap (fun p => (p.2.centroids.getLast?).map (fun c => (p.1, c)))

/-- Candidate detections for one tracked object on the greedy path: input
indices (in order) that are not yet used and lie within `max_distance`,
paired with their squared distance.  This is the source's
`filter`/`map`/`filter` pipeline over the enumerated input. -/
def candAux (used : List Nat) (maxD2 : Nat) (lastC : Centroid) :
    List Centroid → Nat → List (Nat × Nat)
  | [], _ => []
  | c :: rest, i =>
    if ¬ i ∈ used ∧ dist2 lastC c ≤ maxD2 then
      (i, dist2 lastC c) :: candAux used maxD2 lastC rest (i + 1)
    else candAux used maxD2 lastC rest (i + 1)

/-- First index achieving the minimal distance among the candidates.  The
source's rayon `min_by` with a strict comparison keeps the earliest of
equal minima, which is what the strict `<` fold does. -/
def pickMin : List (Nat × Nat) → Option Nat
  | [] => none
  | c :: rest => some ((rest.foldl (fun best q => if q.2 < best.2 then q else best) c).1)

/-- Greedy per-object match selection (`greedy_update`, lines 193-213): the
unused input centroid at minimal distance from the object's last centroid,
accepted only within `max_distance`; ties go to the lowest input index. -/
def bestMatch (used : List Nat) (maxD2 : Nat) (lastC : Centroid)
    (input : List Centroid) : Option Nat :=
  pickMin (candAux used maxD2 lastC input 0)

/-- Accumulator of the greedy matching loop: tracker state, used input
indices, matched object ids. -/
structure GreedyAcc where
  s : CentroidTracker
  used : List Nat
  matched : List Nat
deriving DecidableEq, Repr

/-- One iteration of the greedy matching loop over a tracked object id: on a
match, append the input centroid to the object's history, clear its
disappeared entry, and mark input and object as used/matched.  The source
unwraps the object lookup and its last centroid, which always exist for ids
drawn from the registry with nonempty histories; the embedding uses
defaults in the impossible branches. -/
def greedyMatchStep (input : List Centroid) (acc : GreedyAcc) (oid : Nat) : GreedyAcc :=
  match alGet acc.s.objects oid with
  | none => acc
  | some obj =>
    let lastC := obj.centroids.getLastD { x := 0, y := 0 }
    match bestMatch acc.used acc.s.maxDist2 lastC input with
    | none => acc
    | some idx =>
      { s := { acc.s with
                objects := alInsert acc.s.objects oid
                  { obj with centroids := obj.centroids ++ [input.getD idx { x := 0, y := 0 }] }
                disappeared := alRemove acc.s.disappeared oid }
        used := acc.used ++ [idx]
        matched := acc.matched ++ [oid] }

/-- Disappearance bookkeeping for one unmatched object id: bump its miss
counter (creating it at 0 first) and deregister once the counter exceeds
`max_disappeared`. -/
def missOne (s : CentroidTracker) (oid : Nat) : CentroidTracker :=
  let d := (alGet s.disappeared oid).getD 0 + 1
  let s1 := { s with disappeared := alInsert s.disappeared oid d }
  if s.max_disappeared < d then deregister s1 oid else s1

/-- The shared disappeared-objects phase of both update paths: every id of
the call-time registry that was not matched gets a miss. -/
def missPhase (s : CentroidTracker) (oids matched : List Nat) : CentroidTracker :=
  oids.foldl (fun t oid => if oid ∈ matched then t else missOne t oid) s

/-- The shared registration phase of both update paths: every input
centroid whose index was not used by a match is registered as a new
object, in input order. -/
def registerPhase (s : CentroidTracker) (input : List Centroid) (used : List Nat) :
    CentroidTracker :=
  input.enum.foldl (fun t p => if p.1 ∈ used then t else register t p.2) s

/-- CentroidTracker::greedy_update.  Returns the post state together with
the matched object ids and the used input indices. -/
def greedy_update (s : CentroidTracker) (input : List Centroid) :
    CentroidTracker × List Nat × List Nat :=
  let oids := s.objects.map (fun p => p.1)
  let acc := oids.foldl (greedyMatchStep input) { s := s, used := [], matched := [] }
  let s2 := missPhase acc.s oids acc.matched
  let s3 := registerPhase s2 input acc.used
  (s3, acc.matched, acc.used)

/-- The largest `i32` value, the forbidden-cost sentinel of the optimal
path. -/
def i32Max : Int := 2147483647

/-- Newton iteration for the integer square root, with explicit fuel for
structural recursion. -/
def isqrtAux (m : Nat) : Nat → Nat → Nat
  | 0, r => r
  | fuel + 1, r =>
    let next := (r + m / r) / 2
    if next < r then isqrtAux m fuel next else r

/-- Floor integer square root (executable by kernel reduction). -/
def isqrt (m : Nat) : Nat :=
  if m ≤ 1 then m else isqrtAux m m (m / 2 + 1)

/-- Nearest integer to √m (a tie would need m = (2k+1)²/4, impossible for
an integer m). -/
def roundSqrt (m : Nat) : Nat :=
  let s := isqrt m
  if m ≤ s * s + s then s else s + 1

/-- The quantised cost `(d * 1000.0).round() as i32` of a squared distance:
`round(1000·√d²) = roundSqrt (d² · 10⁶)`, saturated at `i32::MAX` by the
Rust float-to-int cast. -/
def quantCost (d2 : Nat) : Int :=
  min (Int.ofNat (roundSqrt (d2 * 1000000))) i32Max

/-- One cell of the integer cost matrix (`update`, lines 81-110): the two
source stages (f32 matrix with INFINITY beyond `max_distance`, then integer
conversion mapping anything beyond `max_distance` to `i32::MAX`) combine to
this. -/
def costEntry (maxD2 d2 : Nat) : Int :=
  if d2 ≤ maxD2 then quantCost d2 else i32Max

/-- One row of the cost matrix: distances from a tracked object's last
centroid to every input centroid. -/
def costRow (maxD2 : Nat) (lastC : Centroid) (input : List Centroid) : List Int :=
  input.map (fun c => costEntry maxD2 (dist2 lastC c))

/-- The integer cost matrix, one row per tracked id in registry iteration
order.  The source unwraps the object lookup (ids come from the registry);
the none branch is unreachable. -/
def costMatrix (s : CentroidTracker) (input : List Centroid) (oids : List Nat) :
    List (List Int) :=
  oids.map (fun oid =>
    match alGet s.objects oid with
    | some obj => costRow s.maxDist2 (obj.centroids.getLastD { x := 0, y := 0 }) input
    | none => input.map (fun _ => i32Max))

/-- All injective assignments: lists that pick, for each of n rows in
order, a distinct element of `avail`. -/
def injections : Nat → List Nat → List (List Nat)
  | 0, _ => [[]]
  | n + 1, avail => avail.flatMap (fun c => (injections n (avail.erase c)).map (fun a => c :: a))

/-- Total cost of an assignment over a cost matrix (row i is matched to
column `a[i]`). -/
def assignmentCost (mat : List (List Int)) (a : List Nat) : Int :=
  ((mat.zip a).map (fun p => p.1.getD p.2 0)).sum

/-- Modelled from the documented contract of the external
`pathfinding::kuhn_munkres_min`: for a matrix with at least as many columns
as rows it returns a total-cost-minimising injective row→column assignment
(modelled by exhaustive search); with more rows than columns its assertion
fails and the process aborts, modelled as `none`. -/
def kuhnMunkresMin (mat : List (List Int)) : Option (Int × List Nat) :=
  let n := mat.length
  let m := (mat.headD []).length
  if n ≤ m then
    match injections n (List.range m) with
    | [] => none
    | a :: rest =>
      some (rest.foldl
        (fun best a2 =>
          if assignmentCost mat a2 < best.1 then (assignmentCost mat a2, a2) else best)
        (assignmentCost mat a, a))
  else none

/-- One iteration of the sequential assignment-application loop (`update`,
lines 139-155): `p` carries a registry id with its cost row and the column
assigned to it; out-of-range columns and forbidden-cost cells are
discarded. -/
def applyOne (input : List Centroid) (acc : CentroidTracker × List Nat × List Nat)
    (p : (Nat × List Int) × Nat) : CentroidTracker × List Nat × List Nat :=
  let oid := p.1.1
  let row := p.1.2
  let inputIdx := p.2
  if inputIdx < input.length then
    match alGet acc.1.objects oid with
    | none => acc
    | some obj =>
      if row.getD inputIdx 0 ≠ i32Max then
        ({ acc.1 with
            objects := alInsert acc.1.objects oid
              { obj with centroids := obj.centroids ++ [input.getD inputIdx { x := 0, y := 0 }] }
            disappeared := alRemove acc.1.disappeared oid },
          acc.2.1 ++ [oid], acc.2.2 ++ [inputIdx])
      else acc
  else acc

/-- The sequential application of the optimal assignment: rows are
processed in order (the source's indexed loop is embedded as a fold over
the rows zipped with their assigned columns; the lengths agree by
construction). -/
def applyAssignments (s : CentroidTracker) (oids : List Nat) (input : List Centroid)
    (mat : List (List Int)) (assignment : List Nat) : CentroidTracker × List Nat × List Nat :=
  ((oids.zip mat).zip assignment).foldl (applyOne input) (s, [], [])

/-- Failure modes of `update`: `matrixFormat` is the recoverable
`Matrix::from_rows` error (an `anyhow` error return), `kmAssert` is the
`kuhn_munkres` assertion failure, i.e. a process abort. -/
inductive UpdateErr where
  | matrixFormat
  | kmAssert
deriving DecidableEq, Repr

/-- Matrix::from_rows succeeds exactly when all rows have the length of the
first row. -/
def rowsOk (mat : List (List Int)) : Bool :=
  mat.all (fun r => r.length == (mat.headD []).length)

/-- CentroidTracker::update.  Returns the (possibly mutated-in-place) state
together with either the matched ids, used input indices and the output
map, or the failure.  Mirrors the source: empty-registry fast path, greedy
path for at most 5 objects and at most 5 detections, otherwise cost-matrix
construction and optimal assignment, followed by the shared disappearance
and registration phases. -/
def updateCore (s : CentroidTracker) (rects : List Rect) :
    CentroidTracker × Except UpdateErr (List Nat × List Nat × List (Nat × Centroid)) :=
  let input := rects.map Centroid.from_rect
  if s.objects.isEmpty then
    let s1 := input.foldl register s
    (s1, Except.ok ([], [], current_centroids s1))
  else if s.objects.length ≤ 5 ∧ input.length ≤ 5 then
    let r := greedy_update s input
    (r.1, Except.ok (r.2.1, r.2.2, current_centroids r.1))
  else
    let oids := s.objects.map (fun p => p.1)
    let mat := costMatrix s input oids
    if rowsOk mat then
      match kuhnMunkresMin mat with
      | none => (s, Except.error UpdateErr.kmAssert)
      | some ca =>
        let r := applyAssignments s oids input mat ca.2
        let s2 := missPhase r.1 oids r.2.1
        let s3 := registerPhase s2 input r.2.2
        (s3, Except.ok (r.2.1, r.2.2, current_centroids s3))
    else (s, Except.error UpdateErr.matrixFormat)

/-- The public result of `update`: the per-frame output map, or a failure. -/
def update (s : CentroidTracker) (rects : List Rect) :
    CentroidTracker × Except UpdateErr (List (Nat × Centroid)) :=
  let r := updateCore s rects
  (r.1, r.2.map (fun out => out.2.2))

/-- The hard-coded zone line `mid_y` of `Net::process_frame`. -/
def mid_y : Int := 250

/-- The per-object body of the crossing-counter loop (`process_frame`,
lines 172-200): with at least two centroids, infer the direction from the
last two y-coordinates (ties resolve to Down), fire the one-shot crossing
event when the object is uncounted and beyond the zone line in its
direction of travel, store the direction; finally trim a history longer
than 50 by dropping its oldest entry.  The loop reads the current centroid
from the output map, which holds exactly the object's last centroid.
Returns the updated object and the fired event, if any. -/
def processObject (o : TrackableObject) : TrackableObject × Option Direction :=
  let step1 :=
    if 2 ≤ o.centroids.length then
      let prev_y := (o.centroids.getD (o.centroids.length - 2) { x := 0, y := 0 }).y
      let current_y := (o.centroids.getLastD { x := 0, y := 0 }).y
      let direction := if current_y < prev_y then Direction.Up else Direction.Down
      if o.counted = false ∧
          ((direction = Direction.Up ∧ current_y < mid_y) ∨
            (direction = Direction.Down ∧ mid_y < current_y)) then
        ({ o with counted := true, last_direction := some direction }, some direction)
      else
        ({ o with last_direction := some direction }, none)
    else (o, none)
  if 50 < step1.1.centroids.length then
    ({ step1.1 with centroids := step1.1.centroids.tail }, step1.2)
  else step1

/-- The crossing-counter loop of `process_frame`: each identity of the
update output map (exactly the objects with a nonempty history) is
processed once; iteration order is irrelevant because each step touches
only its own object. -/
def frameCrossing (s : CentroidTracker) : CentroidTracker :=
  { s with objects := s.objects.map (fun p =>
      if p.2.centroids.isEmpty then p else (p.1, (processObject p.2).1)) }

/-- One full frame step of the engine inside `Net::process_frame`: the
tracker update followed (on success) by the crossing-counter loop.  An
update failure propagates before the loop runs. -/
def frameStep (s : CentroidTracker) (rects : List Rect) :
    CentroidTracker × Except UpdateErr (List (Nat × Centroid)) :=
  let r := updateCore s rects
  match r.2 with
  | Except.error e => (r.1, Except.error e)
  | Except.ok out => (frameCrossing r.1, Except.ok out.2.2)

/-- Keys of an association list, in iteration order. -/
def keysOf {α : Type} (l : List (Nat × α)) : List Nat := l.map (fun p => p.1)

/-! ## Registry invariant -/

/-- Shape of a freshly registered object. -/
def freshForm (o : TrackableObject) : Prop :=
  o.centroids.length = 1 ∧ o.counted = false ∧ o.last_direction = none

/-- Either the same object or the same object with exactly one centroid
appended: how one update call can change a surviving object. -/
def ValRel (o o2 : TrackableObject) : Prop :=
  o2 = o ∨ ∃ c, o2 = { o with centroids := o.centroids ++ [c] }

/-- Invariant of every reachable tracker state: registry keys are unique
and below the monotone id counter, disappeared keys are below the counter,
and every object has a nonempty history. -/
def RInv (s : CentroidTracker) : Prop :=
  (keysOf s.objects).Nodup ∧ (∀ k ∈ keysOf s.objects, k < s.next_oid) ∧
    (∀ k ∈ keysOf s.disappeared, k < s.next_oid) ∧
    (∀ p ∈ s.objects, p.2.centroids ≠ [])

instance RInvDecidable (s : CentroidTracker) : Decidable (RInv s) := by
  unfold RInv
  exact inferInstance

/-! ## Specification-side predicates and run relations -/

/-- A detection index acceptable for one object on the greedy path: in
range, not yet claimed, within `max_distance`. -/
def accIdx (used : List Nat) (maxD2 : Nat) (lastC : Centroid) (input : List Centroid)
    (j : Nat) : Prop :=
  j < input.length ∧ j ∉ used ∧ dist2 lastC (input.getD j { x := 0, y := 0 }) ≤ maxD2

/-- The detection the greedy scan must pick: acceptable, of minimal
distance, and of least index among equal minima. -/
def isBestIdx (used : List Nat) (maxD2 : Nat) (lastC : Centroid) (input : List Centroid)
    (j : Nat) : Prop :=
  accIdx used maxD2 lastC input j ∧
  (∀ j2, accIdx used maxD2 lastC input j2 →
    dist2 lastC (input.getD j { x := 0, y := 0 }) ≤ dist2 lastC (input.getD j2 { x := 0, y := 0 })) ∧
  (∀ j2, accIdx used maxD2 lastC input j2 →
    dist2 lastC (input.getD j2 { x := 0, y := 0 }) = dist2 lastC (input.getD j { x := 0, y := 0 }) →
    j ≤ j2)

/-- One update call in which the given object id is matched by nothing. -/
def UnmatchedStep (s s2 : CentroidTracker) (oid : Nat) : Prop :=
  ∃ rects m u out, updateCore s rects = (s2, Except.ok (m, u, out)) ∧ oid ∉ m

/-- A run of n consecutive update calls, each leaving the given id
unmatched. -/
inductive MissRun (oid : Nat) : Nat → CentroidTracker → CentroidTracker → Prop where
  | zero (s : CentroidTracker) : MissRun oid 0 s s
  | step {n : Nat} {s s2 s3 : CentroidTracker} :
      UnmatchedStep s s2 oid → MissRun oid n s2 s3 → MissRun oid (n + 1) s s3

/-! ## Concrete scenarios used by witnesses and counterexamples -/

/-- A one-history tracked object used to build concrete registries. -/
def mkTrObj (i : Nat) (x y : Int) : Nat × TrackableObject :=
  (i, { oid := i, centroids := [{ x := x, y := y }], counted := false, last_direction := none })

/-- A detection box whose centroid is (x, y). -/
def mkRect (x y : Int) : Rect := { x := x, y := y, width := 0, height := 0 }

/-- Six tracked objects: large enough to force the optimal path. -/
def stateC7 : CentroidTracker :=
  { next_oid := 6
    objects := [mkTrObj 0 0 0, mkTrObj 1 100 0, mkTrObj 2 200 0, mkTrObj 3 300 0,
      mkTrObj 4 400 0, mkTrObj 5 500 0]
    disappeared := []
    max_disappeared := 3
    maxDist2 := 400 }

/-- Five detections close to the first five objects of `stateC7`. -/
def rectsC7 : List Rect :=
  [mkRect 2 0, mkRect 102 0, mkRect 202 0, mkRect 302 0, mkRect 402 0]

/-- Six tracked objects for the empty-input scenario. -/
def stateC8 : CentroidTracker :=
  { next_oid := 6
    objects := [mkTrObj 0 0 10, mkTrObj 1 100 10, mkTrObj 2 200 10, mkTrObj 3 300 10,
      mkTrObj 4 400 10, mkTrObj 5 500 10]
    disappeared := []
    max_disappeared := 3
    maxDist2 := 400 }

/-- Six tracked objects used to exhibit an error return for C10. -/
def stateC10 : CentroidTracker :=
  { next_oid := 6
    objects := [mkTrObj 0 0 20, mkTrObj 1 100 20, mkTrObj 2 200 20, mkTrObj 3 300 20,
      mkTrObj 4 400 20, mkTrObj 5 500 20]
    disappeared := []
    max_disappeared := 3
    maxDist2 := 400 }

/-- Two objects both within range of one detection, listed in one
iteration order. -/
def stateC9a : CentroidTracker :=
  { next_oid := 2
    objects := [mkTrObj 0 0 0, mkTrObj 1 10 0]
    disappeared := []
    max_disappeared := 3
    maxDist2 := 400 }

/-- The same registry as `stateC9a` with the opposite iteration order. -/
def stateC9b : CentroidTracker :=
  { next_oid := 2
    objects := [mkTrObj 1 10 0, mkTrObj 0 0 0]
    disappeared := []
    max_disappeared := 3
    maxDist2 := 400 }

/-- One detection equidistant from neither object but within range of
both. -/
def rectsC9 : List Rect := [mkRect 5 0]

/-- One object with an enormous configured `max_distance` (squared:
5·10¹²), for the scaled-cost saturation scenario. -/
def stateC1 : CentroidTracker :=
  { next_oid := 1
    objects := [mkTrObj 0 0 0]
    disappeared := []
    max_disappeared := 3
    maxDist2 := 5000000000000 }

/-- Six detections: the first at distance 2150000 (within `max_distance`
but with scaled cost above `i32::MAX`), the rest beyond `max_distance`. -/
def rectsC1 : List Rect :=
  [mkRect 2150000 0, mkRect 10000000 0, mkRect 10000001 0, mkRect 10000002 0,
    mkRect 10000003 0, mkRect 10000004 0]

/-- One object with a clean miss counter, for the disappearance run. -/
def stateC2 : CentroidTracker :=
  { next_oid := 1
    objects := [mkTrObj 0 50 50]
    disappeared := []
    max_disappeared := 3
    maxDist2 := 400 }

/-- States along the empty-input run from `stateC2`. -/
def stateC2a : CentroidTracker := (updateCore stateC2 []).1

def stateC2b : CentroidTracker := (updateCore stateC2a []).1

def stateC2c : CentroidTracker := (updateCore stateC2b []).1

def stateC2d : CentroidTracker := (updateCore stateC2c []).1

/-- An object that moved from y=260 to y=240, about to cross the zone
line upward. -/
def objC3 : TrackableObject :=
  { oid := 7
    centroids := [{ x := 100, y := 260 }, { x := 100, y := 240 }]
    counted := false
    last_direction := none }

def stateC3 : CentroidTracker :=
  { next_oid := 8
    objects := [(7, objC3)]
    disappeared := []
    max_disappeared := 3
    maxDist2 := 400 }

/-- An already-counted object, for the latch witness. -/
def objC4 : TrackableObject :=
  { oid := 2
    centroids := [{ x := 100, y := 240 }, { x := 100, y := 230 }]
    counted := true
    last_direction := some Direction.Up }

def stateC4 : CentroidTracker :=
  { next_oid := 3
    objects := [(2, objC4)]
    disappeared := []
    max_disappeared := 3
    maxDist2 := 400 }

/-- One detection near the object of `stateC4` and of `stateC5`. -/
def rectsC4 : List Rect := [mkRect 100 225]

/-- An object with a full 50-entry history, for the trim witness. -/
def objC5 : TrackableObject :=
  { oid := 0
    centroids := (List.range 50).map (fun i => { x := 100, y := Int.ofNat i })
    counted := false
    last_direction := none }

def stateC5 : CentroidTracker :=
  { next_oid := 1
    objects := [(0, objC5)]
    disappeared := []
    max_disappeared := 3
    maxDist2 := 400 }

/-- One detection close to the last centroid of the `stateC5` object. -/
def rectsC5 : List Rect := [mkRect 100 52]

/-- Six objects for the 6×6 optimal-assignment witness. -/
def stateC6 : CentroidTracker :=
  { next_oid := 6
    objects := [mkTrObj 0 0 30, mkTrObj 1 100 30, mkTrObj 2 200 30, mkTrObj 3 300 30,
      mkTrObj 4 400 30, mkTrObj 5 500 30]
    disappeared := []
    max_disappeared := 3
    maxDist2 := 400 }

/-- Six detections, each near one object of `stateC6`. -/
def rectsC6 : List Rect :=
  [mkRect 2 30, mkRect 102 30, mkRect 202 30, mkRect 302 30, mkRect 402 30, mkRect 502 30]

/-- One object and six detections, exactly one in range: exercises the
optimal path for the matching-correctness witness. -/
def stateM : CentroidTracker :=
  { next_oid := 1
    objects := [mkTrObj 0 0 40]
    disappeared := []
    max_disappeared := 3
    maxDist2 := 400 }

/-- Six detections: the first within range of the `stateM` object, the
rest far away. -/
def rectsM : List Rect :=
  [mkRect 3 44, mkRect 5000 40, mkRect 5001 40, mkRect 5002 40, mkRect 5003 40, mkRect 5004 40]

/-! ## Association list toolkit -/

theorem keysOf_cons {α : Type} (p : Nat × α) (t : List (Nat × α)) :
    keysOf (p :: t) = p.1 :: keysOf t := rfl

theorem alGet_insert_self {α : Type} (l : List (Nat × α)) (k : Nat) (v : α) :
    alGet (alInsert l k v) k = some v := by
  induction l with
  | nil => simp [alInsert, alGet]
  | cons p t ih =>
    by_cases h : p.1 = k
    · simp [alInsert, h, alGet]
    · simp [alInsert, h, alGet, ih]

theorem alGet_insert_ne {α : Type} (l : List (Nat × α)) (k k2 : Nat) (v : α)
    (h : k2 ≠ k) : alGet (alInsert l k v) k2 = alGet l k2 := by
  have h2 : ¬ (k = k2) := fun he => h he.symm
  induction l with
  | nil => simp [alInsert, alGet, h2]
  | cons p t ih =>
    by_cases hp : p.1 = k
    · simp [alInsert, hp, alGet, h2]
    · simp [alInsert, hp, alGet, ih]

theorem alGet_remove_self {α : Type} (l : List (Nat × α)) (k : Nat) :
    alGet (alRemove l k) k = none := by
  induction l with
  | nil => simp [alRemove, alGet]
  | cons p t ih =>
    by_cases h : p.1 = k
    · simp [alRemove, h, ih]
    · simp [alRemove, h, alGet, ih]

theorem alGet_remove_ne {α : Type} (l : List (Nat × α)) (k k2 : Nat)
    (h : k2 ≠ k) : alGet (alRemove l k) k2 = alGet l k2 := by
  have h2 : ¬ (k = k2) := fun he => h he.symm
  induction l with
  | nil => simp [alRemove]
  | cons p t ih =>
    by_cases hp : p.1 = k
    · simp [alRemove, hp, alGet, h2, ih]
    · simp [alRemove, hp, alGet, ih]

theorem mem_keysOf_iff_alGet {α : Type} (l : List (Nat × α)) (k : Nat) :
    k ∈ keysOf l ↔ ∃ v, alGet l k = some v := by
  induction l with
  | nil => simp [keysOf, alGet]
  | cons p t ih =>
    rw [keysOf_cons]
    by_cases h : p.1 = k
    · simp [alGet, h]
    · have h2 : ¬ (k = p.1) := fun he => h he.symm
      simp [alGet, h, h2, ih]

theorem alGet_eq_none_iff {α : Type} (l : List (Nat × α)) (k : Nat) :
    alGet l k = none ↔ k ∉ keysOf l := by
  rw [mem_keysOf_iff_alGet]
  cases h : alGet l k <;> simp [h]

theorem alGet_of_mem {α : Type} (l : List (Nat × α)) (p : Nat × α)
    (hnd : (keysOf l).Nodup) (hmem : p ∈ l) : alGet l p.1 = some p.2 := by
  induction l with
  | nil => simp at hmem
  | cons q t ih =>
    rw [keysOf_cons, List.nodup_cons] at hnd
    rcases List.mem_cons.mp hmem with h | h
    · subst h; simp [alGet]
    · have hq : q.1 ≠ p.1 := by
        intro he
        exact hnd.1 (he ▸ List.mem_map.mpr ⟨p, h, rfl⟩)
      simp [alGet, hq, ih hnd.2 h]

theorem mem_of_alGet {α : Type} (l : List (Nat × α)) (k : Nat) (v : α)
    (h : alGet l k = some v) : (k, v) ∈ l := by
  induction l with
  | nil => simp [alGet] at h
  | cons p t ih =>
    by_cases hp : p.1 = k
    · simp [alGet, hp] at h
      subst hp
      rw [← h]
      exact List.mem_cons_self _ _
    · simp [alGet, hp] at h
      exact List.mem_cons_of_mem _ (ih h)

theorem keysOf_alInsert_mem {α : Type} (l : List (Nat × α)) (k : Nat) (v : α)
    (h : k ∈ keysOf l) : keysOf (alInsert l k v) = keysOf l := by
  induction l with
  | nil => simp [keysOf] at h
  | cons p t ih =>
    rw [keysOf_cons] at h
    by_cases hp : p.1 = k
    · simp [alInsert, hp, keysOf_cons]
    · have ht : k ∈ keysOf t := by
        rcases List.mem_cons.mp h with h1 | h1
        · exact absurd h1.symm hp
        · exact h1
      simp [alInsert, hp, keysOf_cons, ih ht]

theorem keysOf_alInsert_not_mem {α : Type} (l : List (Nat × α)) (k : Nat) (v : α)
    (h : k ∉ keysOf l) : keysOf (alInsert l k v) = keysOf l ++ [k] := by
  induction l with
  | nil => simp [alInsert, keysOf]
  | cons p t ih =>
    rw [keysOf_cons] at h
    have hp : p.1 ≠ k := fun he => h (he ▸ List.mem_cons_self _ _)
    have ht : k ∉ keysOf t := fun hh => h (List.mem_cons_of_mem _ hh)
    simp [alInsert, hp, keysOf_cons, ih ht]

theorem keysOf_alRemove {α : Type} (l : List (Nat × α)) (k : Nat) :
    keysOf (alRemove l k) = (keysOf l).filter (fun x => x ≠ k) := by
  induction l with
  | nil => simp [alRemove, keysOf]
  | cons p t ih =>
    by_cases hp : p.1 = k
    · simp [alRemove, hp, keysOf_cons, List.filter, ih]
      rfl
    · simp [alRemove, hp, keysOf_cons, List.filter, ih, decide_eq_true_eq]
      rfl

/-! ## Greedy matching phase lemmas -/

theorem greedyMatchStep_eq_or (input : List Centroid) (acc : GreedyAcc) (oid : Nat) :
    greedyMatchStep input acc oid = acc ∨
    ∃ obj idx, alGet acc.s.objects oid = some obj ∧
      bestMatch acc.used acc.s.maxDist2 (obj.centroids.getLastD { x := 0, y := 0 }) input
        = some idx ∧
      greedyMatchStep input acc oid =
        { s := { acc.s with
                  objects := alInsert acc.s.objects oid
                    { obj with centroids := obj.centroids ++ [input.getD idx { x := 0, y := 0 }] }
                  disappeared := alRemove acc.s.disappeared oid }
          used := acc.used ++ [idx]
          matched := acc.matched ++ [oid] } := by
  cases h1 : alGet acc.s.objects oid with
  | none => left; unfold greedyMatchStep; rw [h1]
  | some obj =>
    cases h2 : bestMatch acc.used acc.s.maxDist2 (obj.centroids.getLastD { x := 0, y := 0 }) input with
    | none =>
      left; unfold greedyMatchStep; rw [h1]
      simp only []
      rw [h2]
    | some idx =>
      right
      refine ⟨obj, idx, rfl, h2, ?_⟩
      unfold greedyMatchStep; rw [h1]
      simp only []
      rw [h2]

theorem greedyMatchStep_frame (input : List Centroid) (acc : GreedyAcc) (oid : Nat) :
    (greedyMatchStep input acc oid).s.next_oid = acc.s.next_oid ∧
    (greedyMatchStep input acc oid).s.max_disappeared = acc.s.max_disappeared ∧
    (greedyMatchStep input acc oid).s.maxDist2 = acc.s.maxDist2 ∧
    keysOf (greedyMatchStep input acc oid).s.objects = keysOf acc.s.objects := by
  rcases greedyMatchStep_eq_or input acc oid with h | ⟨obj, idx, hget, hbm, h⟩
  · rw [h]; exact ⟨rfl, rfl, rfl, rfl⟩
  · rw [h]
    refine ⟨rfl, rfl, rfl, ?_⟩
    exact keysOf_alInsert_mem _ _ _ ((mem_keysOf_iff_alGet _ _).mpr ⟨obj, hget⟩)

theorem greedyFold_frame (input : List Centroid) (L : List Nat) :
    ∀ acc : GreedyAcc,
    (L.foldl (greedyMatchStep input) acc).s.next_oid = acc.s.next_oid ∧
    (L.foldl (greedyMatchStep input) acc).s.max_disappeared = acc.s.max_disappeared ∧
    (L.foldl (greedyMatchStep input) acc).s.maxDist2 = acc.s.maxDist2 ∧
    keysOf (L.foldl (greedyMatchStep input) acc).s.objects = keysOf acc.s.objects := by
  induction L with
  | nil => intro acc; exact ⟨rfl, rfl, rfl, rfl⟩
  | cons a L ih =>
    intro acc
    have h1 := greedyMatchStep_frame input acc a
    have h2 := ih (greedyMatchStep input acc a)
    simp only [List.foldl_cons]
    exact ⟨h2.1.trans h1.1, h2.2.1.trans h1.2.1, h2.2.2.1.trans h1.2.2.1,
      h2.2.2.2.trans h1.2.2.2⟩

theorem greedyFold_matched_sub (input : List Centroid) (L : List Nat) :
    ∀ (acc : GreedyAcc) (k : Nat),
    k ∈ (L.foldl (greedyMatchStep input) acc).matched → k ∈ acc.matched ∨ k ∈ L := by
  induction L with
  | nil => intro acc k h; exact Or.inl h
  | cons a L ih =>
    intro acc k h
    simp only [List.foldl_cons] at h
    rcases ih _ _ h with h1 | h1
    · rcases greedyMatchStep_eq_or input acc a with he | ⟨obj, idx, _, _, he⟩
      · rw [he] at h1; exact Or.inl h1
      · rw [he] at h1
        rcases List.mem_append.mp h1 with h2 | h2
        · exact Or.inl h2
        · simp at h2; right; simp [h2]
    · right; exact List.mem_cons_of_mem _ h1

theorem greedyFold_untouched (input : List Centroid) (L : List Nat) :
    ∀ (acc : GreedyAcc) (k : Nat), k ∉ L →
    alGet (L.foldl (greedyMatchStep input) acc).s.objects k = alGet acc.s.objects k ∧
    alGet (L.foldl (greedyMatchStep input) acc).s.disappeared k = alGet acc.s.disappeared k := by
  induction L with
  | nil => intro acc k _; exact ⟨rfl, rfl⟩
  | cons a L ih =>
    intro acc k hk
    have hka : k ≠ a := fun he => hk (he ▸ List.mem_cons_self _ _)
    have hkL : k ∉ L := fun hh => hk (List.mem_cons_of_mem _ hh)
    simp only [List.foldl_cons]
    have step : alGet (greedyMatchStep input acc a).s.objects k = alGet acc.s.objects k ∧
        alGet (greedyMatchStep input acc a).s.disappeared k = alGet acc.s.disappeared k := by
      rcases greedyMatchStep_eq_or input acc a with he | ⟨obj, idx, _, _, he⟩
      · rw [he]; exact ⟨rfl, rfl⟩
      · rw [he]
        exact ⟨alGet_insert_ne _ _ _ _ hka, alGet_remove_ne _ _ _ hka⟩
    have h2 := ih (greedyMatchStep input acc a) k hkL
    exact ⟨h2.1.trans step.1, h2.2.trans step.2⟩

theorem greedyFold_unmatched (input : List Centroid) (L : List Nat) :
    ∀ (acc : GreedyAcc) (k : Nat), k ∉ (L.foldl (greedyMatchStep input) acc).matched →
    k ∉ acc.matched ∧
    alGet (L.foldl (greedyMatchStep input) acc).s.objects k = alGet acc.s.objects k ∧
    alGet (L.foldl (greedyMatchStep input) acc).s.disappeared k = alGet acc.s.disappeared k := by
  induction L with
  | nil => intro acc k h; exact ⟨h, rfl, rfl⟩
  | cons a L ih =>
    intro acc k h
    simp only [List.foldl_cons] at h ⊢
    have h2 := ih (greedyMatchStep input acc a) k h
    rcases greedyMatchStep_eq_or input acc a with he | ⟨obj, idx, _, _, he⟩
    · have e1 : (greedyMatchStep input acc a).matched = acc.matched := by rw [he]
      have e2 : alGet (greedyMatchStep input acc a).s.objects k = alGet acc.s.objects k := by
        rw [he]
      have e3 : alGet (greedyMatchStep input acc a).s.disappeared k
          = alGet acc.s.disappeared k := by rw [he]
      exact ⟨e1 ▸ h2.1, h2.2.1.trans e2, h2.2.2.trans e3⟩
    · have e1 : (greedyMatchStep input acc a).matched = acc.matched ++ [a] := by rw [he]
      have hnm : k ∉ acc.matched ∧ k ≠ a := by
        have h1 := h2.1
        rw [e1] at h1
        simp at h1
        exact ⟨h1.1, h1.2⟩
      have e2 : alGet (greedyMatchStep input acc a).s.objects k = alGet acc.s.objects k := by
        rw [he]
        exact alGet_insert_ne _ _ _ _ hnm.2
      have e3 : alGet (greedyMatchStep input acc a).s.disappeared k
          = alGet acc.s.disappeared k := by
        rw [he]
        exact alGet_remove_ne _ _ _ hnm.2
      exact ⟨hnm.1, h2.2.1.trans e2, h2.2.2.trans e3⟩

theorem greedyFold_matched_effect (input : List Centroid) (L : List Nat) :
    ∀ (acc : GreedyAcc), L.Nodup → (∀ k2 ∈ L, k2 ∉ acc.matched) →
    ∀ k ∈ L, ∀ o, alGet acc.s.objects k = some o →
    k ∈ (L.foldl (greedyMatchStep input) acc).matched →
    ∃ c, alGet (L.foldl (greedyMatchStep input) acc).s.objects k
        = some { o with centroids := o.centroids ++ [c] } ∧
      alGet (L.foldl (greedyMatchStep input) acc).s.disappeared k = none := by
  induction L with
  | nil => intro acc _ _ k hk; simp at hk
  | cons a L ih =>
    intro acc hnd hfresh k hk o hget hm
    simp only [List.foldl_cons] at hm ⊢
    rw [List.nodup_cons] at hnd
    rcases List.mem_cons.mp hk with hka | hkL
    · subst hka
      rcases greedyMatchStep_eq_or input acc k with he | ⟨obj, idx, hget2, hbm, he⟩
      · rw [he] at hm
        rcases greedyFold_matched_sub input L acc k hm with h1 | h1
        · exact absurd h1 (hfresh k (List.mem_cons_self _ _))
        · exact absurd h1 hnd.1
      · have hobj : obj = o := by
          rw [hget] at hget2
          exact (Option.some_inj.mp hget2).symm
        subst hobj
        have hunt := greedyFold_untouched input L (greedyMatchStep input acc k) k hnd.1
        refine ⟨input.getD idx { x := 0, y := 0 }, ?_, ?_⟩
        · rw [hunt.1, he]
          exact alGet_insert_self _ _ _
        · rw [hunt.2, he]
          exact alGet_remove_self _ _
    · have hka : k ≠ a := fun he2 => hnd.1 (he2 ▸ hkL)
      rcases greedyMatchStep_eq_or input acc a with he | ⟨obj, idx, hget2, hbm, he⟩
      · rw [he] at hm ⊢
        exact ih acc hnd.2 (fun k2 hk2 => hfresh k2 (List.mem_cons_of_mem _ hk2)) k hkL o hget hm
      · have hget3 : alGet (greedyMatchStep input acc a).s.objects k = some o := by
          rw [he]; rw [alGet_insert_ne _ _ _ _ hka]; exact hget
        have hfresh2 : ∀ k2 ∈ L, k2 ∉ (greedyMatchStep input acc a).matched := by
          intro k2 hk2
          rw [he]
          intro hmem
          rcases List.mem_append.mp hmem with h1 | h1
          · exact hfresh k2 (List.mem_cons_of_mem _ hk2) h1
          · simp at h1
            exact hnd.1 (h1 ▸ hk2)
        exact ih (greedyMatchStep input acc a) hnd.2 hfresh2 k hkL o hget3 hm

theorem greedyFold_val (input : List Centroid) (L : List Nat) :
    ∀ (acc : GreedyAcc), L.Nodup → ∀ (k : Nat) (o2 : TrackableObject),
    alGet (L.foldl (greedyMatchStep input) acc).s.objects k = some o2 →
    ∃ o, alGet acc.s.objects k = some o ∧ ValRel o o2 := by
  induction L with
  | nil => intro acc _ k o2 h; exact ⟨o2, h, Or.inl rfl⟩
  | cons a L ih =>
    intro acc hnd k o2 h
    rw [List.nodup_cons] at hnd
    simp only [List.foldl_cons] at h
    by_cases hka : k = a
    · subst hka
      rw [(greedyFold_untouched input L _ k hnd.1).1] at h
      rcases greedyMatchStep_eq_or input acc k with he | ⟨obj, idx, hget2, hbm, he⟩
      · rw [he] at h; exact ⟨o2, h, Or.inl rfl⟩
      · rw [he] at h
        rw [alGet_insert_self] at h
        exact ⟨obj, hget2, Or.inr ⟨_, (Option.some.injEq _ _ ▸ h : _).symm⟩⟩
    · have h2 := ih (greedyMatchStep input acc a) hnd.2 k o2 h
      rcases h2 with ⟨o, hget, hrel⟩
      rcases greedyMatchStep_eq_or input acc a with he | ⟨obj, idx, _, _, he⟩
      · rw [he] at hget; exact ⟨o, hget, hrel⟩
      · rw [he] at hget
        rw [alGet_insert_ne _ _ _ _ hka] at hget
        exact ⟨o, hget, hrel⟩

theorem greedyFold_dis_sub (input : List Centroid) (L : List Nat) :
    ∀ (acc : GreedyAcc) (k : Nat) (d : Nat),
    alGet (L.foldl (greedyMatchStep input) acc).s.disappeared k = some d →
    alGet acc.s.disappeared k = some d := by
  induction L with
  | nil => intro acc k d h; exact h
  | cons a L ih =>
    intro acc k d h
    simp only [List.foldl_cons] at h
    have h2 := ih _ _ _ h
    rcases greedyMatchStep_eq_or input acc a with he | ⟨obj, idx, _, _, he⟩
    · rw [he] at h2; exact h2
    · rw [he] at h2
      by_cases hka : k = a
      · subst hka; rw [alGet_remove_self] at h2; exact absurd h2 (by simp)
      · rw [alGet_remove_ne _ _ _ hka] at h2; exact h2

/-! ## Disappearance phase lemmas -/

theorem missOne_frame (t : CentroidTracker) (oid : Nat) :
    (missOne t oid).next_oid = t.next_oid ∧
    (missOne t oid).max_disappeared = t.max_disappeared ∧
    (missOne t oid).maxDist2 = t.maxDist2 := by
  unfold missOne deregister
  simp only []
  split <;> exact ⟨rfl, rfl, rfl⟩

theorem missOne_get_ne (t : CentroidTracker) (oid k : Nat) (h : k ≠ oid) :
    alGet (missOne t oid).objects k = alGet t.objects k ∧
    alGet (missOne t oid).disappeared k = alGet t.disappeared k := by
  unfold missOne deregister
  simp only []
  split
  · exact ⟨alGet_remove_ne _ _ _ h,
      (alGet_remove_ne _ _ _ h).trans (alGet_insert_ne _ _ _ _ h)⟩
  · exact ⟨rfl, alGet_insert_ne _ _ _ _ h⟩

theorem missOne_get_self (t : CentroidTracker) (oid : Nat) :
    (t.max_disappeared < (alGet t.disappeared oid).getD 0 + 1 →
      alGet (missOne t oid).objects oid = none ∧
      alGet (missOne t oid).disappeared oid = none) ∧
    (¬ t.max_disappeared < (alGet t.disappeared oid).getD 0 + 1 →
      alGet (missOne t oid).objects oid = alGet t.objects oid ∧
      alGet (missOne t oid).disappeared oid
        = some ((alGet t.disappeared oid).getD 0 + 1)) := by
  constructor
  · intro hlt
    unfold missOne deregister
    simp only []
    rw [if_pos hlt]
    exact ⟨alGet_remove_self _ _, alGet_remove_self _ _⟩
  · intro hlt
    unfold missOne
    simp only []
    rw [if_neg hlt]
    exact ⟨rfl, alGet_insert_self _ _ _⟩

theorem missFold_frame (matched : List Nat) (L : List Nat) :
    ∀ t : CentroidTracker,
    (L.foldl (fun t2 oid => if oid ∈ matched then t2 else missOne t2 oid) t).next_oid
      = t.next_oid ∧
    (L.foldl (fun t2 oid => if oid ∈ matched then t2 else missOne t2 oid) t).max_disappeared
      = t.max_disappeared ∧
    (L.foldl (fun t2 oid => if oid ∈ matched then t2 else missOne t2 oid) t).maxDist2
      = t.maxDist2 := by
  induction L with
  | nil => intro t; exact ⟨rfl, rfl, rfl⟩
  | cons a L ih =>
    intro t
    simp only [List.foldl_cons]
    have h2 := ih (if a ∈ matched then t else missOne t a)
    have h1 : (if a ∈ matched then t else missOne t a).next_oid = t.next_oid ∧
        (if a ∈ matched then t else missOne t a).max_disappeared = t.max_disappeared ∧
        (if a ∈ matched then t else missOne t a).maxDist2 = t.maxDist2 := by
      split
      · exact ⟨rfl, rfl, rfl⟩
      · exact missOne_frame t a
    exact ⟨h2.1.trans h1.1, h2.2.1.trans h1.2.1, h2.2.2.trans h1.2.2⟩

theorem missPhase_frame (s : CentroidTracker) (oids matched : List Nat) :
    (missPhase s oids matched).next_oid = s.next_oid ∧
    (missPhase s oids matched).max_disappeared = s.max_disappeared ∧
    (missPhase s oids matched).maxDist2 = s.maxDist2 :=
  missFold_frame matched oids s

theorem missFold_untouched (matched : List Nat) (L : List Nat) :
    ∀ (t : CentroidTracker) (k : Nat), (k ∉ L ∨ k ∈ matched) →
    alGet (L.foldl (fun t2 oid => if oid ∈ matched then t2 else missOne t2 oid) t).objects k
      = alGet t.objects k ∧
    alGet (L.foldl (fun t2 oid => if oid ∈ matched then t2 else missOne t2 oid) t).disappeared k
      = alGet t.disappeared k := by
  induction L with
  | nil => intro t k _; exact ⟨rfl, rfl⟩
  | cons a L ih =>
    intro t k hk
    simp only [List.foldl_cons]
    have hstep : alGet (if a ∈ matched then t else missOne t a).objects k = alGet t.objects k ∧
        alGet (if a ∈ matched then t else missOne t a).disappeared k
          = alGet t.disappeared k := by
      split
      · exact ⟨rfl, rfl⟩
      · rename_i hnm
        rcases hk with hk | hk
        · exact missOne_get_ne t a k (fun he => hk (he ▸ List.mem_cons_self _ _))
        · exact missOne_get_ne t a k (fun he => hnm (he ▸ hk))
    have hk2 : k ∉ L ∨ k ∈ matched := by
      rcases hk with hk | hk
      · exact Or.inl (fun hh => hk (List.mem_cons_of_mem _ hh))
      · exact Or.inr hk
    have h2 := ih (if a ∈ matched then t else missOne t a) k hk2
    exact ⟨h2.1.trans hstep.1, h2.2.trans hstep.2⟩

theorem missFold_effect (matched : List Nat) (L : List Nat) :
    ∀ (t : CentroidTracker), L.Nodup → ∀ k ∈ L, k ∉ matched →
    (t.max_disappeared < (alGet t.disappeared k).getD 0 + 1 →
      alGet (L.foldl (fun t2 oid => if oid ∈ matched then t2 else missOne t2 oid) t).objects k
        = none ∧
      alGet (L.foldl (fun t2 oid => if oid ∈ matched then t2 else missOne t2 oid) t).disappeared k
        = none) ∧
    (¬ t.max_disappeared < (alGet t.disappeared k).getD 0 + 1 →
      alGet (L.foldl (fun t2 oid => if oid ∈ matched then t2 else missOne t2 oid) t).objects k
        = alGet t.objects k ∧
      alGet (L.foldl (fun t2 oid => if oid ∈ matched then t2 else missOne t2 oid) t).disappeared k
        = some ((alGet t.disappeared k).getD 0 + 1)) := by
  induction L with
  | nil => intro t _ k hk; simp at hk
  | cons a L ih =>
    intro t hnd k hk hkm
    rw [List.nodup_cons] at hnd
    simp only [List.foldl_cons]
    rcases List.mem_cons.mp hk with hka | hkL
    · subst hka
      have hstep : (L.foldl (fun t2 oid => if oid ∈ matched then t2 else missOne t2 oid)
            (if k ∈ matched then t else missOne t k))
          = (L.foldl (fun t2 oid => if oid ∈ matched then t2 else missOne t2 oid)
            (missOne t k)) := by
        rw [if_neg hkm]
      rw [hstep]
      have hunt := missFold_untouched matched L (missOne t k) k (Or.inl hnd.1)
      constructor
      · intro hlt
        have hs := (missOne_get_self t k).1 hlt
        exact ⟨hunt.1.trans hs.1, hunt.2.trans hs.2⟩
      · intro hlt
        have hs := (missOne_get_self t k).2 hlt
        exact ⟨hunt.1.trans hs.1, hunt.2.trans hs.2⟩
    · have hka : k ≠ a := fun he => hnd.1 (he ▸ hkL)
      have hstep : alGet (if a ∈ matched then t else missOne t a).objects k
            = alGet t.objects k ∧
          alGet (if a ∈ matched then t else missOne t a).disappeared k
            = alGet t.disappeared k := by
        split
        · exact ⟨rfl, rfl⟩
        · exact missOne_get_ne t a k hka
      have hmax : (if a ∈ matched then t else missOne t a).max_disappeared
          = t.max_disappeared := by
        split
        · rfl
        · exact (missOne_frame t a).2.1
      have h2 := ih (if a ∈ matched then t else missOne t a) hnd.2 k hkL hkm
      rw [hmax, hstep.2] at h2
      constructor
      · intro hlt
        exact (h2.1 hlt)
      · intro hlt
        have h3 := h2.2 hlt
        exact ⟨h3.1.trans hstep.1, h3.2⟩

theorem missFold_val (matched : List Nat) (L : List Nat) :
    ∀ (t : CentroidTracker) (k : Nat) (o2 : TrackableObject),
    alGet (L.foldl (fun t2 oid => if oid ∈ matched then t2 else missOne t2 oid) t).objects k
      = some o2 →
    alGet t.objects k = some o2 := by
  induction L with
  | nil => intro t k o2 h; exact h
  | cons a L ih =>
    intro t k o2 h
    simp only [List.foldl_cons] at h
    have h2 := ih _ _ _ h
    revert h2
    split
    · exact id
    · intro h2
      unfold missOne deregister at h2
      simp only [] at h2
      revert h2
      split
      · intro h2
        by_cases hka : k = a
        · subst hka; rw [alGet_remove_self] at h2; exact absurd h2 (by simp)
        · rw [alGet_remove_ne _ _ _ hka] at h2; exact h2
      · exact id

/-! ## Registration phase lemmas -/

theorem register_frame (t : CentroidTracker) (c : Centroid) :
    (register t c).next_oid = t.next_oid + 1 ∧
    (register t c).max_disappeared = t.max_disappeared ∧
    (register t c).maxDist2 = t.maxDist2 ∧
    (register t c).disappeared = t.disappeared :=
  ⟨rfl, rfl, rfl, rfl⟩

theorem register_get_lt (t : CentroidTracker) (c : Centroid) (k : Nat)
    (h : k < t.next_oid) : alGet (register t c).objects k = alGet t.objects k := by
  unfold register
  exact alGet_insert_ne _ _ _ _ (Nat.ne_of_lt h)

theorem register_val (t : CentroidTracker) (c : Centroid) (k : Nat) (o2 : TrackableObject)
    (h : alGet (register t c).objects k = some o2) :
    alGet t.objects k = some o2 ∨ freshForm o2 := by
  unfold register at h
  by_cases hk : k = t.next_oid
  · subst hk
    rw [alGet_insert_self] at h
    right
    rw [← Option.some_inj.mp h]
    exact ⟨rfl, rfl, rfl⟩
  · rw [alGet_insert_ne _ _ _ _ hk] at h
    exact Or.inl h

theorem regFold_frame (input : List (Nat × Centroid)) (used : List Nat) :
    ∀ t : CentroidTracker,
    t.next_oid ≤ (input.foldl (fun t2 p => if p.1 ∈ used then t2 else register t2 p.2) t).next_oid ∧
    (input.foldl (fun t2 p => if p.1 ∈ used then t2 else register t2 p.2) t).max_disappeared
      = t.max_disappeared ∧
    (input.foldl (fun t2 p => if p.1 ∈ used then t2 else register t2 p.2) t).maxDist2
      = t.maxDist2 ∧
    (input.foldl (fun t2 p => if p.1 ∈ used then t2 else register t2 p.2) t).disappeared
      = t.disappeared := by
  induction input with
  | nil => intro t; exact ⟨Nat.le_refl _, rfl, rfl, rfl⟩
  | cons a l ih =>
    intro t
    simp only [List.foldl_cons]
    have h2 := ih (if a.1 ∈ used then t else register t a.2)
    have h1 : t.next_oid ≤ (if a.1 ∈ used then t else register t a.2).next_oid ∧
        (if a.1 ∈ used then t else register t a.2).max_disappeared = t.max_disappeared ∧
        (if a.1 ∈ used then t else register t a.2).maxDist2 = t.maxDist2 ∧
        (if a.1 ∈ used then t else register t a.2).disappeared = t.disappeared := by
      split
      · exact ⟨Nat.le_refl _, rfl, rfl, rfl⟩
      · exact ⟨Nat.le_succ _, rfl, rfl, rfl⟩
    exact ⟨Nat.le_trans h1.1 h2.1, h2.2.1.trans h1.2.1, h2.2.2.1.trans h1.2.2.1,
      h2.2.2.2.trans h1.2.2.2⟩

theorem regFold_get_lt (input : List (Nat × Centroid)) (used : List Nat) :
    ∀ (t : CentroidTracker) (k : Nat), k < t.next_oid →
    alGet (input.foldl (fun t2 p => if p.1 ∈ used then t2 else register t2 p.2) t).objects k
      = alGet t.objects k := by
  induction input with
  | nil => intro t k _; rfl
  | cons a l ih =>
    intro t k hk
    simp only [List.foldl_cons]
    have h1 : alGet (if a.1 ∈ used then t else register t a.2).objects k
        = alGet t.objects k := by
      split
      · rfl
      · exact register_get_lt t a.2 k hk
    have hk2 : k < (if a.1 ∈ used then t else register t a.2).next_oid := by
      split
      · exact hk
      · exact Nat.lt_succ_of_lt hk
    exact (ih _ k hk2).trans h1

theorem regFold_val (input : List (Nat × Centroid)) (used : List Nat) :
    ∀ (t : CentroidTracker) (k : Nat) (o2 : TrackableObject),
    alGet (input.foldl (fun t2 p => if p.1 ∈ used then t2 else register t2 p.2) t).objects k
      = some o2 →
    alGet t.objects k = some o2 ∨ freshForm o2 := by
  induction input with
  | nil => intro t k o2 h; exact Or.inl h
  | cons a l ih =>
    intro t k o2 h
    simp only [List.foldl_cons] at h
    rcases ih _ _ _ h with h2 | h2
    · revert h2
      split
      · exact fun h2 => Or.inl h2
      · exact fun h2 => register_val t a.2 k o2 h2
    · exact Or.inr h2

theorem registerPhase_get_lt (s : CentroidTracker) (input : List Centroid) (used : List Nat)
    (k : Nat) (hk : k < s.next_oid) :
    alGet (registerPhase s input used).objects k = alGet s.objects k ∧
    (registerPhase s input used).disappeared = s.disappeared ∧
    (registerPhase s input used).max_disappeared = s.max_disappeared ∧
    (registerPhase s input used).maxDist2 = s.maxDist2 ∧
    s.next_oid ≤ (registerPhase s input used).next_oid := by
  unfold registerPhase
  have h1 := regFold_get_lt input.enum used s k hk
  have h2 := regFold_frame input.enum used s
  exact ⟨h1, h2.2.2.2, h2.2.1, h2.2.2.1, h2.1⟩

theorem registerPhase_val (s : CentroidTracker) (input : List Centroid) (used : List Nat)
    (k : Nat) (o2 : TrackableObject)
    (h : alGet (registerPhase s input used).objects k = some o2) :
    alGet s.objects k = some o2 ∨ freshForm o2 :=
  regFold_val input.enum used s k o2 h

/-- The plain registration fold of the empty-registry branch. -/
theorem plainRegFold_val (input : List Centroid) :
    ∀ (t : CentroidTracker) (k : Nat) (o2 : TrackableObject),
    alGet (input.foldl register t).objects k = some o2 →
    alGet t.objects k = some o2 ∨ freshForm o2 := by
  induction input with
  | nil => intro t k o2 h; exact Or.inl h
  | cons a l ih =>
    intro t k o2 h
    simp only [List.foldl_cons] at h
    rcases ih _ _ _ h with h2 | h2
    · exact register_val t a k o2 h2
    · exact Or.inr h2

/-! ## Optimal assignment application lemmas -/

theorem applyOne_eq_or (input : List Centroid) (acc : CentroidTracker × List Nat × List Nat)
    (p : (Nat × List Int) × Nat) :
    applyOne input acc p = acc ∨
    ∃ obj, alGet acc.1.objects p.1.1 = some obj ∧ p.2 < input.length ∧
      p.1.2.getD p.2 0 ≠ i32Max ∧
      applyOne input acc p =
        ({ acc.1 with
            objects := alInsert acc.1.objects p.1.1
              { obj with centroids := obj.centroids ++ [input.getD p.2 { x := 0, y := 0 }] }
            disappeared := alRemove acc.1.disappeared p.1.1 },
          acc.2.1 ++ [p.1.1], acc.2.2 ++ [p.2]) := by
  unfold applyOne
  by_cases h1 : p.2 < input.length
  · rw [if_pos h1]
    cases h2 : alGet acc.1.objects p.1.1 with
    | none => left; rfl
    | some obj =>
      simp only []
      by_cases h3 : p.1.2.getD p.2 0 ≠ i32Max
      · rw [if_pos h3]
        right
        exact ⟨obj, rfl, h1, h3, rfl⟩
      · rw [if_neg h3]
        left; rfl
  · rw [if_neg h1]
    left; rfl

theorem applyOne_pos (input : List Centroid) (acc : CentroidTracker × List Nat × List Nat)
    (p : (Nat × List Int) × Nat) (obj : TrackableObject)
    (h2 : alGet acc.1.objects p.1.1 = some obj) (h1 : p.2 < input.length)
    (h3 : p.1.2.getD p.2 0 ≠ i32Max) :
    applyOne input acc p =
      ({ acc.1 with
          objects := alInsert acc.1.objects p.1.1
            { obj with centroids := obj.centroids ++ [input.getD p.2 { x := 0, y := 0 }] }
          disappeared := alRemove acc.1.disappeared p.1.1 },
        acc.2.1 ++ [p.1.1], acc.2.2 ++ [p.2]) := by
  unfold applyOne
  rw [if_pos h1, h2]
  simp only []
  rw [if_pos h3]

theorem applyOne_neg_cell (input : List Centroid) (acc : CentroidTracker × List Nat × List Nat)
    (p : (Nat × List Int) × Nat)
    (h3 : p.1.2.getD p.2 0 = i32Max) :
    applyOne input acc p = acc := by
  unfold applyOne
  by_cases h1 : p.2 < input.length
  · rw [if_pos h1]
    cases h2 : alGet acc.1.objects p.1.1 with
    | none => rfl
    | some obj =>
      simp only []
      rw [if_neg (by simpa using h3)]
  · rw [if_neg h1]

theorem applyFold_frame (input : List Centroid) (zs : List ((Nat × List Int) × Nat)) :
    ∀ acc : CentroidTracker × List Nat × List Nat,
    (zs.foldl (applyOne input) acc).1.next_oid = acc.1.next_oid ∧
    (zs.foldl (applyOne input) acc).1.max_disappeared = acc.1.max_disappeared ∧
    (zs.foldl (applyOne input) acc).1.maxDist2 = acc.1.maxDist2 ∧
    keysOf (zs.foldl (applyOne input) acc).1.objects = keysOf acc.1.objects := by
  induction zs with
  | nil => intro acc; exact ⟨rfl, rfl, rfl, rfl⟩
  | cons a zs ih =>
    intro acc
    simp only [List.foldl_cons]
    have h2 := ih (applyOne input acc a)
    have h1 : (applyOne input acc a).1.next_oid = acc.1.next_oid ∧
        (applyOne input acc a).1.max_disappeared = acc.1.max_disappeared ∧
        (applyOne input acc a).1.maxDist2 = acc.1.maxDist2 ∧
        keysOf (applyOne input acc a).1.objects = keysOf acc.1.objects := by
      rcases applyOne_eq_or input acc a with he | ⟨obj, hget, _, _, he⟩
      · rw [he]; exact ⟨rfl, rfl, rfl, rfl⟩
      · rw [he]
        refine ⟨rfl, rfl, rfl, ?_⟩
        exact keysOf_alInsert_mem _ _ _ ((mem_keysOf_iff_alGet _ _).mpr ⟨obj, hget⟩)
    exact ⟨h2.1.trans h1.1, h2.2.1.trans h1.2.1, h2.2.2.1.trans h1.2.2.1,
      h2.2.2.2.trans h1.2.2.2⟩

theorem applyFold_untouched (input : List Centroid) (zs : List ((Nat × List Int) × Nat)) :
    ∀ (acc : CentroidTracker × List Nat × List Nat) (k : Nat),
    k ∉ zs.map (fun q => q.1.1) →
    alGet (zs.foldl (applyOne input) acc).1.objects k = alGet acc.1.objects k ∧
    alGet (zs.foldl (applyOne input) acc).1.disappeared k = alGet acc.1.disappeared k ∧
    (k ∈ (zs.foldl (applyOne input) acc).2.1 ↔ k ∈ acc.2.1) := by
  induction zs with
  | nil => intro acc k _; exact ⟨rfl, rfl, Iff.rfl⟩
  | cons a zs ih =>
    intro acc k hk
    have hka : k ≠ a.1.1 := by
      intro he; exact hk (by simp [he])
    have hkz : k ∉ zs.map (fun q => q.1.1) := by
      intro hh; exact hk (by simp; right; simpa using hh)
    simp only [List.foldl_cons]
    have hstep : alGet (applyOne input acc a).1.objects k = alGet acc.1.objects k ∧
        alGet (applyOne input acc a).1.disappeared k = alGet acc.1.disappeared k ∧
        (k ∈ (applyOne input acc a).2.1 ↔ k ∈ acc.2.1) := by
      rcases applyOne_eq_or input acc a with he | ⟨obj, hget, _, _, he⟩
      · rw [he]; exact ⟨rfl, rfl, Iff.rfl⟩
      · rw [he]
        refine ⟨alGet_insert_ne _ _ _ _ hka, alGet_remove_ne _ _ _ hka, ?_⟩
        simp [hka]
    have h2 := ih (applyOne input acc a) k hkz
    exact ⟨h2.1.trans hstep.1, h2.2.1.trans hstep.2.1, h2.2.2.trans hstep.2.2⟩

theorem applyFold_unmatched (input : List Centroid) (zs : List ((Nat × List Int) × Nat)) :
    ∀ (acc : CentroidTracker × List Nat × List Nat) (k : Nat),
    k ∉ (zs.foldl (applyOne input) acc).2.1 →
    k ∉ acc.2.1 ∧
    alGet (zs.foldl (applyOne input) acc).1.objects k = alGet acc.1.objects k ∧
    alGet (zs.foldl (applyOne input) acc).1.disappeared k = alGet acc.1.disappeared k := by
  induction zs with
  | nil => intro acc k h; exact ⟨h, rfl, rfl⟩
  | cons a zs ih =>
    intro acc k h
    simp only [List.foldl_cons] at h ⊢
    have h2 := ih (applyOne input acc a) k h
    rcases applyOne_eq_or input acc a with he | ⟨obj, hget, _, _, he⟩
    · have e1 : (applyOne input acc a).2.1 = acc.2.1 := by rw [he]
      have e2 : alGet (applyOne input acc a).1.objects k = alGet acc.1.objects k := by rw [he]
      have e3 : alGet (applyOne input acc a).1.disappeared k = alGet acc.1.disappeared k := by
        rw [he]
      exact ⟨e1 ▸ h2.1, h2.2.1.trans e2, h2.2.2.trans e3⟩
    · have e1 : (applyOne input acc a).2.1 = acc.2.1 ++ [a.1.1] := by rw [he]
      have hnm : k ∉ acc.2.1 ∧ k ≠ a.1.1 := by
        have h1 := h2.1
        rw [e1] at h1
        simp at h1
        exact ⟨h1.1, h1.2⟩
      have e2 : alGet (applyOne input acc a).1.objects k = alGet acc.1.objects k := by
        rw [he]
        exact alGet_insert_ne _ _ _ _ hnm.2
      have e3 : alGet (applyOne input acc a).1.disappeared k = alGet acc.1.disappeared k := by
        rw [he]
        exact alGet_remove_ne _ _ _ hnm.2
      exact ⟨hnm.1, h2.2.1.trans e2, h2.2.2.trans e3⟩

theorem applyFold_effect (input : List Centroid) (zs : List ((Nat × List Int) × Nat)) :
    ∀ (acc : CentroidTracker × List Nat × List Nat),
    (zs.map (fun q => q.1.1)).Nodup →
    ∀ q ∈ zs, ∀ o, alGet acc.1.objects q.1.1 = some o → q.2 < input.length →
    (q.1.2.getD q.2 0 ≠ i32Max →
      alGet (zs.foldl (applyOne input) acc).1.objects q.1.1
        = some { o with centroids := o.centroids ++ [input.getD q.2 { x := 0, y := 0 }] } ∧
      alGet (zs.foldl (applyOne input) acc).1.disappeared q.1.1 = none ∧
      q.1.1 ∈ (zs.foldl (applyOne input) acc).2.1) ∧
    (q.1.2.getD q.2 0 = i32Max →
      alGet (zs.foldl (applyOne input) acc).1.objects q.1.1 = some o ∧
      alGet (zs.foldl (applyOne input) acc).1.disappeared q.1.1
        = alGet acc.1.disappeared q.1.1 ∧
      (q.1.1 ∈ (zs.foldl (applyOne input) acc).2.1 ↔ q.1.1 ∈ acc.2.1)) := by
  induction zs with
  | nil => intro acc _ q hq; simp at hq
  | cons a zs ih =>
    intro acc hnd q hq o hget hlen
    rw [List.map_cons, List.nodup_cons] at hnd
    simp only [List.foldl_cons]
    rcases List.mem_cons.mp hq with hqa | hqz
    · subst hqa
      have hunt := applyFold_untouched input zs (applyOne input acc q) q.1.1 hnd.1
      constructor
      · intro hcell
        rw [applyOne_pos input acc q o hget hlen hcell] at hunt ⊢
        refine ⟨hunt.1.trans (alGet_insert_self _ _ _), hunt.2.1.trans (alGet_remove_self _ _), ?_⟩
        rw [hunt.2.2]
        simp
      · intro hcell
        rw [applyOne_neg_cell input acc q hcell] at hunt ⊢
        exact ⟨hunt.1.trans hget, hunt.2.1, hunt.2.2⟩
    · have hqa : q.1.1 ≠ a.1.1 := by
        intro he
        exact hnd.1 (he ▸ List.mem_map.mpr ⟨q, hqz, rfl⟩)
      have hstep : alGet (applyOne input acc a).1.objects q.1.1 = alGet acc.1.objects q.1.1 ∧
          alGet (applyOne input acc a).1.disappeared q.1.1 = alGet acc.1.disappeared q.1.1 ∧
          ((applyOne input acc a).2.1 = acc.2.1 ∨
            (applyOne input acc a).2.1 = acc.2.1 ++ [a.1.1]) := by
        rcases applyOne_eq_or input acc a with he | ⟨obj, hget2, _, _, he⟩
        · rw [he]; exact ⟨rfl, rfl, Or.inl rfl⟩
        · rw [he]
          exact ⟨alGet_insert_ne _ _ _ _ hqa, alGet_remove_ne _ _ _ hqa, Or.inr rfl⟩
      have h2 := ih (applyOne input acc a) hnd.2 q hqz o (hstep.1.trans hget) hlen
      constructor
      · intro hcell
        exact h2.1 hcell
      · intro hcell
        have h3 := h2.2 hcell
        refine ⟨h3.1, h3.2.1.trans hstep.2.1, h3.2.2.trans ?_⟩
        rcases hstep.2.2 with he | he
        · rw [he]
        · rw [he]
          simp [hqa]
    
theorem applyFold_val (input : List Centroid) (zs : List ((Nat × List Int) × Nat)) :
    ∀ (acc : CentroidTracker × List Nat × List Nat),
    (zs.map (fun q => q.1.1)).Nodup →
    ∀ (k : Nat) (o2 : TrackableObject),
    alGet (zs.foldl (applyOne input) acc).1.objects k = some o2 →
    ∃ o, alGet acc.1.objects k = some o ∧ ValRel o o2 := by
  induction zs with
  | nil => intro acc _ k o2 h; exact ⟨o2, h, Or.inl rfl⟩
  | cons a zs ih =>
    intro acc hnd k o2 h
    rw [List.map_cons, List.nodup_cons] at hnd
    simp only [List.foldl_cons] at h
    by_cases hka : k = a.1.1
    · rw [hka] at h ⊢
      rw [(applyFold_untouched input zs _ a.1.1 hnd.1).1] at h
      rcases applyOne_eq_or input acc a with he | ⟨obj, hget2, _, _, he⟩
      · rw [he] at h; exact ⟨o2, h, Or.inl rfl⟩
      · rw [he] at h
        rw [alGet_insert_self] at h
        exact ⟨obj, hget2, Or.inr ⟨_, (Option.some_inj.mp h).symm⟩⟩
    · have h2 := ih (applyOne input acc a) hnd.2 k o2 h
      rcases h2 with ⟨o, hget, hrel⟩
      rcases applyOne_eq_or input acc a with he | ⟨obj, _, _, _, he⟩
      · rw [he] at hget; exact ⟨o, hget, hrel⟩
      · rw [he] at hget
        rw [alGet_insert_ne _ _ _ _ hka] at hget
        exact ⟨o, hget, hrel⟩

theorem applyFold_dis_sub (input : List Centroid) (zs : List ((Nat × List Int) × Nat)) :
    ∀ (acc : CentroidTracker × List Nat × List Nat) (k d : Nat),
    alGet (zs.foldl (applyOne input) acc).1.disappeared k = some d →
    alGet acc.1.disappeared k = some d := by
  induction zs with
  | nil => intro acc k d h; exact h
  | cons a zs ih =>
    intro acc k d h
    simp only [List.foldl_cons] at h
    have h2 := ih _ _ _ h
    rcases applyOne_eq_or input acc a with he | ⟨obj, _, _, _, he⟩
    · rw [he] at h2; exact h2
    · rw [he] at h2
      by_cases hka : k = a.1.1
      · subst hka; rw [alGet_remove_self] at h2; exact absurd h2 (by simp)
      · rw [alGet_remove_ne _ _ _ hka] at h2; exact h2

/-! ## updateCore case analysis -/

theorem updateCore_cases (s : CentroidTracker) (rects : List Rect) :
    (s.objects.isEmpty = true ∧
      updateCore s rects =
        ((rects.map Centroid.from_rect).foldl register s,
          Except.ok ([], [], current_centroids ((rects.map Centroid.from_rect).foldl register s)))) ∨
    (s.objects.isEmpty = false ∧
      (s.objects.length ≤ 5 ∧ (rects.map Centroid.from_rect).length ≤ 5) ∧
      updateCore s rects =
        ((greedy_update s (rects.map Centroid.from_rect)).1,
          Except.ok ((greedy_update s (rects.map Centroid.from_rect)).2.1,
            (greedy_update s (rects.map Centroid.from_rect)).2.2,
            current_centroids (greedy_update s (rects.map Centroid.from_rect)).1))) ∨
    (s.objects.isEmpty = false ∧
      ¬ (s.objects.length ≤ 5 ∧ (rects.map Centroid.from_rect).length ≤ 5) ∧
      rowsOk (costMatrix s (rects.map Centroid.from_rect) (keysOf s.objects)) = false ∧
      updateCore s rects = (s, Except.error UpdateErr.matrixFormat)) ∨
    (s.objects.isEmpty = false ∧
      ¬ (s.objects.length ≤ 5 ∧ (rects.map Centroid.from_rect).length ≤ 5) ∧
      rowsOk (costMatrix s (rects.map Centroid.from_rect) (keysOf s.objects)) = true ∧
      kuhnMunkresMin (costMatrix s (rects.map Centroid.from_rect) (keysOf s.objects)) = none ∧
      updateCore s rects = (s, Except.error UpdateErr.kmAssert)) ∨
    (s.objects.isEmpty = false ∧
      ¬ (s.objects.length ≤ 5 ∧ (rects.map Centroid.from_rect).length ≤ 5) ∧
      rowsOk (costMatrix s (rects.map Centroid.from_rect) (keysOf s.objects)) = true ∧
      ∃ ca, kuhnMunkresMin (costMatrix s (rects.map Centroid.from_rect) (keysOf s.objects))
          = some ca ∧
        updateCore s rects =
          (registerPhase
              (missPhase
                (applyAssignments s (keysOf s.objects) (rects.map Centroid.from_rect)
                  (costMatrix s (rects.map Centroid.from_rect) (keysOf s.objects)) ca.2).1
                (keysOf s.objects)
                (applyAssignments s (keysOf s.objects) (rects.map Centroid.from_rect)
                  (costMatrix s (rects.map Centroid.from_rect) (keysOf s.objects)) ca.2).2.1)
              (rects.map Centroid.from_rect)
              (applyAssignments s (keysOf s.objects) (rects.map Centroid.from_rect)
                (costMatrix s (rects.map Centroid.from_rect) (keysOf s.objects)) ca.2).2.2,
            Except.ok
              ((applyAssignments s (keysOf s.objects) (rects.map Centroid.from_rect)
                  (costMatrix s (rects.map Centroid.from_rect) (keysOf s.objects)) ca.2).2.1,
                (applyAssignments s (keysOf s.objects) (rects.map Centroid.from_rect)
                  (costMatrix s (rects.map Centroid.from_rect) (keysOf s.objects)) ca.2).2.2,
                current_centroids
                  (registerPhase
                    (missPhase
                      (applyAssignments s (keysOf s.objects) (rects.map Centroid.from_rect)
                        (costMatrix s (rects.map Centroid.from_rect) (keysOf s.objects)) ca.2).1
                      (keysOf s.objects)
                      (applyAssignments s (keysOf s.objects) (rects.map Centroid.from_rect)
                        (costMatrix s (rects.map Centroid.from_rect) (keysOf s.objects)) ca.2).2.1)
                    (rects.map Centroid.from_rect)
                    (applyAssignments s (keysOf s.objects) (rects.map Centroid.from_rect)
                      (costMatrix s (rects.map Centroid.from_rect) (keysOf s.objects)) ca.2).2.2)))) := by
  by_cases h1 : s.objects.isEmpty = true
  · left
    refine ⟨h1, ?_⟩
    unfold updateCore
    rw [if_pos h1]
  · have h1f : s.objects.isEmpty = false := by
      cases h : s.objects.isEmpty
      · rfl
      · exact absurd h h1
    right
    by_cases h2 : s.objects.length ≤ 5 ∧ (rects.map Centroid.from_rect).length ≤ 5
    · left
      refine ⟨h1f, h2, ?_⟩
      unfold updateCore
      rw [if_neg h1, if_pos h2]
    · right
      cases h3 : rowsOk (costMatrix s (rects.map Centroid.from_rect) (keysOf s.objects)) with
      | false =>
        left
        refine ⟨h1f, h2, rfl, ?_⟩
        unfold updateCore
        rw [if_neg h1, if_neg h2]
        simp only []
        rw [show (s.objects.map (fun p => p.1)) = keysOf s.objects from rfl, h3]
        rfl
      | true =>
        right
        cases h4 : kuhnMunkresMin (costMatrix s (rects.map Centroid.from_rect) (keysOf s.objects)) with
        | none =>
          left
          refine ⟨h1f, h2, rfl, rfl, ?_⟩
          unfold updateCore
          rw [if_neg h1, if_neg h2]
          simp only []
          rw [show (s.objects.map (fun p => p.1)) = keysOf s.objects from rfl, h3, h4]
          rfl
        | some ca =>
          right
          refine ⟨h1f, h2, rfl, ca, rfl, ?_⟩
          unfold updateCore
          rw [if_neg h1, if_neg h2]
          simp only []
          rw [show (s.objects.map (fun p => p.1)) = keysOf s.objects from rfl, h3, h4]
          rfl

/-! ## Auxiliary lemmas for the optimal branch and invariant preservation -/

theorem zipzip_keys_sublist {α β γ : Type} :
    ∀ (x : List α) (y : List β) (z : List γ),
    (((x.zip y).zip z).map (fun q => q.1.1)).Sublist x := by
  intro x
  induction x with
  | nil => intro y z; simp
  | cons a x ih =>
    intro y z
    cases y with
    | nil => simp
    | cons b y =>
      cases z with
      | nil => simp
      | cons c z =>
        simp only [List.zip_cons_cons, List.map_cons]
        exact List.Sublist.cons₂ _ (ih y z)

theorem applyFold_matched_sub (input : List Centroid) (zs : List ((Nat × List Int) × Nat)) :
    ∀ (acc : CentroidTracker × List Nat × List Nat) (k : Nat),
    k ∈ (zs.foldl (applyOne input) acc).2.1 →
    k ∈ acc.2.1 ∨ k ∈ zs.map (fun q => q.1.1) := by
  induction zs with
  | nil => intro acc k h; exact Or.inl h
  | cons a zs ih =>
    intro acc k h
    simp only [List.foldl_cons] at h
    rcases ih _ _ h with h1 | h1
    · rcases applyOne_eq_or input acc a with he | ⟨obj, _, _, _, he⟩
      · rw [he] at h1; exact Or.inl h1
      · rw [he] at h1
        rcases List.mem_append.mp h1 with h2 | h2
        · exact Or.inl h2
        · simp at h2; right; simp [h2]
    · right; exact List.mem_cons_of_mem _ h1

theorem applyFold_matched_effect (input : List Centroid) (zs : List ((Nat × List Int) × Nat)) :
    ∀ (acc : CentroidTracker × List Nat × List Nat),
    (zs.map (fun q => q.1.1)).Nodup →
    (∀ k2 ∈ zs.map (fun q => q.1.1), k2 ∉ acc.2.1) →
    ∀ q ∈ zs, ∀ o, alGet acc.1.objects q.1.1 = some o →
    q.1.1 ∈ (zs.foldl (applyOne input) acc).2.1 →
    ∃ c, alGet (zs.foldl (applyOne input) acc).1.objects q.1.1
        = some { o with centroids := o.centroids ++ [c] } ∧
      alGet (zs.foldl (applyOne input) acc).1.disappeared q.1.1 = none := by
  induction zs with
  | nil => intro acc _ _ q hq; simp at hq
  | cons a zs ih =>
    intro acc hnd hfresh q hq o hget hm
    rw [List.map_cons, List.nodup_cons] at hnd
    simp only [List.foldl_cons] at hm ⊢
    rcases List.mem_cons.mp hq with hqa | hqz
    · subst hqa
      rcases applyOne_eq_or input acc q with he | ⟨obj, hget2, hlen, hcell, he⟩
      · rw [he] at hm ⊢
        rcases applyFold_matched_sub input zs acc q.1.1 hm with h1 | h1
        · exact absurd h1 (hfresh q.1.1 (by simp))
        · exact absurd h1 hnd.1
      · have hobj : obj = o := by
          rw [hget] at hget2
          exact (Option.some_inj.mp hget2).symm
        subst hobj
        have hunt := applyFold_untouched input zs (applyOne input acc q) q.1.1 hnd.1
        refine ⟨input.getD q.2 { x := 0, y := 0 }, ?_, ?_⟩
        · rw [hunt.1, he]
          exact alGet_insert_self _ _ _
        · rw [hunt.2.1, he]
          exact alGet_remove_self _ _
    · have hqa : q.1.1 ≠ a.1.1 := by
        intro he
        exact hnd.1 (he ▸ List.mem_map.mpr ⟨q, hqz, rfl⟩)
      rcases applyOne_eq_or input acc a with he | ⟨obj, hget2, _, _, he⟩
      · rw [he] at hm ⊢
        exact ih acc hnd.2 (fun k2 hk2 => hfresh k2 (List.mem_cons_of_mem _ hk2)) q hqz o hget hm
      · have hget3 : alGet (applyOne input acc a).1.objects q.1.1 = some o := by
          rw [he]
          rw [alGet_insert_ne _ _ _ _ hqa]
          exact hget
        have hfresh2 : ∀ k2 ∈ zs.map (fun q2 => q2.1.1), k2 ∉ (applyOne input acc a).2.1 := by
          intro k2 hk2
          rw [he]
          intro hmem
          rcases List.mem_append.mp hmem with h1 | h1
          · exact hfresh k2 (List.mem_cons_of_mem _ hk2) h1
          · simp at h1
            exact hnd.1 (h1 ▸ hk2)
        exact ih (applyOne input acc a) hnd.2 hfresh2 q hqz o hget3 hm

theorem missOne_keys_sublist (t : CentroidTracker) (a : Nat) :
    (keysOf (missOne t a).objects).Sublist (keysOf t.objects) := by
  unfold missOne deregister
  simp only []
  split
  · rw [keysOf_alRemove]
    exact List.filter_sublist _
  · exact List.Sublist.refl _

theorem missFold_keys_sublist (matched : List Nat) (L : List Nat) :
    ∀ t : CentroidTracker,
    (keysOf (L.foldl (fun t2 oid => if oid ∈ matched then t2 else missOne t2 oid) t).objects).Sublist
      (keysOf t.objects) := by
  induction L with
  | nil => intro t; exact List.Sublist.refl _
  | cons a L ih =>
    intro t
    simp only [List.foldl_cons]
    refine (ih _).trans ?_
    split
    · exact List.Sublist.refl _
    · exact missOne_keys_sublist t a

theorem missOne_dis_keys (t : CentroidTracker) (a k : Nat)
    (h : k ∈ keysOf (missOne t a).disappeared) :
    k ∈ keysOf t.disappeared ∨ k = a := by
  by_cases hka : k = a
  · exact Or.inr hka
  · left
    rcases (mem_keysOf_iff_alGet _ _).mp h with ⟨d, hd⟩
    rw [(missOne_get_ne t a k hka).2] at hd
    exact (mem_keysOf_iff_alGet _ _).mpr ⟨d, hd⟩

theorem missFold_dis_keys (matched : List Nat) (L : List Nat) :
    ∀ (t : CentroidTracker) (k : Nat),
    k ∈ keysOf (L.foldl (fun t2 oid => if oid ∈ matched then t2 else missOne t2 oid) t).disappeared →
    k ∈ keysOf t.disappeared ∨ k ∈ L := by
  induction L with
  | nil => intro t k h; exact Or.inl h
  | cons a L ih =>
    intro t k h
    simp only [List.foldl_cons] at h
    rcases ih _ _ h with h1 | h1
    · revert h1
      split
      · exact fun h1 => Or.inl h1
      · intro h1
        rcases missOne_dis_keys t a k h1 with h2 | h2
        · exact Or.inl h2
        · right; simp [h2]
    · right; exact List.mem_cons_of_mem _ h1

theorem greedyFold_dis_keys (input : List Centroid) (L : List Nat) (acc : GreedyAcc) (k : Nat)
    (h : k ∈ keysOf (L.foldl (greedyMatchStep input) acc).s.disappeared) :
    k ∈ keysOf acc.s.disappeared := by
  rcases (mem_keysOf_iff_alGet _ _).mp h with ⟨d, hd⟩
  exact (mem_keysOf_iff_alGet _ _).mpr ⟨d, greedyFold_dis_sub input L acc k d hd⟩

theorem applyFold_dis_keys (input : List Centroid) (zs : List ((Nat × List Int) × Nat))
    (acc : CentroidTracker × List Nat × List Nat) (k : Nat)
    (h : k ∈ keysOf (zs.foldl (applyOne input) acc).1.disappeared) :
    k ∈ keysOf acc.1.disappeared := by
  rcases (mem_keysOf_iff_alGet _ _).mp h with ⟨d, hd⟩
  exact (mem_keysOf_iff_alGet _ _).mpr ⟨d, applyFold_dis_sub input zs acc k d hd⟩

theorem register_reg_inv (t : CentroidTracker) (c : Centroid)
    (hnd : (keysOf t.objects).Nodup) (hlt : ∀ k ∈ keysOf t.objects, k < t.next_oid) :
    (keysOf (register t c).objects).Nodup ∧
    (∀ k ∈ keysOf (register t c).objects, k < (register t c).next_oid) := by
  have hnm : t.next_oid ∉ keysOf t.objects := fun hh => Nat.lt_irrefl _ (hlt _ hh)
  have hkeys : keysOf (register t c).objects = keysOf t.objects ++ [t.next_oid] := by
    unfold register
    exact keysOf_alInsert_not_mem _ _ _ hnm
  constructor
  · rw [hkeys]
    refine List.Nodup.append hnd (List.nodup_singleton _) ?_
    intro a ha hb
    simp at hb
    exact hnm (hb ▸ ha)
  · intro k hk
    rw [hkeys] at hk
    rcases List.mem_append.mp hk with h1 | h1
    · exact Nat.lt_succ_of_lt (hlt _ h1)
    · simp at h1
      subst h1
      exact Nat.lt_succ_self _

theorem regFold_reg_inv (input : List (Nat × Centroid)) (used : List Nat) :
    ∀ t : CentroidTracker,
    (keysOf t.objects).Nodup → (∀ k ∈ keysOf t.objects, k < t.next_oid) →
    (keysOf ((input.foldl (fun t2 p => if p.1 ∈ used then t2 else register t2 p.2) t)).objects).Nodup ∧
    (∀ k ∈ keysOf ((input.foldl (fun t2 p => if p.1 ∈ used then t2 else register t2 p.2) t)).objects,
      k < (input.foldl (fun t2 p => if p.1 ∈ used then t2 else register t2 p.2) t).next_oid) := by
  induction input with
  | nil => intro t h1 h2; exact ⟨h1, h2⟩
  | cons a l ih =>
    intro t h1 h2
    simp only [List.foldl_cons]
    have hstep : (keysOf (if a.1 ∈ used then t else register t a.2).objects).Nodup ∧
        (∀ k ∈ keysOf (if a.1 ∈ used then t else register t a.2).objects,
          k < (if a.1 ∈ used then t else register t a.2).next_oid) := by
      split
      · exact ⟨h1, h2⟩
      · exact register_reg_inv t a.2 h1 h2
    exact ih _ hstep.1 hstep.2

theorem plainRegFold_frame (input : List Centroid) :
    ∀ t : CentroidTracker,
    t.next_oid ≤ (input.foldl register t).next_oid ∧
    (input.foldl register t).max_disappeared = t.max_disappeared ∧
    (input.foldl register t).maxDist2 = t.maxDist2 ∧
    (input.foldl register t).disappeared = t.disappeared := by
  induction input with
  | nil => intro t; exact ⟨Nat.le_refl _, rfl, rfl, rfl⟩
  | cons a l ih =>
    intro t
    simp only [List.foldl_cons]
    have h2 := ih (register t a)
    exact ⟨Nat.le_trans (Nat.le_succ _) h2.1, h2.2.1, h2.2.2.1, h2.2.2.2⟩

theorem plainRegFold_reg_inv (input : List Centroid) :
    ∀ t : CentroidTracker,
    (keysOf t.objects).Nodup → (∀ k ∈ keysOf t.objects, k < t.next_oid) →
    (keysOf (input.foldl register t).objects).Nodup ∧
    (∀ k ∈ keysOf (input.foldl register t).objects, k < (input.foldl register t).next_oid) := by
  induction input with
  | nil => intro t h1 h2; exact ⟨h1, h2⟩
  | cons a l ih =>
    intro t h1 h2
    simp only [List.foldl_cons]
    have hstep := register_reg_inv t a h1 h2
    exact ih _ hstep.1 hstep.2

theorem greedy_update_eq (s : CentroidTracker) (input : List Centroid) :
    greedy_update s input =
      (registerPhase
          (missPhase ((keysOf s.objects).foldl (greedyMatchStep input)
              { s := s, used := [], matched := [] }).s
            (keysOf s.objects)
            ((keysOf s.objects).foldl (greedyMatchStep input)
              { s := s, used := [], matched := [] }).matched)
          input
          ((keysOf s.objects).foldl (greedyMatchStep input)
            { s := s, used := [], matched := [] }).used,
        ((keysOf s.objects).foldl (greedyMatchStep input)
          { s := s, used := [], matched := [] }).matched,
        ((keysOf s.objects).foldl (greedyMatchStep input)
          { s := s, used := [], matched := [] }).used) := rfl

/-! ## Master lemmas about updateCore -/

/-- A failing update leaves the tracker state exactly as it was: both error
returns happen before any mutation of the registry. -/
theorem updateCore_error (s : CentroidTracker) (rects : List Rect) (s2 : CentroidTracker)
    (e : UpdateErr) (h : updateCore s rects = (s2, Except.error e)) : s2 = s := by
  rcases updateCore_cases s rects with ⟨_, he⟩ | ⟨_, _, he⟩ | ⟨_, _, _, he⟩ |
    ⟨_, _, _, _, he⟩ | ⟨_, _, _, ca, hkm, he⟩ <;> rw [he] at h
  · exact absurd (congrArg Prod.snd h) (by simp)
  · exact absurd (congrArg Prod.snd h) (by simp)
  · exact (congrArg Prod.fst h).symm
  · exact (congrArg Prod.fst h).symm
  · exact absurd (congrArg Prod.snd h) (by simp)

theorem registerPhase_frame (s : CentroidTracker) (input : List Centroid) (used : List Nat) :
    s.next_oid ≤ (registerPhase s input used).next_oid ∧
    (registerPhase s input used).max_disappeared = s.max_disappeared ∧
    (registerPhase s input used).maxDist2 = s.maxDist2 ∧
    (registerPhase s input used).disappeared = s.disappeared :=
  regFold_frame input.enum used s

/-- Configuration fields never change, and the id counter never decreases,
whatever an update call does. -/
theorem updateCore_frame (s : CentroidTracker) (rects : List Rect) :
    (updateCore s rects).1.max_disappeared = s.max_disappeared ∧
    (updateCore s rects).1.maxDist2 = s.maxDist2 ∧
    s.next_oid ≤ (updateCore s rects).1.next_oid := by
  rcases updateCore_cases s rects with ⟨_, he⟩ | ⟨_, _, he⟩ | ⟨_, _, _, he⟩ |
    ⟨_, _, _, _, he⟩ | ⟨_, _, _, ca, hkm, he⟩ <;> rw [he]
  · have h := plainRegFold_frame (rects.map Centroid.from_rect) s
    exact ⟨h.2.1, h.2.2.1, h.1⟩
  · rw [greedy_update_eq]
    simp only []
    have hg := greedyFold_frame (rects.map Centroid.from_rect) (keysOf s.objects)
      { s := s, used := [], matched := [] }
    have hm := missPhase_frame ((keysOf s.objects).foldl
        (greedyMatchStep (rects.map Centroid.from_rect))
        { s := s, used := [], matched := [] }).s (keysOf s.objects)
      ((keysOf s.objects).foldl (greedyMatchStep (rects.map Centroid.from_rect))
        { s := s, used := [], matched := [] }).matched
    have hr := registerPhase_frame (missPhase ((keysOf s.objects).foldl
        (greedyMatchStep (rects.map Centroid.from_rect))
        { s := s, used := [], matched := [] }).s (keysOf s.objects)
      ((keysOf s.objects).foldl (greedyMatchStep (rects.map Centroid.from_rect))
        { s := s, used := [], matched := [] }).matched)
      (rects.map Centroid.from_rect)
      ((keysOf s.objects).foldl (greedyMatchStep (rects.map Centroid.from_rect))
        { s := s, used := [], matched := [] }).used
    refine ⟨hr.2.1.trans (hm.2.1.trans hg.2.1), hr.2.2.1.trans (hm.2.2.trans hg.2.2.1), ?_⟩
    calc s.next_oid = _ := (hg.1.trans (rfl : ({ s := s, used := [], matched := [] } : GreedyAcc).s.next_oid = s.next_oid)).symm
      _ = _ := hm.1.symm
      _ ≤ _ := hr.1
  · exact ⟨rfl, rfl, Nat.le_refl _⟩
  · exact ⟨rfl, rfl, Nat.le_refl _⟩
  · simp only []
    have ha := applyFold_frame (rects.map Centroid.from_rect)
      (((keysOf s.objects).zip (costMatrix s (rects.map Centroid.from_rect)
        (keysOf s.objects))).zip ca.2) (s, [], [])
    have hm := missPhase_frame (applyAssignments s (keysOf s.objects)
        (rects.map Centroid.from_rect)
        (costMatrix s (rects.map Centroid.from_rect) (keysOf s.objects)) ca.2).1
      (keysOf s.objects)
      (applyAssignments s (keysOf s.objects) (rects.map Centroid.from_rect)
        (costMatrix s (rects.map Centroid.from_rect) (keysOf s.objects)) ca.2).2.1
    have hr := registerPhase_frame (missPhase (applyAssignments s (keysOf s.objects)
        (rects.map Centroid.from_rect)
        (costMatrix s (rects.map Centroid.from_rect) (keysOf s.objects)) ca.2).1
      (keysOf s.objects)
      (applyAssignments s (keysOf s.objects) (rects.map Centroid.from_rect)
        (costMatrix s (rects.map Centroid.from_rect) (keysOf s.objects)) ca.2).2.1)
      (rects.map Centroid.from_rect)
      (applyAssignments s (keysOf s.objects) (rects.map Centroid.from_rect)
        (costMatrix s (rects.map Centroid.from_rect) (keysOf s.objects)) ca.2).2.2
    refine ⟨hr.2.1.trans (hm.2.1.trans ha.2.1), hr.2.2.1.trans (hm.2.2.trans ha.2.2.1), ?_⟩
    calc s.next_oid = _ := ha.1.symm
      _ = _ := hm.1.symm
      _ ≤ _ := hr.1

theorem greedyBranch_val (s : CentroidTracker) (input : List Centroid)
    (hnd : (keysOf s.objects).Nodup) (k : Nat) (o2 : TrackableObject)
    (h : alGet (greedy_update s input).1.objects k = some o2) :
    (∃ o, alGet s.objects k = some o ∧ ValRel o o2) ∨ freshForm o2 := by
  rw [greedy_update_eq] at h
  simp only [] at h
  rcases registerPhase_val _ _ _ _ _ h with h1 | h1
  · have h2 := missFold_val
      ((keysOf s.objects).foldl (greedyMatchStep input) { s := s, used := [], matched := [] }).matched
      (keysOf s.objects) _ _ _ h1
    rcases greedyFold_val input (keysOf s.objects) { s := s, used := [], matched := [] }
      hnd k o2 h2 with ⟨o, ho, hrel⟩
    exact Or.inl ⟨o, ho, hrel⟩
  · exact Or.inr h1

theorem optimalBranch_val (s : CentroidTracker) (input : List Centroid) (a : List Nat)
    (hnd : (keysOf s.objects).Nodup) (k : Nat) (o2 : TrackableObject)
    (h : alGet (registerPhase
        (missPhase (applyAssignments s (keysOf s.objects) input
            (costMatrix s input (keysOf s.objects)) a).1
          (keysOf s.objects)
          (applyAssignments s (keysOf s.objects) input
            (costMatrix s input (keysOf s.objects)) a).2.1)
        input
        (applyAssignments s (keysOf s.objects) input
          (costMatrix s input (keysOf s.objects)) a).2.2).objects k = some o2) :
    (∃ o, alGet s.objects k = some o ∧ ValRel o o2) ∨ freshForm o2 := by
  have hznd : ((((keysOf s.objects).zip (costMatrix s input (keysOf s.objects))).zip a).map
      (fun q => q.1.1)).Nodup :=
    (zipzip_keys_sublist _ _ _).nodup hnd
  rcases registerPhase_val _ _ _ _ _ h with h1 | h1
  · have h2 := missFold_val
      (applyAssignments s (keysOf s.objects) input
        (costMatrix s input (keysOf s.objects)) a).2.1
      (keysOf s.objects) _ _ _ h1
    rcases applyFold_val input (((keysOf s.objects).zip
        (costMatrix s input (keysOf s.objects))).zip a) (s, [], []) hznd k o2 h2 with ⟨o, ho, hrel⟩
    exact Or.inl ⟨o, ho, hrel⟩
  · exact Or.inr h1

/-- Per-key value provenance of a successful update: every object in the
post registry is either an untouched or once-appended pre object, or a
fresh registration. -/
theorem updateCore_val (s : CentroidTracker) (rects : List Rect) (s2 : CentroidTracker)
    (m u : List Nat) (out : List (Nat × Centroid))
    (hnd : (keysOf s.objects).Nodup)
    (h : updateCore s rects = (s2, Except.ok (m, u, out))) :
    ∀ k o2, alGet s2.objects k = some o2 →
      (∃ o, alGet s.objects k = some o ∧ ValRel o o2) ∨ freshForm o2 := by
  rcases updateCore_cases s rects with ⟨_, he⟩ | ⟨_, _, he⟩ | ⟨_, _, _, he⟩ |
    ⟨_, _, _, _, he⟩ | ⟨_, _, _, ca, hkm, he⟩ <;> rw [he] at h
  · intro k o2 hk
    have hs2 : (rects.map Centroid.from_rect).foldl register s = s2 := congrArg Prod.fst h
    rw [← hs2] at hk
    rcases plainRegFold_val (rects.map Centroid.from_rect) s k o2 hk with h1 | h1
    · exact Or.inl ⟨o2, h1, Or.inl rfl⟩
    · exact Or.inr h1
  · intro k o2 hk
    have hs2 : (greedy_update s (rects.map Centroid.from_rect)).1 = s2 := congrArg Prod.fst h
    rw [← hs2] at hk
    exact greedyBranch_val s (rects.map Centroid.from_rect) hnd k o2 hk
  · exact absurd (congrArg Prod.snd h) (by simp)
  · exact absurd (congrArg Prod.snd h) (by simp)
  · intro k o2 hk
    have hs2 := congrArg Prod.fst h
    simp only [] at hs2
    rw [← hs2] at hk
    exact optimalBranch_val s (rects.map Centroid.from_rect) ca.2 hnd k o2 hk

theorem missPhase_untouched (s : CentroidTracker) (oids matched : List Nat) (k : Nat)
    (h : k ∉ oids ∨ k ∈ matched) :
    alGet (missPhase s oids matched).objects k = alGet s.objects k ∧
    alGet (missPhase s oids matched).disappeared k = alGet s.disappeared k :=
  missFold_untouched matched oids s k h

theorem missPhase_effect (s : CentroidTracker) (oids matched : List Nat)
    (hnd : oids.Nodup) (k : Nat) (hk : k ∈ oids) (hkm : k ∉ matched) :
    (s.max_disappeared < (alGet s.disappeared k).getD 0 + 1 →
      alGet (missPhase s oids matched).objects k = none ∧
      alGet (missPhase s oids matched).disappeared k = none) ∧
    (¬ s.max_disappeared < (alGet s.disappeared k).getD 0 + 1 →
      alGet (missPhase s oids matched).objects k = alGet s.objects k ∧
      alGet (missPhase s oids matched).disappeared k
        = some ((alGet s.disappeared k).getD 0 + 1)) :=
  missFold_effect matched oids s hnd k hk hkm

theorem greedyBranch_prov (s : CentroidTracker) (input : List Centroid)
    (hnd : (keysOf s.objects).Nodup) (hlt : ∀ k ∈ keysOf s.objects, k < s.next_oid)
    (oid : Nat) (o : TrackableObject) (hget : alGet s.objects oid = some o) :
    (oid ∈ (greedy_update s input).2.1 →
      ∃ c, alGet (greedy_update s input).1.objects oid
          = some { o with centroids := o.centroids ++ [c] } ∧
        alGet (greedy_update s input).1.disappeared oid = none) ∧
    (oid ∉ (greedy_update s input).2.1 →
      (¬ s.max_disappeared < (alGet s.disappeared oid).getD 0 + 1 →
        alGet (greedy_update s input).1.objects oid = some o ∧
        alGet (greedy_update s input).1.disappeared oid
          = some ((alGet s.disappeared oid).getD 0 + 1)) ∧
      (s.max_disappeared < (alGet s.disappeared oid).getD 0 + 1 →
        alGet (greedy_update s input).1.objects oid = none ∧
        alGet (greedy_update s input).1.disappeared oid = none)) := by
  have hmem : oid ∈ keysOf s.objects := (mem_keysOf_iff_alGet _ _).mpr ⟨o, hget⟩
  have holt : oid < s.next_oid := hlt _ hmem
  rw [greedy_update_eq]
  simp only []
  have hgframe := greedyFold_frame input (keysOf s.objects) { s := s, used := [], matched := [] }
  have hmframe := missPhase_frame ((keysOf s.objects).foldl (greedyMatchStep input)
      { s := s, used := [], matched := [] }).s (keysOf s.objects)
    ((keysOf s.objects).foldl (greedyMatchStep input) { s := s, used := [], matched := [] }).matched
  have holt2 : oid < (missPhase ((keysOf s.objects).foldl (greedyMatchStep input)
      { s := s, used := [], matched := [] }).s (keysOf s.objects)
      ((keysOf s.objects).foldl (greedyMatchStep input)
        { s := s, used := [], matched := [] }).matched).next_oid := by
    rw [hmframe.1, hgframe.1]
    exact holt
  have hreg := registerPhase_get_lt (missPhase ((keysOf s.objects).foldl (greedyMatchStep input)
      { s := s, used := [], matched := [] }).s (keysOf s.objects)
      ((keysOf s.objects).foldl (greedyMatchStep input)
        { s := s, used := [], matched := [] }).matched) input
    ((keysOf s.objects).foldl (greedyMatchStep input)
      { s := s, used := [], matched := [] }).used oid holt2
  constructor
  · intro hm
    rcases greedyFold_matched_effect input (keysOf s.objects)
        { s := s, used := [], matched := [] } hnd (by intro k2 _; simp)
        oid hmem o hget hm with ⟨c, hobj, hdis⟩
    have hunt := missPhase_untouched ((keysOf s.objects).foldl (greedyMatchStep input)
        { s := s, used := [], matched := [] }).s (keysOf s.objects)
      ((keysOf s.objects).foldl (greedyMatchStep input)
        { s := s, used := [], matched := [] }).matched oid (Or.inr hm)
    refine ⟨c, ?_, ?_⟩
    · rw [hreg.1, hunt.1, hobj]
    · rw [show alGet (registerPhase _ input _).disappeared oid
          = alGet (missPhase _ (keysOf s.objects) _).disappeared oid from by rw [hreg.2.1]]
      rw [hunt.2, hdis]
  · intro hm
    have hunm := greedyFold_unmatched input (keysOf s.objects)
      { s := s, used := [], matched := [] } oid hm
    have heff := missPhase_effect ((keysOf s.objects).foldl (greedyMatchStep input)
        { s := s, used := [], matched := [] }).s (keysOf s.objects)
      ((keysOf s.objects).foldl (greedyMatchStep input)
        { s := s, used := [], matched := [] }).matched hnd oid hmem hm
    rw [hunm.2.2, hgframe.2.1] at heff
    constructor
    · intro hth
      have h2 := heff.2 hth
      refine ⟨?_, ?_⟩
      · rw [hreg.1, h2.1, hunm.2.1, hget]
      · rw [show alGet (registerPhase _ input _).disappeared oid
            = alGet (missPhase _ (keysOf s.objects) _).disappeared oid from by rw [hreg.2.1]]
        rw [h2.2]
    · intro hth
      have h2 := heff.1 hth
      refine ⟨?_, ?_⟩
      · rw [hreg.1, h2.1]
      · rw [show alGet (registerPhase _ input _).disappeared oid
            = alGet (missPhase _ (keysOf s.objects) _).disappeared oid from by rw [hreg.2.1]]
        rw [h2.2]

theorem optimalBranch_prov (s : CentroidTracker) (input : List Centroid) (a : List Nat)
    (hnd : (keysOf s.objects).Nodup) (hlt : ∀ k ∈ keysOf s.objects, k < s.next_oid)
    (oid : Nat) (o : TrackableObject) (hget : alGet s.objects oid = some o) :
    (oid ∈ (applyAssignments s (keysOf s.objects) input
        (costMatrix s input (keysOf s.objects)) a).2.1 →
      ∃ c, alGet (registerPhase
            (missPhase (applyAssignments s (keysOf s.objects) input
                (costMatrix s input (keysOf s.objects)) a).1
              (keysOf s.objects)
              (applyAssignments s (keysOf s.objects) input
                (costMatrix s input (keysOf s.objects)) a).2.1)
            input
            (applyAssignments s (keysOf s.objects) input
              (costMatrix s input (keysOf s.objects)) a).2.2).objects oid
          = some { o with centroids := o.centroids ++ [c] } ∧
        alGet (registerPhase
            (missPhase (applyAssignments s (keysOf s.objects) input
                (costMatrix s input (keysOf s.objects)) a).1
              (keysOf s.objects)
              (applyAssignments s (keysOf s.objects) input
                (costMatrix s input (keysOf s.objects)) a).2.1)
            input
            (applyAssignments s (keysOf s.objects) input
              (costMatrix s input (keysOf s.objects)) a).2.2).disappeared oid = none) ∧
    (oid ∉ (applyAssignments s (keysOf s.objects) input
        (costMatrix s input (keysOf s.objects)) a).2.1 →
      (¬ s.max_disappeared < (alGet s.disappeared oid).getD 0 + 1 →
        alGet (registerPhase
            (missPhase (applyAssignments s (keysOf s.objects) input
                (costMatrix s input (keysOf s.objects)) a).1
              (keysOf s.objects)
              (applyAssignments s (keysOf s.objects) input
                (costMatrix s input (keysOf s.objects)) a).2.1)
            input
            (applyAssignments s (keysOf s.objects) input
              (costMatrix s input (keysOf s.objects)) a).2.2).objects oid = some o ∧
        alGet (registerPhase
            (missPhase (applyAssignments s (keysOf s.objects) input
                (costMatrix s input (keysOf s.objects)) a).1
              (keysOf s.objects)
              (applyAssignments s (keysOf s.objects) input
                (costMatrix s input (keysOf s.objects)) a).2.1)
            input
            (applyAssignments s (keysOf s.objects) input
              (costMatrix s input (keysOf s.objects)) a).2.2).disappeared oid
          = some ((alGet s.disappeared oid).getD 0 + 1)) ∧
      (s.max_disappeared < (alGet s.disappeared oid).getD 0 + 1 →
        alGet (registerPhase
            (missPhase (applyAssignments s (keysOf s.objects) input
                (costMatrix s input (keysOf s.objects)) a).1
              (keysOf s.objects)
              (applyAssignments s (keysOf s.objects) input
                (costMatrix s input (keysOf s.objects)) a).2.1)
            input
            (applyAssignments s (keysOf s.objects) input
              (costMatrix s input (keysOf s.objects)) a).2.2).objects oid = none ∧
        alGet (registerPhase
            (missPhase (applyAssignments s (keysOf s.objects) input
                (costMatrix s input (keysOf s.objects)) a).1
              (keysOf s.objects)
              (applyAssignments s (keysOf s.objects) input
                (costMatrix s input (keysOf s.objects)) a).2.1)
            input
            (applyAssignments s (keysOf s.objects) input
              (costMatrix s input (keysOf s.objects)) a).2.2).disappeared oid = none)) := by
  have hmem : oid ∈ keysOf s.objects := (mem_keysOf_iff_alGet _ _).mpr ⟨o, hget⟩
  have holt : oid < s.next_oid := hlt _ hmem
  have hznd : ((((keysOf s.objects).zip (costMatrix s input (keysOf s.objects))).zip a).map
      (fun q => q.1.1)).Nodup :=
    (zipzip_keys_sublist _ _ _).nodup hnd
  have haframe := applyFold_frame input
    (((keysOf s.objects).zip (costMatrix s input (keysOf s.objects))).zip a) (s, [], [])
  have hmframe := missPhase_frame (applyAssignments s (keysOf s.objects) input
      (costMatrix s input (keysOf s.objects)) a).1 (keysOf s.objects)
    (applyAssignments s (keysOf s.objects) input
      (costMatrix s input (keysOf s.objects)) a).2.1
  have holt2 : oid < (missPhase (applyAssignments s (keysOf s.objects) input
      (costMatrix s input (keysOf s.objects)) a).1 (keysOf s.objects)
      (applyAssignments s (keysOf s.objects) input
        (costMatrix s input (keysOf s.objects)) a).2.1).next_oid := by
    rw [hmframe.1]
    exact lt_of_lt_of_eq holt haframe.1.symm
  have hreg := registerPhase_get_lt (missPhase (applyAssignments s (keysOf s.objects) input
      (costMatrix s input (keysOf s.objects)) a).1 (keysOf s.objects)
      (applyAssignments s (keysOf s.objects) input
        (costMatrix s input (keysOf s.objects)) a).2.1) input
    (applyAssignments s (keysOf s.objects) input
      (costMatrix s input (keysOf s.objects)) a).2.2 oid holt2
  constructor
  · intro hm
    rcases applyFold_matched_sub input
        (((keysOf s.objects).zip (costMatrix s input (keysOf s.objects))).zip a)
        (s, [], []) oid hm with h1 | h1
    · simp at h1
    rcases List.mem_map.mp h1 with ⟨q, hqz, hqoid⟩
    have hgetq : alGet s.objects q.1.1 = some o := by rw [hqoid]; exact hget
    have hmq : q.1.1 ∈ ((((keysOf s.objects).zip
        (costMatrix s input (keysOf s.objects))).zip a).foldl (applyOne input) (s, [], [])).2.1 := by
      rw [hqoid]; exact hm
    rcases applyFold_matched_effect input
        (((keysOf s.objects).zip (costMatrix s input (keysOf s.objects))).zip a)
        (s, [], []) hznd (by intro k2 _; simp) q hqz o hgetq hmq with ⟨c, hobj, hdis⟩
    rw [hqoid] at hobj hdis
    have hunt := missPhase_untouched (applyAssignments s (keysOf s.objects) input
        (costMatrix s input (keysOf s.objects)) a).1 (keysOf s.objects)
      (applyAssignments s (keysOf s.objects) input
        (costMatrix s input (keysOf s.objects)) a).2.1 oid (Or.inr hm)
    refine ⟨c, ?_, ?_⟩
    · rw [hreg.1, hunt.1]
      exact hobj
    · rw [show alGet (registerPhase _ input _).disappeared oid
          = alGet (missPhase _ (keysOf s.objects) _).disappeared oid from by rw [hreg.2.1]]
      rw [hunt.2]
      exact hdis
  · intro hm
    have hunm := applyFold_unmatched input
      (((keysOf s.objects).zip (costMatrix s input (keysOf s.objects))).zip a)
      (s, [], []) oid hm
    have heff := missPhase_effect (applyAssignments s (keysOf s.objects) input
        (costMatrix s input (keysOf s.objects)) a).1 (keysOf s.objects)
      (applyAssignments s (keysOf s.objects) input
        (costMatrix s input (keysOf s.objects)) a).2.1 hnd oid hmem hm
    rw [show alGet (applyAssignments s (keysOf s.objects) input
        (costMatrix s input (keysOf s.objects)) a).1.disappeared oid
        = alGet s.disappeared oid from hunm.2.2] at heff
    rw [show (applyAssignments s (keysOf s.objects) input
        (costMatrix s input (keysOf s.objects)) a).1.max_disappeared
        = s.max_disappeared from haframe.2.1] at heff
    constructor
    · intro hth
      have h2 := heff.2 hth
      refine ⟨?_, ?_⟩
      · rw [hreg.1, h2.1]
        rw [show alGet (applyAssignments s (keysOf s.objects) input
            (costMatrix s input (keysOf s.objects)) a).1.objects oid
            = alGet s.objects oid from hunm.2.1]
        exact hget
      · rw [show alGet (registerPhase _ input _).disappeared oid
            = alGet (missPhase _ (keysOf s.objects) _).disappeared oid from by rw [hreg.2.1]]
        rw [h2.2]
    · intro hth
      have h2 := heff.1 hth
      refine ⟨?_, ?_⟩
      · rw [hreg.1, h2.1]
      · rw [show alGet (registerPhase _ input _).disappeared oid
            = alGet (missPhase _ (keysOf s.objects) _).disappeared oid from by rw [hreg.2.1]]
        rw [h2.2]

/-- Per-object provenance of a successful update: an object of the pre
registry is either matched (one centroid appended, miss entry cleared) or
unmatched (miss counter bumped, object kept below the threshold and
deregistered above it). -/
theorem updateCore_provenance (s : CentroidTracker) (rects : List Rect) (s2 : CentroidTracker)
    (m u : List Nat) (out : List (Nat × Centroid))
    (hnd : (keysOf s.objects).Nodup) (hlt : ∀ k ∈ keysOf s.objects, k < s.next_oid)
    (h : updateCore s rects = (s2, Except.ok (m, u, out)))
    (oid : Nat) (o : TrackableObject) (hget : alGet s.objects oid = some o) :
    (oid ∈ m →
      ∃ c, alGet s2.objects oid = some { o with centroids := o.centroids ++ [c] } ∧
        alGet s2.disappeared oid = none) ∧
    (oid ∉ m →
      (¬ s.max_disappeared < (alGet s.disappeared oid).getD 0 + 1 →
        alGet s2.objects oid = some o ∧
        alGet s2.disappeared oid = some ((alGet s.disappeared oid).getD 0 + 1)) ∧
      (s.max_disappeared < (alGet s.disappeared oid).getD 0 + 1 →
        alGet s2.objects oid = none ∧ alGet s2.disappeared oid = none)) := by
  rcases updateCore_cases s rects with ⟨hem, he⟩ | ⟨_, _, he⟩ | ⟨_, _, _, he⟩ |
    ⟨_, _, _, _, he⟩ | ⟨_, _, _, ca, hkm, he⟩ <;> rw [he] at h
  · exfalso
    have : s.objects = [] := List.isEmpty_iff.mp hem
    rw [this] at hget
    exact absurd hget (by simp [alGet])
  · have hs2 : (greedy_update s (rects.map Centroid.from_rect)).1 = s2 := congrArg Prod.fst h
    have hsnd := congrArg Prod.snd h
    simp only [] at hsnd
    have hm : (greedy_update s (rects.map Centroid.from_rect)).2.1 = m := by
      have htr : ((greedy_update s (rects.map Centroid.from_rect)).2.1,
          (greedy_update s (rects.map Centroid.from_rect)).2.2,
          current_centroids (greedy_update s (rects.map Centroid.from_rect)).1)
          = (m, u, out) := by
        injection hsnd
      exact congrArg (fun x => x.1) htr
    rw [← hs2, ← hm]
    exact greedyBranch_prov s (rects.map Centroid.from_rect) hnd hlt oid o hget
  · exact absurd (congrArg Prod.snd h) (by simp)
  · exact absurd (congrArg Prod.snd h) (by simp)
  · have hs2 := congrArg Prod.fst h
    simp only [] at hs2
    have hsnd := congrArg Prod.snd h
    simp only [] at hsnd
    have hm : (applyAssignments s (keysOf s.objects) (rects.map Centroid.from_rect)
        (costMatrix s (rects.map Centroid.from_rect) (keysOf s.objects)) ca.2).2.1 = m := by
      have htr := hsnd
      rw [Except.ok.injEq] at htr
      exact congrArg (fun x => x.1) htr
    rw [← hs2, ← hm]
    exact optimalBranch_prov s (rects.map Centroid.from_rect) ca.2 hnd hlt oid o hget

/-- A successful update never resurrects a key that was absent: any object
found under a previously absent key is freshly registered. -/
theorem updateCore_new (s : CentroidTracker) (rects : List Rect) (s2 : CentroidTracker)
    (m u : List Nat) (out : List (Nat × Centroid))
    (hnd : (keysOf s.objects).Nodup)
    (h : updateCore s rects = (s2, Except.ok (m, u, out)))
    (oid : Nat) (hnone : alGet s.objects oid = none)
    (o2 : TrackableObject) (hget2 : alGet s2.objects oid = some o2) : freshForm o2 := by
  rcases updateCore_val s rects s2 m u out hnd h oid o2 hget2 with ⟨o, ho, _⟩ | hf
  · rw [hnone] at ho
    exact absurd ho (by simp)
  · exact hf

theorem missPhase_keys_sublist (s : CentroidTracker) (oids matched : List Nat) :
    (keysOf (missPhase s oids matched).objects).Sublist (keysOf s.objects) :=
  missFold_keys_sublist matched oids s

theorem missPhase_dis_keys (s : CentroidTracker) (oids matched : List Nat) (k : Nat)
    (h : k ∈ keysOf (missPhase s oids matched).disappeared) :
    k ∈ keysOf s.disappeared ∨ k ∈ oids :=
  missFold_dis_keys matched oids s k h

theorem registerPhase_reg_inv (s : CentroidTracker) (input : List Centroid) (used : List Nat)
    (hnd : (keysOf s.objects).Nodup) (hlt : ∀ k ∈ keysOf s.objects, k < s.next_oid) :
    (keysOf (registerPhase s input used).objects).Nodup ∧
    (∀ k ∈ keysOf (registerPhase s input used).objects,
      k < (registerPhase s input used).next_oid) :=
  regFold_reg_inv input.enum used s hnd hlt

theorem applyAssignments_frame (s : CentroidTracker) (oids : List Nat)
    (input : List Centroid) (mat : List (List Int)) (a : List Nat) :
    (applyAssignments s oids input mat a).1.next_oid = s.next_oid ∧
    (applyAssignments s oids input mat a).1.max_disappeared = s.max_disappeared ∧
    (applyAssignments s oids input mat a).1.maxDist2 = s.maxDist2 ∧
    keysOf (applyAssignments s oids input mat a).1.objects = keysOf s.objects :=
  applyFold_frame input ((oids.zip mat).zip a) (s, [], [])

/-- A successful update preserves the registry invariant. -/
theorem updateCore_rinv (s : CentroidTracker) (rects : List Rect) (s2 : CentroidTracker)
    (m u : List Nat) (out : List (Nat × Centroid))
    (hinv : RInv s) (h : updateCore s rects = (s2, Except.ok (m, u, out))) : RInv s2 := by
  obtain ⟨hnd, hlt, hdlt, hne⟩ := hinv
  have hkeys : (keysOf s2.objects).Nodup ∧ (∀ k ∈ keysOf s2.objects, k < s2.next_oid) ∧
      (∀ k ∈ keysOf s2.disappeared, k < s2.next_oid) := by
    rcases updateCore_cases s rects with ⟨hem, he⟩ | ⟨_, _, he⟩ | ⟨_, _, _, he⟩ |
      ⟨_, _, _, _, he⟩ | ⟨_, _, _, ca, hkm, he⟩ <;> rw [he] at h
    · have hs2 : (rects.map Centroid.from_rect).foldl register s = s2 := congrArg Prod.fst h
      have hfr := plainRegFold_frame (rects.map Centroid.from_rect) s
      have hri := plainRegFold_reg_inv (rects.map Centroid.from_rect) s hnd hlt
      rw [hs2] at hfr hri
      refine ⟨hri.1, hri.2, ?_⟩
      intro k hk
      rw [hfr.2.2.2] at hk
      exact Nat.lt_of_lt_of_le (hdlt _ hk) hfr.1
    · have hs2 : (greedy_update s (rects.map Centroid.from_rect)).1 = s2 := congrArg Prod.fst h
      rw [greedy_update_eq] at hs2
      simp only [] at hs2
      have hgframe := greedyFold_frame (rects.map Centroid.from_rect) (keysOf s.objects)
        { s := s, used := [], matched := [] }
      have hmframe := missPhase_frame ((keysOf s.objects).foldl
          (greedyMatchStep (rects.map Centroid.from_rect))
          { s := s, used := [], matched := [] }).s (keysOf s.objects)
        ((keysOf s.objects).foldl (greedyMatchStep (rects.map Centroid.from_rect))
          { s := s, used := [], matched := [] }).matched
      have hmsub := missPhase_keys_sublist ((keysOf s.objects).foldl
          (greedyMatchStep (rects.map Centroid.from_rect))
          { s := s, used := [], matched := [] }).s (keysOf s.objects)
        ((keysOf s.objects).foldl (greedyMatchStep (rects.map Centroid.from_rect))
          { s := s, used := [], matched := [] }).matched
      rw [hgframe.2.2.2] at hmsub
      have hmnd : (keysOf (missPhase ((keysOf s.objects).foldl
          (greedyMatchStep (rects.map Centroid.from_rect))
          { s := s, used := [], matched := [] }).s (keysOf s.objects)
          ((keysOf s.objects).foldl (greedyMatchStep (rects.map Centroid.from_rect))
            { s := s, used := [], matched := [] }).matched).objects).Nodup :=
        hmsub.nodup hnd
      have hmlt : ∀ k ∈ keysOf (missPhase ((keysOf s.objects).foldl
          (greedyMatchStep (rects.map Centroid.from_rect))
          { s := s, used := [], matched := [] }).s (keysOf s.objects)
          ((keysOf s.objects).foldl (greedyMatchStep (rects.map Centroid.from_rect))
            { s := s, used := [], matched := [] }).matched).objects,
          k < (missPhase ((keysOf s.objects).foldl
            (greedyMatchStep (rects.map Centroid.from_rect))
            { s := s, used := [], matched := [] }).s (keysOf s.objects)
            ((keysOf s.objects).foldl (greedyMatchStep (rects.map Centroid.from_rect))
              { s := s, used := [], matched := [] }).matched).next_oid := by
        intro k hk
        rw [hmframe.1, hgframe.1]
        exact hlt _ (hmsub.subset hk)
      have hri := registerPhase_reg_inv _ (rects.map Centroid.from_rect)
        ((keysOf s.objects).foldl (greedyMatchStep (rects.map Centroid.from_rect))
          { s := s, used := [], matched := [] }).used hmnd hmlt
      rw [hs2] at hri
      refine ⟨hri.1, hri.2, ?_⟩
      intro k hk
      have hdis : s2.disappeared = (missPhase ((keysOf s.objects).foldl
          (greedyMatchStep (rects.map Centroid.from_rect))
          { s := s, used := [], matched := [] }).s (keysOf s.objects)
          ((keysOf s.objects).foldl (greedyMatchStep (rects.map Centroid.from_rect))
            { s := s, used := [], matched := [] }).matched).disappeared := by
        rw [← hs2]
        exact (registerPhase_frame _ _ _).2.2.2
      rw [hdis] at hk
      have hnext : (missPhase ((keysOf s.objects).foldl
          (greedyMatchStep (rects.map Centroid.from_rect))
          { s := s, used := [], matched := [] }).s (keysOf s.objects)
          ((keysOf s.objects).foldl (greedyMatchStep (rects.map Centroid.from_rect))
            { s := s, used := [], matched := [] }).matched).next_oid ≤ s2.next_oid := by
        rw [← hs2]
        exact (registerPhase_frame _ _ _).1
      have hksmall : k < s.next_oid := by
        rcases missPhase_dis_keys _ _ _ k hk with h1 | h1
        · exact hdlt _ (greedyFold_dis_keys (rects.map Centroid.from_rect) _ _ k h1)
        · exact hlt _ h1
      refine Nat.lt_of_lt_of_le ?_ hnext
      rw [hmframe.1, hgframe.1]
      exact hksmall
    · exact absurd (congrArg Prod.snd h) (by simp)
    · exact absurd (congrArg Prod.snd h) (by simp)
    · have hs2 := congrArg Prod.fst h
      simp only [] at hs2
      have haframe := applyAssignments_frame s (keysOf s.objects)
        (rects.map Centroid.from_rect)
        (costMatrix s (rects.map Centroid.from_rect) (keysOf s.objects)) ca.2
      have hmframe := missPhase_frame (applyAssignments s (keysOf s.objects)
          (rects.map Centroid.from_rect)
          (costMatrix s (rects.map Centroid.from_rect) (keysOf s.objects)) ca.2).1
        (keysOf s.objects)
        (applyAssignments s (keysOf s.objects) (rects.map Centroid.from_rect)
          (costMatrix s (rects.map Centroid.from_rect) (keysOf s.objects)) ca.2).2.1
      have hmsub := missPhase_keys_sublist (applyAssignments s (keysOf s.objects)
          (rects.map Centroid.from_rect)
          (costMatrix s (rects.map Centroid.from_rect) (keysOf s.objects)) ca.2).1
        (keysOf s.objects)
        (applyAssignments s (keysOf s.objects) (rects.map Centroid.from_rect)
          (costMatrix s (rects.map Centroid.from_rect) (keysOf s.objects)) ca.2).2.1
      rw [haframe.2.2.2] at hmsub
      have hmnd := hmsub.nodup hnd
      have hmlt : ∀ k ∈ keysOf (missPhase (applyAssignments s (keysOf s.objects)
          (rects.map Centroid.from_rect)
          (costMatrix s (rects.map Centroid.from_rect) (keysOf s.objects)) ca.2).1
          (keysOf s.objects)
          (applyAssignments s (keysOf s.objects) (rects.map Centroid.from_rect)
            (costMatrix s (rects.map Centroid.from_rect) (keysOf s.objects)) ca.2).2.1).objects,
          k < (missPhase (applyAssignments s (keysOf s.objects)
            (rects.map Centroid.from_rect)
            (costMatrix s (rects.map Centroid.from_rect) (keysOf s.objects)) ca.2).1
            (keysOf s.objects)
            (applyAssignments s (keysOf s.objects) (rects.map Centroid.from_rect)
              (costMatrix s (rects.map Centroid.from_rect) (keysOf s.objects)) ca.2).2.1).next_oid := by
        intro k hk
        rw [hmframe.1, haframe.1]
        exact hlt _ (hmsub.subset hk)
      have hri := registerPhase_reg_inv _ (rects.map Centroid.from_rect)
        (applyAssignments s (keysOf s.objects) (rects.map Centroid.from_rect)
          (costMatrix s (rects.map Centroid.from_rect) (keysOf s.objects)) ca.2).2.2 hmnd hmlt
      rw [hs2] at hri
      refine ⟨hri.1, hri.2, ?_⟩
      intro k hk
      have hdis : s2.disappeared = (missPhase (applyAssignments s (keysOf s.objects)
          (rects.map Centroid.from_rect)
          (costMatrix s (rects.map Centroid.from_rect) (keysOf s.objects)) ca.2).1
          (keysOf s.objects)
          (applyAssignments s (keysOf s.objects) (rects.map Centroid.from_rect)
            (costMatrix s (rects.map Centroid.from_rect) (keysOf s.objects)) ca.2).2.1).disappeared := by
        rw [← hs2]
        exact (registerPhase_frame _ _ _).2.2.2
      rw [hdis] at hk
      have hnext : (missPhase (applyAssignments s (keysOf s.objects)
          (rects.map Centroid.from_rect)
          (costMatrix s (rects.map Centroid.from_rect) (keysOf s.objects)) ca.2).1
          (keysOf s.objects)
          (applyAssignments s (keysOf s.objects) (rects.map Centroid.from_rect)
            (costMatrix s (rects.map Centroid.from_rect) (keysOf s.objects)) ca.2).2.1).next_oid
          ≤ s2.next_oid := by
        rw [← hs2]
        exact (registerPhase_frame _ _ _).1
      have hksmall : k < s.next_oid := by
        rcases missPhase_dis_keys _ _ _ k hk with h1 | h1
        · exact hdlt _ (applyFold_dis_keys (rects.map Centroid.from_rect) _ _ k h1)
        · exact hlt _ h1
      refine Nat.lt_of_lt_of_le ?_ hnext
      rw [hmframe.1, haframe.1]
      exact hksmall
  refine ⟨hkeys.1, hkeys.2.1, hkeys.2.2, ?_⟩
  intro p hp
  have hget2 := alGet_of_mem s2.objects p hkeys.1 hp
  rcases updateCore_val s rects s2 m u out hnd h p.1 p.2 hget2 with ⟨o, ho, hrel⟩ | hf
  · have hone : o.centroids ≠ [] := hne (p.1, o) (mem_of_alGet _ _ _ ho)
    rcases hrel with he | ⟨c, he⟩
    · rw [he]; exact hone
    · rw [he]; simp
  · have h1 : p.2.centroids.length = 1 := hf.1
    intro hcon
    rw [hcon] at h1
    simp at h1

/-! ## Crossing counter lemmas -/

theorem processObject_short (o : TrackableObject) (h : o.centroids.length < 2)
    (h50 : o.centroids.length ≤ 50) : processObject o = (o, none) := by
  unfold processObject
  simp only []
  rw [if_neg (by omega : ¬ 2 ≤ o.centroids.length)]
  rw [if_neg (by omega : ¬ 50 < o.centroids.length)]

theorem counted_latch_helper (b : Bool) (D : Prop) (hf : ¬ (b = false ∧ D)) :
    b = true ↔ (b = true ∨ D) := by
  constructor
  · exact Or.inl
  · intro h
    rcases h with h | h
    · exact h
    · cases hb : b
      · exact absurd ⟨hb, h⟩ hf
      · rfl

theorem processObject_spec (o : TrackableObject) (h2 : 2 ≤ o.centroids.length) :
    (processObject o).1.last_direction
      = some (if (o.centroids.getLastD { x := 0, y := 0 }).y
            < (o.centroids.getD (o.centroids.length - 2) { x := 0, y := 0 }).y
          then Direction.Up else Direction.Down) ∧
    ((processObject o).2
        = some (if (o.centroids.getLastD { x := 0, y := 0 }).y
              < (o.centroids.getD (o.centroids.length - 2) { x := 0, y := 0 }).y
            then Direction.Up else Direction.Down) ↔
      (o.counted = false ∧
        (((if (o.centroids.getLastD { x := 0, y := 0 }).y
              < (o.centroids.getD (o.centroids.length - 2) { x := 0, y := 0 }).y
            then Direction.Up else Direction.Down) = Direction.Up ∧
            (o.centroids.getLastD { x := 0, y := 0 }).y < mid_y) ∨
          ((if (o.centroids.getLastD { x := 0, y := 0 }).y
              < (o.centroids.getD (o.centroids.length - 2) { x := 0, y := 0 }).y
            then Direction.Up else Direction.Down) = Direction.Down ∧
            mid_y < (o.centroids.getLastD { x := 0, y := 0 }).y)))) ∧
    ((processObject o).1.counted = true ↔
      (o.counted = true ∨
        (((if (o.centroids.getLastD { x := 0, y := 0 }).y
              < (o.centroids.getD (o.centroids.length - 2) { x := 0, y := 0 }).y
            then Direction.Up else Direction.Down) = Direction.Up ∧
            (o.centroids.getLastD { x := 0, y := 0 }).y < mid_y) ∨
          ((if (o.centroids.getLastD { x := 0, y := 0 }).y
              < (o.centroids.getD (o.centroids.length - 2) { x := 0, y := 0 }).y
            then Direction.Up else Direction.Down) = Direction.Down ∧
            mid_y < (o.centroids.getLastD { x := 0, y := 0 }).y)))) ∧
    (processObject o).1.centroids
      = (if 50 < o.centroids.length then o.centroids.tail else o.centroids) := by
  unfold processObject
  simp only []
  rw [if_pos h2]
  by_cases hf : o.counted = false ∧
      (((if (o.centroids.getLastD { x := 0, y := 0 }).y
            < (o.centroids.getD (o.centroids.length - 2) { x := 0, y := 0 }).y
          then Direction.Up else Direction.Down) = Direction.Up ∧
          (o.centroids.getLastD { x := 0, y := 0 }).y < mid_y) ∨
        ((if (o.centroids.getLastD { x := 0, y := 0 }).y
            < (o.centroids.getD (o.centroids.length - 2) { x := 0, y := 0 }).y
          then Direction.Up else Direction.Down) = Direction.Down ∧
          mid_y < (o.centroids.getLastD { x := 0, y := 0 }).y))
  · rw [if_pos hf]
    simp only []
    by_cases ht : 50 < o.centroids.length
    · simp only [if_pos ht]
      exact ⟨trivial, iff_of_true trivial hf, iff_of_true trivial (Or.inr hf.2), trivial⟩
    · simp only [if_neg ht]
      exact ⟨trivial, iff_of_true trivial hf, iff_of_true trivial (Or.inr hf.2), trivial⟩
  · rw [if_neg hf]
    simp only []
    by_cases ht : 50 < o.centroids.length
    · simp only [if_pos ht]
      exact ⟨trivial, iff_of_false (by simp) hf, counted_latch_helper _ _ hf, trivial⟩
    · simp only [if_neg ht]
      exact ⟨trivial, iff_of_false (by simp) hf, counted_latch_helper _ _ hf, trivial⟩

theorem processObject_counted_mono (o : TrackableObject) (h : o.counted = true) :
    (processObject o).1.counted = true := by
  unfold processObject
  simp only []
  by_cases h2 : 2 ≤ o.centroids.length
  · rw [if_pos h2]
    have hf : ¬ (o.counted = false ∧
        (((if (o.centroids.getLastD { x := 0, y := 0 }).y
              < (o.centroids.getD (o.centroids.length - 2) { x := 0, y := 0 }).y
            then Direction.Up else Direction.Down) = Direction.Up ∧
            (o.centroids.getLastD { x := 0, y := 0 }).y < mid_y) ∨
          ((if (o.centroids.getLastD { x := 0, y := 0 }).y
              < (o.centroids.getD (o.centroids.length - 2) { x := 0, y := 0 }).y
            then Direction.Up else Direction.Down) = Direction.Down ∧
            mid_y < (o.centroids.getLastD { x := 0, y := 0 }).y))) := by
      intro hc
      rw [h] at hc
      exact absurd hc.1 (by simp)
    simp only [if_neg hf]
    by_cases ht : 50 < o.centroids.length
    · simp only [if_pos ht]
      exact h
    · simp only [if_neg ht]
      exact h
  · rw [if_neg h2]
    by_cases ht : 50 < o.centroids.length
    · simp only [if_pos ht]
      exact h
    · simp only [if_neg ht]
      exact h

theorem processObject_len (o : TrackableObject) :
    (processObject o).1.centroids.length
      = if 50 < o.centroids.length then o.centroids.length - 1 else o.centroids.length := by
  unfold processObject
  simp only []
  by_cases h2 : 2 ≤ o.centroids.length
  · rw [if_pos h2]
    by_cases hf : o.counted = false ∧
        (((if (o.centroids.getLastD { x := 0, y := 0 }).y
              < (o.centroids.getD (o.centroids.length - 2) { x := 0, y := 0 }).y
            then Direction.Up else Direction.Down) = Direction.Up ∧
            (o.centroids.getLastD { x := 0, y := 0 }).y < mid_y) ∨
          ((if (o.centroids.getLastD { x := 0, y := 0 }).y
              < (o.centroids.getD (o.centroids.length - 2) { x := 0, y := 0 }).y
            then Direction.Up else Direction.Down) = Direction.Down ∧
            mid_y < (o.centroids.getLastD { x := 0, y := 0 }).y))
    · rw [if_pos hf]
      simp only []
      by_cases ht : 50 < o.centroids.length
      · simp only [if_pos ht]
        exact o.centroids.length_tail
      · simp only [if_neg ht]
    · rw [if_neg hf]
      simp only []
      by_cases ht : 50 < o.centroids.length
      · simp only [if_pos ht]
        exact o.centroids.length_tail
      · simp only [if_neg ht]
  · rw [if_neg h2]
    by_cases ht : 50 < o.centroids.length
    · simp only [if_pos ht]
      exact o.centroids.length_tail
    · simp only [if_neg ht]

theorem frameCrossing_get_aux :
    ∀ (l : List (Nat × TrackableObject)) (k : Nat),
    alGet (l.map (fun p => if p.2.centroids.isEmpty then p else (p.1, (processObject p.2).1))) k
      = (alGet l k).map (fun o => if o.centroids.isEmpty then o else (processObject o).1) := by
  intro l k
  induction l with
  | nil => rfl
  | cons p t ih =>
    by_cases hp : p.1 = k
    · by_cases he : p.2.centroids.isEmpty
      · simp [alGet, hp, he]
        rw [if_pos (List.isEmpty_iff.mp he)]
      · simp [alGet, hp, he]
        rw [if_neg (fun hh => he (List.isEmpty_iff.mpr hh))]
    · by_cases he : p.2.centroids.isEmpty
      · simp [alGet, hp, he]
        simp at ih
        exact ih
      · simp [alGet, hp, he]
        simp at ih
        exact ih

theorem frameCrossing_get (s : CentroidTracker) (k : Nat) :
    alGet (frameCrossing s).objects k
      = (alGet s.objects k).map
          (fun o => if o.centroids.isEmpty then o else (processObject o).1) :=
  frameCrossing_get_aux s.objects k

/-! ## Claim theorems -/

/-- C10: whenever `update` returns an error instead of a result, the
registry is left exactly as it was before the call — the objects map, the
disappeared map and the next-identity counter are all unchanged (the whole
tracker state is unchanged). -/
theorem C10_error_leaves_registry_unchanged (s : CentroidTracker) (rects : List Rect)
    (s2 : CentroidTracker) (e : UpdateErr)
    (h : update s rects = (s2, Except.error e)) : s2 = s := by
  unfold update at h
  simp only [] at h
  rcases hr : updateCore s rects with ⟨a, b⟩
  rw [hr] at h
  cases b with
  | ok v =>
    exact absurd (congrArg Prod.snd h) (by simp [Except.map])
  | error e2 =>
    have ha : a = s2 := congrArg Prod.fst h
    exact ha ▸ (updateCore_error s rects a e2 hr)

/-- Witness for C10 at a concrete erroring call: six tracked objects and an
empty detection list make `update` fail, and the state comes back
unchanged. -/
theorem C10_witness : (update stateC10 []).1 = stateC10 :=
  C10_error_leaves_registry_unchanged stateC10 [] (update stateC10 []).1 UpdateErr.kmAssert
    (by decide)

/-- C7 (code bug): the claim says a rectangular cost matrix is padded to
square with forbidden-cost dummies and `update` never aborts; the code does
not pad, and with six tracked objects and five detections the optimal path
hands a 6×5 matrix to `kuhn_munkres_min`, whose rows ≤ columns assertion
fails — a process abort, modelled as the `kmAssert` error. -/
theorem C7_more_objects_than_detections_panics :
    updateCore stateC7 rectsC7 = (stateC7, Except.error UpdateErr.kmAssert) := by
  decide

/-- C8 (code bug): the claim says `update []` only increments miss counters
for every registry size; with six tracked objects (optimal path, 6×0
matrix) the `kuhn_munkres_min` assertion fails instead — a process abort —
and no miss counter is ever incremented. -/
theorem C8_empty_input_panics_above_five :
    updateCore stateC8 [] = (stateC8, Except.error UpdateErr.kmAssert) := by
  decide

/-- C3: for each identity in the tracker output with a history of length
at least two, the frame step sets `last_direction` to Up when the last
centroid's y is strictly below the second-to-last's and to Down otherwise
(equal y gives Down); and when `counted` is still false, a crossing event
fires — and `counted` becomes true — exactly when (direction Up and
current y below the zone line) or (direction Down and current y above the
zone line).  The `Direction` enum is modelled from the spec. -/
theorem C3_direction_and_crossing (s : CentroidTracker) (oid : Nat) (o : TrackableObject)
    (hget : alGet s.objects oid = some o) (h2 : 2 ≤ o.centroids.length) :
    (∃ o2, alGet (frameCrossing s).objects oid = some o2 ∧
      o2.last_direction = some (if (o.centroids.getLastD { x := 0, y := 0 }).y
          < (o.centroids.getD (o.centroids.length - 2) { x := 0, y := 0 }).y
        then Direction.Up else Direction.Down) ∧
      (o2.counted = true ↔
        (o.counted = true ∨
          (((if (o.centroids.getLastD { x := 0, y := 0 }).y
                < (o.centroids.getD (o.centroids.length - 2) { x := 0, y := 0 }).y
              then Direction.Up else Direction.Down) = Direction.Up ∧
              (o.centroids.getLastD { x := 0, y := 0 }).y < mid_y) ∨
            ((if (o.centroids.getLastD { x := 0, y := 0 }).y
                < (o.centroids.getD (o.centroids.length - 2) { x := 0, y := 0 }).y
              then Direction.Up else Direction.Down) = Direction.Down ∧
              mid_y < (o.centroids.getLastD { x := 0, y := 0 }).y))))) ∧
    ((processObject o).2
        = some (if (o.centroids.getLastD { x := 0, y := 0 }).y
            < (o.centroids.getD (o.centroids.length - 2) { x := 0, y := 0 }).y
          then Direction.Up else Direction.Down) ↔
      (o.counted = false ∧
        (((if (o.centroids.getLastD { x := 0, y := 0 }).y
              < (o.centroids.getD (o.centroids.length - 2) { x := 0, y := 0 }).y
            then Direction.Up else Direction.Down) = Direction.Up ∧
            (o.centroids.getLastD { x := 0, y := 0 }).y < mid_y) ∨
          ((if (o.centroids.getLastD { x := 0, y := 0 }).y
              < (o.centroids.getD (o.centroids.length - 2) { x := 0, y := 0 }).y
            then Direction.Up else Direction.Down) = Direction.Down ∧
            mid_y < (o.centroids.getLastD { x := 0, y := 0 }).y)))) := by
  have hspec := processObject_spec o h2
  have hne : ¬ o.centroids.isEmpty = true := by
    intro hc
    rw [List.isEmpty_iff.mp hc] at h2
    simp at h2
  refine ⟨⟨(processObject o).1, ?_, hspec.1, hspec.2.2.1⟩, hspec.2.1⟩
  rw [frameCrossing_get, hget]
  rw [show (Option.map (fun o => if o.centroids.isEmpty then o else (processObject o).1)
      (some o)) = some (if o.centroids.isEmpty then o else (processObject o).1) from rfl]
  rw [if_neg hne]

/-- Witness for C3: the object of `stateC3` moved from y = 260 to
y = 240 across the zone line at 250, so the frame step stores direction Up
and latches `counted`. -/
theorem C3_witness : ∃ o2, alGet (frameCrossing stateC3).objects 7 = some o2 ∧
    o2.last_direction = some Direction.Up ∧ o2.counted = true := by
  obtain ⟨⟨o2, hget, hdir, hcnt⟩, _⟩ :=
    C3_direction_and_crossing stateC3 7 objC3 (by decide) (by decide)
  exact ⟨o2, hget, hdir.trans (by decide), hcnt.mpr (by decide)⟩

/-- C4: the counting latch is monotone over a full frame step — an object
present before and after with `counted = true` still has it true (no path
resets it), and an identity absent before the step comes out, if at all,
as a freshly registered object with `counted = false`; hence `counted`
moves from false to true at most once in an object's lifetime. -/
theorem C4_counted_latch (s : CentroidTracker) (rects : List Rect) (s2 : CentroidTracker)
    (out : List (Nat × Centroid))
    (hnd : (keysOf s.objects).Nodup) (hlt : ∀ k ∈ keysOf s.objects, k < s.next_oid)
    (h : frameStep s rects = (s2, Except.ok out)) :
    (∀ oid o o2, alGet s.objects oid = some o → alGet s2.objects oid = some o2 →
      o.counted = true → o2.counted = true) ∧
    (∀ oid o2, alGet s.objects oid = none → alGet s2.objects oid = some o2 →
      o2.counted = false) := by
  unfold frameStep at h
  simp only [] at h
  rcases hu : updateCore s rects with ⟨s1, res⟩
  rw [hu] at h
  cases res with
  | error e => exact absurd (congrArg Prod.snd h) (by simp)
  | ok v =>
    have hs2 : frameCrossing s1 = s2 := congrArg Prod.fst h
    have hu2 : updateCore s rects = (s1, Except.ok (v.1, v.2.1, v.2.2)) := by rw [hu]
    constructor
    · intro oid o o2 hgo hgo2 hcnt
      rw [← hs2] at hgo2
      rw [frameCrossing_get] at hgo2
      cases hg1 : alGet s1.objects oid with
      | none => rw [hg1] at hgo2; exact absurd hgo2 (by simp)
      | some o1 =>
        rw [hg1] at hgo2
        have ho2 : (if o1.centroids.isEmpty then o1 else (processObject o1).1) = o2 :=
          Option.some_inj.mp hgo2
        have hprov := updateCore_provenance s rects s1 v.1 v.2.1 v.2.2 hnd hlt hu2 oid o hgo
        have h1cnt : o1.counted = true := by
          by_cases hm : oid ∈ v.1
          · rcases hprov.1 hm with ⟨c, ha, _⟩
            rw [hg1] at ha
            rw [Option.some_inj.mp ha]
            exact hcnt
          · rcases Nat.lt_or_ge s.max_disappeared ((alGet s.disappeared oid).getD 0 + 1) with
              hth | hth
            · rcases (hprov.2 hm).2 hth with ⟨ha, _⟩
              rw [hg1] at ha
              exact absurd ha (by simp)
            · rcases (hprov.2 hm).1 (Nat.not_lt.mpr hth) with ⟨ha, _⟩
              rw [hg1] at ha
              rw [Option.some_inj.mp ha]
              exact hcnt
        rw [← ho2]
        by_cases hie : o1.centroids.isEmpty
        · rw [if_pos hie]; exact h1cnt
        · rw [if_neg hie]; exact processObject_counted_mono o1 h1cnt
    · intro oid o2 hnone hgo2
      rw [← hs2] at hgo2
      rw [frameCrossing_get] at hgo2
      cases hg1 : alGet s1.objects oid with
      | none => rw [hg1] at hgo2; exact absurd hgo2 (by simp)
      | some o1 =>
        rw [hg1] at hgo2
        have ho2 : (if o1.centroids.isEmpty then o1 else (processObject o1).1) = o2 :=
          Option.some_inj.mp hgo2
        have hf := updateCore_new s rects s1 v.1 v.2.1 v.2.2 hnd hu2 oid hnone o1 hg1
        have hlen : o1.centroids.length = 1 := hf.1
        have hie : ¬ o1.centroids.isEmpty = true := by
          intro hc
          rw [List.isEmpty_iff.mp hc] at hlen
          simp at hlen
        rw [← ho2, if_neg hie]
        rw [processObject_short o1 (by omega) (by omega)]
        exact hf.2.1

/-- Witness for C4 at a concrete frame: the already-counted object of
`stateC4` is matched and stays counted. -/
theorem C4_witness :
    ((frameStep stateC4 rectsC4).1.objects.getD 0 (2, objC4)).2.counted = true := by
  have h := C4_counted_latch stateC4 rectsC4 (frameStep stateC4 rectsC4).1
    [(2, { x := 100, y := 225 })] (by decide) (by decide) (by decide)
  have hg : alGet (frameStep stateC4 rectsC4).1.objects 2
      = some ((frameStep stateC4 rectsC4).1.objects.getD 0 (2, objC4)).2 := by decide
  exact h.1 2 objC4 _ (by decide) hg rfl

theorem frameCrossing_keys (s : CentroidTracker) :
    keysOf (frameCrossing s).objects = keysOf s.objects := by
  unfold frameCrossing keysOf
  simp only []
  rw [List.map_map]
  congr 1
  funext p
  simp only [Function.comp]
  split <;> rfl

/-- C5: a full frame step (update followed by the crossing loop and its
trim) preserves the history bound — every object ends the frame with
between 1 and 50 stored centroids: registration seeds one entry, a match
appends exactly one, and the trim drops the oldest entry whenever the
length exceeds 50. -/
theorem C5_history_bound (s : CentroidTracker) (rects : List Rect) (s2 : CentroidTracker)
    (out : List (Nat × Centroid)) (hinv : RInv s)
    (hb : ∀ p ∈ s.objects, 1 ≤ p.2.centroids.length ∧ p.2.centroids.length ≤ 50)
    (h : frameStep s rects = (s2, Except.ok out)) :
    ∀ p ∈ s2.objects, 1 ≤ p.2.centroids.length ∧ p.2.centroids.length ≤ 50 := by
  unfold frameStep at h
  simp only [] at h
  rcases hu : updateCore s rects with ⟨s1, res⟩
  rw [hu] at h
  cases res with
  | error e => exact absurd (congrArg Prod.snd h) (by simp)
  | ok v =>
    have hs2 : frameCrossing s1 = s2 := congrArg Prod.fst h
    have hu2 : updateCore s rects = (s1, Except.ok (v.1, v.2.1, v.2.2)) := by rw [hu]
    have hinv1 : RInv s1 := updateCore_rinv s rects s1 _ _ _ hinv hu2
    intro p hp
    have hnd2 : (keysOf s2.objects).Nodup := by
      rw [← hs2, frameCrossing_keys]
      exact hinv1.1
    have hget2 := alGet_of_mem s2.objects p hnd2 hp
    rw [← hs2, frameCrossing_get] at hget2
    cases hg1 : alGet s1.objects p.1 with
    | none => rw [hg1] at hget2; exact absurd hget2 (by simp)
    | some o1 =>
      rw [hg1] at hget2
      have hp2 : (if o1.centroids.isEmpty then o1 else (processObject o1).1) = p.2 :=
        Option.some_inj.mp hget2
      have hlen1 : 1 ≤ o1.centroids.length ∧ o1.centroids.length ≤ 51 := by
        rcases updateCore_val s rects s1 v.1 v.2.1 v.2.2 hinv.1 hu2 p.1 o1 hg1 with
          ⟨o, ho, hrel⟩ | hf
        · have hbo := hb (p.1, o) (mem_of_alGet _ _ _ ho)
          simp only [] at hbo
          rcases hrel with he | ⟨c, he⟩
          · rw [he]
            exact ⟨hbo.1, by omega⟩
          · rw [he]
            refine ⟨?_, ?_⟩ <;> simp <;> omega
        · exact ⟨Nat.le_of_eq hf.1.symm, by rw [hf.1]; omega⟩
      have hie : ¬ o1.centroids.isEmpty = true := by
        intro hc
        rw [List.isEmpty_iff.mp hc] at hlen1
        simp at hlen1
      rw [← hp2, if_neg hie]
      rw [processObject_len]
      by_cases ht : 50 < o1.centroids.length
      · rw [if_pos ht]
        omega
      · rw [if_neg ht]
        omega

/-- Witness for C5: the 50-entry object of `stateC5` is matched (length
51) and trimmed back to exactly 50 by the frame step. -/
theorem C5_witness :
    1 ≤ ((frameStep stateC5 rectsC5).1.objects.getD 0 (0, objC5)).2.centroids.length ∧
    ((frameStep stateC5 rectsC5).1.objects.getD 0 (0, objC5)).2.centroids.length ≤ 50 :=
  C5_history_bound stateC5 rectsC5 (frameStep stateC5 rectsC5).1 [(0, { x := 100, y := 52 })]
    (by decide) (by decide) (by decide) _ (by decide)

/-! ## Disappearance run lemmas (C2) -/

theorem plainRegFold_get_lt (input : List Centroid) :
    ∀ (t : CentroidTracker) (k : Nat), k < t.next_oid →
    alGet (input.foldl register t).objects k = alGet t.objects k := by
  induction input with
  | nil => intro t k _; rfl
  | cons a l ih =>
    intro t k hk
    simp only [List.foldl_cons]
    exact (ih (register t a) k (Nat.lt_succ_of_lt hk)).trans (register_get_lt t a k hk)

theorem applyAssignments_untouched (s : CentroidTracker) (oids : List Nat)
    (input : List Centroid) (mat : List (List Int)) (a : List Nat) (k : Nat)
    (hk : k ∉ ((oids.zip mat).zip a).map (fun q => q.1.1)) :
    alGet (applyAssignments s oids input mat a).1.objects k = alGet s.objects k ∧
    alGet (applyAssignments s oids input mat a).1.disappeared k = alGet s.disappeared k :=
  ⟨(applyFold_untouched input ((oids.zip mat).zip a) (s, [], []) k hk).1,
    (applyFold_untouched input ((oids.zip mat).zip a) (s, [], []) k hk).2.1⟩

/-- A key absent from the registry and below the id counter is untouched
by a successful update: it stays absent and its disappeared entry (if any)
is unchanged. -/
theorem updateCore_absent (s : CentroidTracker) (rects : List Rect) (s2 : CentroidTracker)
    (m u : List Nat) (out : List (Nat × Centroid)) (oid : Nat)
    (hlt : oid < s.next_oid) (hnone : alGet s.objects oid = none)
    (h : updateCore s rects = (s2, Except.ok (m, u, out))) :
    alGet s2.objects oid = none ∧ alGet s2.disappeared oid = alGet s.disappeared oid := by
  have hmem : oid ∉ keysOf s.objects := (alGet_eq_none_iff _ _).mp hnone
  rcases updateCore_cases s rects with ⟨_, he⟩ | ⟨_, _, he⟩ | ⟨_, _, _, he⟩ |
    ⟨_, _, _, _, he⟩ | ⟨_, _, _, ca, hkm, he⟩ <;> rw [he] at h
  · have hs2 : (rects.map Centroid.from_rect).foldl register s = s2 := congrArg Prod.fst h
    rw [← hs2]
    refine ⟨(plainRegFold_get_lt _ s oid hlt).trans hnone, ?_⟩
    rw [(plainRegFold_frame (rects.map Centroid.from_rect) s).2.2.2]
  · have hs2 : (greedy_update s (rects.map Centroid.from_rect)).1 = s2 := congrArg Prod.fst h
    rw [← hs2, greedy_update_eq]
    simp only []
    have hg := greedyFold_untouched (rects.map Centroid.from_rect) (keysOf s.objects)
      { s := s, used := [], matched := [] } oid hmem
    have hm := missPhase_untouched ((keysOf s.objects).foldl
        (greedyMatchStep (rects.map Centroid.from_rect))
        { s := s, used := [], matched := [] }).s (keysOf s.objects)
      ((keysOf s.objects).foldl (greedyMatchStep (rects.map Centroid.from_rect))
        { s := s, used := [], matched := [] }).matched oid (Or.inl hmem)
    have holt2 : oid < (missPhase ((keysOf s.objects).foldl
        (greedyMatchStep (rects.map Centroid.from_rect))
        { s := s, used := [], matched := [] }).s (keysOf s.objects)
        ((keysOf s.objects).foldl (greedyMatchStep (rects.map Centroid.from_rect))
          { s := s, used := [], matched := [] }).matched).next_oid := by
      rw [(missPhase_frame _ _ _).1,
        (greedyFold_frame (rects.map Centroid.from_rect) (keysOf s.objects)
          { s := s, used := [], matched := [] }).1]
      exact hlt
    have hr := registerPhase_get_lt _ (rects.map Centroid.from_rect)
      ((keysOf s.objects).foldl (greedyMatchStep (rects.map Centroid.from_rect))
        { s := s, used := [], matched := [] }).used oid holt2
    constructor
    · rw [hr.1, hm.1, hg.1]
      exact hnone
    · rw [show alGet (registerPhase _ (rects.map Centroid.from_rect) _).disappeared oid
          = alGet (missPhase _ (keysOf s.objects) _).disappeared oid from by rw [hr.2.1]]
      rw [hm.2, hg.2]
  · exact absurd (congrArg Prod.snd h) (by simp)
  · exact absurd (congrArg Prod.snd h) (by simp)
  · have hs2 := congrArg Prod.fst h
    simp only [] at hs2
    rw [← hs2]
    have hzmem : oid ∉ ((((keysOf s.objects).zip (costMatrix s (rects.map Centroid.from_rect)
        (keysOf s.objects))).zip ca.2).map (fun q => q.1.1)) := by
      intro hh
      exact hmem ((zipzip_keys_sublist _ _ _).subset hh)
    have hg := applyAssignments_untouched s (keysOf s.objects)
      (rects.map Centroid.from_rect)
      (costMatrix s (rects.map Centroid.from_rect) (keysOf s.objects)) ca.2 oid hzmem
    have hm := missPhase_untouched (applyAssignments s (keysOf s.objects)
        (rects.map Centroid.from_rect)
        (costMatrix s (rects.map Centroid.from_rect) (keysOf s.objects)) ca.2).1
      (keysOf s.objects)
      (applyAssignments s (keysOf s.objects) (rects.map Centroid.from_rect)
        (costMatrix s (rects.map Centroid.from_rect) (keysOf s.objects)) ca.2).2.1
      oid (Or.inl hmem)
    have holt2 : oid < (missPhase (applyAssignments s (keysOf s.objects)
        (rects.map Centroid.from_rect)
        (costMatrix s (rects.map Centroid.from_rect) (keysOf s.objects)) ca.2).1
        (keysOf s.objects)
        (applyAssignments s (keysOf s.objects) (rects.map Centroid.from_rect)
          (costMatrix s (rects.map Centroid.from_rect) (keysOf s.objects)) ca.2).2.1).next_oid := by
      rw [(missPhase_frame _ _ _).1,
        (applyAssignments_frame s (keysOf s.objects) (rects.map Centroid.from_rect)
          (costMatrix s (rects.map Centroid.from_rect) (keysOf s.objects)) ca.2).1]
      exact hlt
    have hr := registerPhase_get_lt _ (rects.map Centroid.from_rect)
      (applyAssignments s (keysOf s.objects) (rects.map Centroid.from_rect)
        (costMatrix s (rects.map Centroid.from_rect) (keysOf s.objects)) ca.2).2.2 oid holt2
    constructor
    · rw [hr.1, hm.1, hg.1]
      exact hnone
    · rw [show alGet (registerPhase _ (rects.map Centroid.from_rect) _).disappeared oid
          = alGet (missPhase _ (keysOf s.objects) _).disappeared oid from by rw [hr.2.1]]
      rw [hm.2, hg.2]

theorem missRun_absent (oid : Nat) : ∀ (n : Nat) (s s2 : CentroidTracker),
    MissRun oid n s s2 → oid < s.next_oid → alGet s.objects oid = none →
    alGet s.disappeared oid = none →
    alGet s2.objects oid = none ∧ alGet s2.disappeared oid = none := by
  intro n
  induction n with
  | zero =>
    intro s s2 hrun _ h1 h2
    cases hrun
    exact ⟨h1, h2⟩
  | succ n ih =>
    intro s s2 hrun hlt h1 h2
    cases hrun with
    | step hstep hrest =>
      rcases hstep with ⟨rects, m, u, out, hupd, _⟩
      have habs := updateCore_absent s rects _ m u out oid hlt h1 hupd
      have hfr := updateCore_frame s rects
      rw [hupd] at hfr
      simp only [] at hfr
      exact ih _ _ hrest (Nat.lt_of_lt_of_le hlt hfr.2.2) habs.1 (habs.2.trans h2)

theorem missRun_present (oid : Nat) : ∀ (n : Nat) (s s2 : CentroidTracker) (c : Nat),
    MissRun oid n s s2 → RInv s → ∀ o, alGet s.objects oid = some o →
    (alGet s.disappeared oid).getD 0 = c →
    (c + n ≤ s.max_disappeared →
      ∃ o2, alGet s2.objects oid = some o2 ∧
        (alGet s2.disappeared oid).getD 0 = c + n) ∧
    (c + n = s.max_disappeared + 1 ∧ 0 < n →
      alGet s2.objects oid = none ∧ alGet s2.disappeared oid = none) := by
  intro n
  induction n with
  | zero =>
    intro s s2 c hrun hinv o hget hc
    cases hrun
    constructor
    · intro _
      exact ⟨o, hget, by omega⟩
    · rintro ⟨_, h0⟩
      exact absurd h0 (by omega)
  | succ n ih =>
    intro s s2 c hrun hinv o hget hc
    cases hrun with
    | step hstep hrest =>
      rename_i s1
      rcases hstep with ⟨rects, m, u, out, hupd, hnm⟩
      have hprov := updateCore_provenance s rects s1 m u out hinv.1 hinv.2.1 hupd oid o hget
      have hfr := updateCore_frame s rects
      rw [hupd] at hfr
      simp only [] at hfr
      have hmax : s1.max_disappeared = s.max_disappeared := hfr.1
      have hinv1 := updateCore_rinv s rects s1 m u out hinv hupd
      have hunm := hprov.2 hnm
      rw [hc] at hunm
      constructor
      · intro hle
        have h2 := hunm.1 (by omega)
        have hih := ih s1 s2 (c + 1) hrest hinv1 o h2.1 (by rw [h2.2]; rfl)
        obtain ⟨o2, hg2, hd2⟩ := hih.1 (by rw [hmax]; omega)
        exact ⟨o2, hg2, hd2.trans (by omega)⟩
      · rintro ⟨heq, _⟩
        by_cases hcase : n = 0
        · subst hcase
          cases hrest
          exact hunm.2 (by omega)
        · have h2 := hunm.1 (by omega)
          have hih := ih s1 s2 (c + 1) hrest hinv1 o h2.1 (by rw [h2.2]; rfl)
          exact hih.2 ⟨by rw [hmax]; omega, by omega⟩

/-- C2: an object matched in none of a run of consecutive update calls is
still registered after exactly `max_disappeared` such calls, and has been
removed from both the objects map and the disappeared map after exactly
`max_disappeared + 1` such calls. -/
theorem C2_disappearance (s s2 : CentroidTracker) (oid n : Nat) (o : TrackableObject)
    (hinv : RInv s) (hget : alGet s.objects oid = some o)
    (hc0 : (alGet s.disappeared oid).getD 0 = 0)
    (hrun : MissRun oid n s s2) :
    (n = s.max_disappeared → ∃ o2, alGet s2.objects oid = some o2) ∧
    (n = s.max_disappeared + 1 →
      alGet s2.objects oid = none ∧ alGet s2.disappeared oid = none) := by
  have h := missRun_present oid n s s2 0 hrun hinv o hget hc0
  constructor
  · intro hn
    obtain ⟨o2, hg, _⟩ := h.1 (by omega)
    exact ⟨o2, hg⟩
  · intro hn
    exact h.2 ⟨by omega, by omega⟩

/-- Witness for C2: four consecutive empty-input calls on the one-object
tracker `stateC2` (with `max_disappeared = 3`) remove the object from both
maps. -/
theorem C2_witness :
    alGet stateC2d.objects 0 = none ∧ alGet stateC2d.disappeared 0 = none := by
  have r1 : UnmatchedStep stateC2 stateC2a 0 :=
    ⟨[], [], [], [(0, { x := 50, y := 50 })], by decide, by decide⟩
  have r2 : UnmatchedStep stateC2a stateC2b 0 :=
    ⟨[], [], [], [(0, { x := 50, y := 50 })], by decide, by decide⟩
  have r3 : UnmatchedStep stateC2b stateC2c 0 :=
    ⟨[], [], [], [(0, { x := 50, y := 50 })], by decide, by decide⟩
  have r4 : UnmatchedStep stateC2c stateC2d 0 :=
    ⟨[], [], [], [], by decide, by decide⟩
  exact (C2_disappearance stateC2 stateC2d 0 4 (mkTrObj 0 50 50).2 (by decide) (by decide)
    (by decide)
    (MissRun.step r1 (MissRun.step r2 (MissRun.step r3 (MissRun.step r4
      (MissRun.zero _)))))).2 rfl

/-! ## Greedy selection specification (C9, C1) -/

theorem mem_candAux (used : List Nat) (maxD2 : Nat) (lastC : Centroid) :
    ∀ (l : List Centroid) (i j dv : Nat),
    (j, dv) ∈ candAux used maxD2 lastC l i ↔
      ∃ k, k < l.length ∧ j = i + k ∧ ¬ j ∈ used ∧
        dv = dist2 lastC (l.getD k { x := 0, y := 0 }) ∧ dv ≤ maxD2 := by
  intro l
  induction l with
  | nil => intro i j dv; simp [candAux]
  | cons c rest ih =>
    intro i j dv
    simp only [candAux]
    by_cases hc : ¬ i ∈ used ∧ dist2 lastC c ≤ maxD2
    · rw [if_pos hc]
      constructor
      · intro hm
        rcases List.mem_cons.mp hm with he | hm2
        · rcases Prod.mk.injEq _ _ _ _ ▸ he with ⟨hj, hdv⟩
          refine ⟨0, by simp, by omega, ?_, ?_, ?_⟩
          · rw [hj]; exact hc.1
          · rw [hdv]; rfl
          · rw [hdv]; exact hc.2
        · rcases (ih (i + 1) j dv).mp hm2 with ⟨k, hk, hj, hu, hd, hle⟩
          refine ⟨k + 1, by simp; omega, by omega, hu, ?_, hle⟩
          rw [hd]
          rfl
      · rintro ⟨k, hk, hj, hu, hd, hle⟩
        cases k with
        | zero =>
          have hji : j = i := by omega
          subst hji
          have hdc : dv = dist2 lastC c := hd
          rw [hdc]
          exact List.mem_cons_self _ _
        | succ k =>
          right
          refine (ih (i + 1) j dv).mpr ⟨k, by simp at hk; omega, by omega, hu, hd, hle⟩
    · rw [if_neg hc]
      constructor
      · intro hm
        rcases (ih (i + 1) j dv).mp hm with ⟨k, hk, hj, hu, hd, hle⟩
        refine ⟨k + 1, by simp; omega, by omega, hu, ?_, hle⟩
        rw [hd]
        rfl
      · rintro ⟨k, hk, hj, hu, hd, hle⟩
        cases k with
        | zero =>
          exfalso
          have hji : j = i := by omega
          refine hc ⟨hji ▸ hu, ?_⟩
          have : dv = dist2 lastC c := hd
          rw [← this]
          exact hle
        | succ k =>
          refine (ih (i + 1) j dv).mpr ⟨k, by simp at hk; omega, by omega, hu, hd, hle⟩

theorem candAux_lb (used : List Nat) (maxD2 : Nat) (lastC : Centroid) :
    ∀ (l : List Centroid) (i : Nat), ∀ q ∈ candAux used maxD2 lastC l i, i ≤ q.1 := by
  intro l
  induction l with
  | nil => intro i q hq; simp [candAux] at hq
  | cons c rest ih =>
    intro i q hq
    simp only [candAux] at hq
    by_cases hc : ¬ i ∈ used ∧ dist2 lastC c ≤ maxD2
    · rw [if_pos hc] at hq
      rcases List.mem_cons.mp hq with he | hm
      · rw [he]
      · exact Nat.le_of_succ_le (ih (i + 1) q hm)
    · rw [if_neg hc] at hq
      exact Nat.le_of_succ_le (ih (i + 1) q hq)

theorem candAux_pairwise (used : List Nat) (maxD2 : Nat) (lastC : Centroid) :
    ∀ (l : List Centroid) (i : Nat),
    List.Pairwise (fun a b => a.1 < b.1) (candAux used maxD2 lastC l i) := by
  intro l
  induction l with
  | nil => intro i; simp [candAux]
  | cons c rest ih =>
    intro i
    simp only [candAux]
    by_cases hc : ¬ i ∈ used ∧ dist2 lastC c ≤ maxD2
    · rw [if_pos hc]
      refine List.Pairwise.cons ?_ (ih (i + 1))
      intro q hq
      exact Nat.lt_of_succ_le (candAux_lb used maxD2 lastC rest (i + 1) q hq)
    · rw [if_neg hc]
      exact ih (i + 1)

theorem pickMinFold :
    ∀ (l : List (Nat × Nat)) (c : Nat × Nat),
    List.Pairwise (fun a b => a.1 < b.1) (c :: l) →
    (l.foldl (fun best q => if q.2 < best.2 then q else best) c) ∈ c :: l ∧
    (∀ q ∈ c :: l, (l.foldl (fun best q => if q.2 < best.2 then q else best) c).2 ≤ q.2) ∧
    (∀ q ∈ c :: l, q.2 = (l.foldl (fun best q => if q.2 < best.2 then q else best) c).2 →
      (l.foldl (fun best q => if q.2 < best.2 then q else best) c).1 ≤ q.1) ∧
    ((l.foldl (fun best q => if q.2 < best.2 then q else best) c) = c ∨
      (l.foldl (fun best q => if q.2 < best.2 then q else best) c).2 < c.2) := by
  intro l
  induction l with
  | nil =>
    intro c _
    simp only [List.foldl_nil]
    refine ⟨List.mem_cons_self _ _, ?_, ?_, Or.inl trivial⟩
    · intro q hq
      rcases List.mem_cons.mp hq with he | hm
      · rw [he]
      · simp at hm
    · intro q hq _
      rcases List.mem_cons.mp hq with he | hm
      · rw [he]
      · simp at hm
  | cons q0 l ih =>
    intro c hpw
    have hpw1 : List.Pairwise (fun a b => a.1 < b.1) (q0 :: l) :=
      hpw.sublist (List.sublist_cons_self _ _)
    have hcq0 : c.1 < q0.1 := (List.pairwise_cons.mp hpw).1 q0 (List.mem_cons_self _ _)
    have hcl : ∀ q ∈ l, c.1 < q.1 := by
      intro q hq
      exact (List.pairwise_cons.mp hpw).1 q (List.mem_cons_of_mem _ hq)
    simp only [List.foldl_cons]
    by_cases hlt : q0.2 < c.2
    · rw [if_pos hlt]
      have hpwq : List.Pairwise (fun a b => a.1 < b.1) (q0 :: l) := hpw1
      have h := ih q0 hpwq
      refine ⟨?_, ?_, ?_, ?_⟩
      · rcases List.mem_cons.mp h.1 with he | hm
        · rw [he]; simp
        · right; exact List.mem_cons_of_mem _ hm
      · intro q hq
        rcases List.mem_cons.mp hq with he | hm
        · rw [he]
          rcases h.2.2.2 with he2 | hlt2
          · rw [he2]; exact Nat.le_of_lt hlt
          · exact Nat.le_of_lt (Nat.lt_trans hlt2 hlt)
        · exact h.2.1 q hm
      · intro q hq hqe
        rcases List.mem_cons.mp hq with he | hm
        · exfalso
          rcases h.2.2.2 with he2 | hlt2
          · rw [he, he2] at hqe
            exact Nat.lt_irrefl _ (hqe ▸ hlt)
          · rw [he] at hqe
            omega
        · exact h.2.2.1 q hm hqe
      · right
        rcases h.2.2.2 with he2 | hlt2
        · rw [he2]; exact hlt
        · exact Nat.lt_trans hlt2 hlt
    · rw [if_neg hlt]
      have hpwc : List.Pairwise (fun a b => a.1 < b.1) (c :: l) := by
        rw [List.pairwise_cons] at hpw ⊢
        exact ⟨fun q hq => hcl q hq, (List.pairwise_cons.mp hpw.2).2⟩
      have h := ih c hpwc
      refine ⟨?_, ?_, ?_, h.2.2.2⟩
      · rcases List.mem_cons.mp h.1 with he | hm
        · rw [he]; simp
        · right; exact List.mem_cons_of_mem _ hm
      · intro q hq
        rcases List.mem_cons.mp hq with he | hm
        · exact h.2.1 c (List.mem_cons_self _ _) |>.trans (he ▸ Nat.le_refl q.2)
        · rcases List.mem_cons.mp hm with he2 | hm2
          · rw [he2]
            rcases h.2.2.2 with he3 | hlt3
            · rw [he3]; omega
            · omega
          · exact h.2.1 q (List.mem_cons_of_mem _ hm2)
      · intro q hq hqe
        rcases List.mem_cons.mp hq with he | hm
        · rw [he]
          rcases h.2.2.2 with he3 | hlt3
          · rw [he3]
          · rw [he] at hqe
            exact absurd hqe (by omega)
        · rcases List.mem_cons.mp hm with he2 | hm2
          · rw [he2]
            rcases h.2.2.2 with he3 | hlt3
            · rw [he3]
              exact Nat.le_of_lt hcq0
            · exfalso
              rw [he2] at hqe
              omega
          · exact h.2.2.1 q (List.mem_cons_of_mem _ hm2) hqe

theorem candAux_zero_char (used : List Nat) (maxD2 : Nat) (lastC : Centroid)
    (input : List Centroid) (j dv : Nat) :
    (j, dv) ∈ candAux used maxD2 lastC input 0 ↔
      (j < input.length ∧ ¬ j ∈ used ∧
        dv = dist2 lastC (input.getD j { x := 0, y := 0 }) ∧ dv ≤ maxD2) := by
  rw [mem_candAux]
  constructor
  · rintro ⟨k, hk, hj, hu, hd, hle⟩
    have : j = k := by omega
    subst this
    exact ⟨hk, hu, hd, hle⟩
  · rintro ⟨hk, hu, hd, hle⟩
    exact ⟨j, hk, by omega, hu, hd, hle⟩

theorem bestMatch_eq_some_iff (used : List Nat) (maxD2 : Nat) (lastC : Centroid)
    (input : List Centroid) (j : Nat) :
    bestMatch used maxD2 lastC input = some j ↔ isBestIdx used maxD2 lastC input j := by
  unfold bestMatch pickMin
  cases hc : candAux used maxD2 lastC input 0 with
  | nil =>
    constructor
    · intro h
      exact absurd h (by simp)
    · intro hb
      exfalso
      have hmem := (candAux_zero_char used maxD2 lastC input j
        (dist2 lastC (input.getD j { x := 0, y := 0 }))).mpr
        ⟨hb.1.1, hb.1.2.1, rfl, hb.1.2.2⟩
      rw [hc] at hmem
      simp at hmem
  | cons c rest =>
    have hpw : List.Pairwise (fun a b => a.1 < b.1) (c :: rest) := by
      rw [← hc]
      exact candAux_pairwise used maxD2 lastC input 0
    have hpm := pickMinFold rest c hpw
    have hrfold := hpm.1
    rw [← hc] at hrfold
    have hrchar := (candAux_zero_char used maxD2 lastC input _ _).mp hrfold
    have hrbest : isBestIdx used maxD2 lastC input
        (rest.foldl (fun best q => if q.2 < best.2 then q else best) c).1 := by
      refine ⟨⟨hrchar.1, hrchar.2.1, ?_⟩, ?_, ?_⟩
      · rw [← hrchar.2.2.1]
        exact hrchar.2.2.2
      · intro j2 hj2
        have hm2 := (candAux_zero_char used maxD2 lastC input j2
          (dist2 lastC (input.getD j2 { x := 0, y := 0 }))).mpr
          ⟨hj2.1, hj2.2.1, rfl, hj2.2.2⟩
        rw [hc] at hm2
        have := hpm.2.1 _ hm2
        rw [← hrchar.2.2.1]
        exact this
      · intro j2 hj2 heq
        have hm2 := (candAux_zero_char used maxD2 lastC input j2
          (dist2 lastC (input.getD j2 { x := 0, y := 0 }))).mpr
          ⟨hj2.1, hj2.2.1, rfl, hj2.2.2⟩
        rw [hc] at hm2
        refine hpm.2.2.1 (j2, dist2 lastC (input.getD j2 { x := 0, y := 0 })) hm2 ?_
        rw [heq, hrchar.2.2.1]
    constructor
    · intro h
      have hj : (rest.foldl (fun best q => if q.2 < best.2 then q else best) c).1 = j :=
        Option.some_inj.mp h
      rw [← hj]
      exact hrbest
    · intro hb
      have hdle1 := hrbest.2.1 j hb.1
      have hdle2 := hb.2.1 _ hrbest.1
      have hdeq : dist2 lastC (input.getD j { x := 0, y := 0 })
          = dist2 lastC (input.getD
            (rest.foldl (fun best q => if q.2 < best.2 then q else best) c).1
            { x := 0, y := 0 }) := Nat.le_antisymm hdle2 hdle1
      have hle1 := hb.2.2 _ hrbest.1 hdeq.symm
      have hle2 := hrbest.2.2 j hb.1 hdeq
      rw [Option.some_inj]
      omega

/-- C9: the two registries hold exactly the same objects (one list is a
permutation of the other, and every other field agrees), yet the greedy
path matches object 0 in one run and object 1 in the other, and the two
resulting registries differ at id 0.  HashMap iteration order, modelled by
the association-list order, is NOT the ascending-identity order the claim
asserts, and equal states (as maps) do not yield equal match sets. -/
theorem C9_counterexample :
    stateC9a.objects.Perm stateC9b.objects ∧
    stateC9a.next_oid = stateC9b.next_oid ∧
    stateC9a.disappeared = stateC9b.disappeared ∧
    stateC9a.max_disappeared = stateC9b.max_disappeared ∧
    stateC9a.maxDist2 = stateC9b.maxDist2 ∧
    (updateCore stateC9a rectsC9).2 = Except.ok ([0], [0],
      [(0, { x := 5, y := 0 }), (1, { x := 10, y := 0 })]) ∧
    (updateCore stateC9b rectsC9).2 = Except.ok ([1], [0],
      [(1, { x := 5, y := 0 }), (0, { x := 0, y := 0 })]) ∧
    alGet (updateCore stateC9a rectsC9).1.objects 0 ≠
      alGet (updateCore stateC9b rectsC9).1.objects 0 := by
  refine ⟨List.Perm.swap _ _ _, rfl, rfl, rfl, rfl, by decide, by decide, by decide⟩

/-- C9 (amended): on the greedy path the tracked objects are processed in
the registry's own iteration order (the order of the underlying key list,
which for a HashMap is arbitrary, not ascending identity), and for each
object the accepted detection is exactly the not-yet-used in-range one at
minimal distance, lowest input index among ties; determinism holds only
for states with equal iteration order. -/
theorem C9_greedy_selection :
    (∀ s input, greedy_update s input =
      (registerPhase
          (missPhase ((keysOf s.objects).foldl (greedyMatchStep input)
              { s := s, used := [], matched := [] }).s
            (keysOf s.objects)
            ((keysOf s.objects).foldl (greedyMatchStep input)
              { s := s, used := [], matched := [] }).matched)
          input
          ((keysOf s.objects).foldl (greedyMatchStep input)
            { s := s, used := [], matched := [] }).used,
        ((keysOf s.objects).foldl (greedyMatchStep input)
          { s := s, used := [], matched := [] }).matched,
        ((keysOf s.objects).foldl (greedyMatchStep input)
          { s := s, used := [], matched := [] }).used)) ∧
    (∀ used maxD2 lastC input j,
      bestMatch used maxD2 lastC input = some j ↔ isBestIdx used maxD2 lastC input j) := by
  exact ⟨fun s input => rfl, bestMatch_eq_some_iff⟩

/-! ## Brute-force assignment search: the optimal-path contract (C6, C1) -/

theorem kmFold_spec (mat : List (List Int)) :
    ∀ (rest : List (List Nat)) (a0 : List Nat),
    (rest.foldl
        (fun best a2 =>
          if assignmentCost mat a2 < best.1 then (assignmentCost mat a2, a2) else best)
        (assignmentCost mat a0, a0)).2 ∈ a0 :: rest ∧
    (rest.foldl
        (fun best a2 =>
          if assignmentCost mat a2 < best.1 then (assignmentCost mat a2, a2) else best)
        (assignmentCost mat a0, a0)).1 =
      assignmentCost mat
        (rest.foldl
          (fun best a2 =>
            if assignmentCost mat a2 < best.1 then (assignmentCost mat a2, a2) else best)
          (assignmentCost mat a0, a0)).2 ∧
    ∀ a2 ∈ a0 :: rest,
      (rest.foldl
          (fun best a2 =>
            if assignmentCost mat a2 < best.1 then (assignmentCost mat a2, a2) else best)
          (assignmentCost mat a0, a0)).1 ≤ assignmentCost mat a2 := by
  intro rest
  induction rest with
  | nil =>
    intro a0
    simp only [List.foldl_nil]
    refine ⟨List.mem_cons_self _ _, trivial, ?_⟩
    intro a2 h2
    rcases List.mem_cons.mp h2 with he | he
    · rw [he]
    · exact absurd he (List.not_mem_nil a2)
  | cons b t ih =>
    intro a0
    simp only [List.foldl_cons]
    by_cases hc : assignmentCost mat b < assignmentCost mat a0
    · rw [if_pos hc]
      obtain ⟨hm, he, hmin⟩ := ih b
      refine ⟨List.mem_cons_of_mem a0 hm, he, ?_⟩
      intro a2 h2
      rcases List.mem_cons.mp h2 with h2e | h2m
      · rw [h2e]
        exact le_trans (hmin b (List.mem_cons_self _ _)) (le_of_lt hc)
      · exact hmin a2 h2m
    · rw [if_neg hc]
      obtain ⟨hm, he, hmin⟩ := ih a0
      refine ⟨?_, he, ?_⟩
      · rcases List.mem_cons.mp hm with hme | hmm
        · exact List.mem_cons.mpr (Or.inl hme)
        · exact List.mem_cons.mpr (Or.inr (List.mem_cons_of_mem b hmm))
      · intro a2 h2
        rcases List.mem_cons.mp h2 with h2e | h2m
        · exact hmin a2 (h2e ▸ List.mem_cons_self a0 t)
        · rcases List.mem_cons.mp h2m with h2b | h2t
          · rw [h2b]
            exact le_trans (hmin a0 (List.mem_cons_self _ _)) (not_lt.mp hc)
          · exact hmin a2 (List.mem_cons_of_mem a0 h2t)

theorem injections_sound :
    ∀ (n : Nat) (avail : List Nat), avail.Nodup →
    ∀ a ∈ injections n avail, a.length = n ∧ a.Nodup ∧ ∀ x ∈ a, x ∈ avail := by
  intro n
  induction n with
  | zero =>
    intro avail _ a ha
    simp only [injections, List.mem_singleton] at ha
    subst ha
    exact ⟨rfl, List.nodup_nil, by intro x hx; exact absurd hx (List.not_mem_nil x)⟩
  | succ n ih =>
    intro avail hnd a ha
    simp only [injections] at ha
    rcases List.mem_flatMap.mp ha with ⟨c, hc, hmap⟩
    rcases List.mem_map.mp hmap with ⟨a1, ha1, rfl⟩
    obtain ⟨hlen, hnd1, hmem⟩ := ih (avail.erase c) (hnd.erase c) a1 ha1
    refine ⟨by simp [hlen], ?_, ?_⟩
    · refine List.nodup_cons.mpr ⟨?_, hnd1⟩
      intro hca
      exact absurd ((hnd.mem_erase_iff).mp (hmem c hca)).1 (by simp)
    · intro x hx
      rcases List.mem_cons.mp hx with rfl | hx1
      · exact hc
      · exact List.mem_of_mem_erase (hmem x hx1)

theorem injections_complete :
    ∀ (n : Nat) (avail : List Nat) (a : List Nat), avail.Nodup →
    a.length = n → a.Nodup → (∀ x ∈ a, x ∈ avail) → a ∈ injections n avail := by
  intro n
  induction n with
  | zero =>
    intro avail a _ hlen _ _
    have : a = [] := List.length_eq_zero.mp hlen
    subst this
    simp [injections]
  | succ n ih =>
    intro avail a hnd hlen hand hmem
    cases a with
    | nil => simp at hlen
    | cons c a1 =>
      simp only [injections]
      refine List.mem_flatMap.mpr ⟨c, hmem c (List.mem_cons_self _ _), ?_⟩
      refine List.mem_map.mpr ⟨a1, ?_, rfl⟩
      refine ih (avail.erase c) a1 (hnd.erase c) (by simpa using hlen)
        (List.nodup_cons.mp hand).2 ?_
      intro x hx
      refine (hnd.mem_erase_iff).mpr ⟨?_, hmem x (List.mem_cons_of_mem _ hx)⟩
      intro he
      exact (List.nodup_cons.mp hand).1 (he ▸ hx)

theorem injections_exists :
    ∀ (n : Nat) (avail : List Nat), n ≤ avail.length →
    ∃ a, a ∈ injections n avail := by
  intro n
  induction n with
  | zero =>
    intro avail _
    exact ⟨[], by simp [injections]⟩
  | succ n ih =>
    intro avail hle
    cases avail with
    | nil => simp at hle
    | cons c rest =>
      obtain ⟨a1, ha1⟩ := ih rest (by simpa using Nat.le_of_succ_le_succ hle)
      refine ⟨c :: a1, ?_⟩
      simp only [injections]
      refine List.mem_flatMap.mpr ⟨c, List.mem_cons_self _ _,
        List.mem_map.mpr ⟨a1, ?_, rfl⟩⟩
      rw [List.erase_cons_head]
      exact ha1

theorem kuhnMunkresMin_some (mat : List (List Int))
    (h : mat.length ≤ (mat.headD []).length) :
    ∃ a, a ∈ injections mat.length (List.range (mat.headD []).length) ∧
      kuhnMunkresMin mat = some (assignmentCost mat a, a) ∧
      ∀ a2 ∈ injections mat.length (List.range (mat.headD []).length),
        assignmentCost mat a ≤ assignmentCost mat a2 := by
  obtain ⟨a0, ha0⟩ := injections_exists mat.length (List.range (mat.headD []).length)
    (by simpa using h)
  unfold kuhnMunkresMin
  simp only []
  rw [if_pos h]
  cases hinj : injections mat.length (List.range (mat.headD []).length) with
  | nil =>
    rw [hinj] at ha0
    exact absurd ha0 (List.not_mem_nil a0)
  | cons b rest =>
    obtain ⟨hmem, heq, hmin⟩ := kmFold_spec mat rest b
    refine ⟨(rest.foldl
        (fun best a2 =>
          if assignmentCost mat a2 < best.1 then (assignmentCost mat a2, a2) else best)
        (assignmentCost mat b, b)).2, ?_, ?_, ?_⟩
    · exact hmem
    · rw [← heq]
    · intro a2 h2
      rw [heq] at hmin
      exact hmin a2 h2

theorem costMatrix_row_length (s : CentroidTracker) (input : List Centroid)
    (oids : List Nat) :
    ∀ r ∈ costMatrix s input oids, r.length = input.length := by
  intro r hr
  rcases List.mem_map.mp hr with ⟨oid, _, hre⟩
  cases hg : alGet s.objects oid with
  | none =>
    rw [hg] at hre
    rw [← hre]
    exact List.length_map input _
  | some obj =>
    rw [hg] at hre
    rw [← hre]
    exact List.length_map input _

theorem costMatrix_headD_length (s : CentroidTracker) (input : List Centroid)
    (oids : List Nat) (h : oids ≠ []) :
    ((costMatrix s input oids).headD []).length = input.length := by
  cases oids with
  | nil => exact absurd rfl h
  | cons o t =>
    have he : costMatrix s input (o :: t) =
        (match alGet s.objects o with
         | some obj =>
           costRow s.maxDist2 (obj.centroids.getLastD { x := 0, y := 0 }) input
         | none => input.map (fun _ => i32Max)) :: costMatrix s input t := rfl
    rw [he, List.headD_cons]
    cases hg : alGet s.objects o with
    | none => exact List.length_map input _
    | some obj => exact List.length_map input _

theorem costMatrix_rowsOk (s : CentroidTracker) (input : List Centroid)
    (oids : List Nat) : rowsOk (costMatrix s input oids) = true := by
  unfold rowsOk
  rw [List.all_eq_true]
  intro r hr
  rw [beq_iff_eq, costMatrix_row_length s input oids r hr]
  cases oids with
  | nil => exact absurd hr (by simp [costMatrix])
  | cons o t => rw [costMatrix_headD_length s input (o :: t) (by simp)]

theorem updateCore_optimal_eq (s : CentroidTracker) (rects : List Rect)
    (ca : Int × List Nat)
    (h1 : ¬ s.objects.isEmpty = true)
    (h2 : ¬ (s.objects.length ≤ 5 ∧ (rects.map Centroid.from_rect).length ≤ 5))
    (h4 : kuhnMunkresMin (costMatrix s (rects.map Centroid.from_rect) (keysOf s.objects))
        = some ca) :
    updateCore s rects =
      (registerPhase
          (missPhase
            (applyAssignments s (keysOf s.objects) (rects.map Centroid.from_rect)
              (costMatrix s (rects.map Centroid.from_rect) (keysOf s.objects)) ca.2).1
            (keysOf s.objects)
            (applyAssignments s (keysOf s.objects) (rects.map Centroid.from_rect)
              (costMatrix s (rects.map Centroid.from_rect) (keysOf s.objects)) ca.2).2.1)
          (rects.map Centroid.from_rect)
          (applyAssignments s (keysOf s.objects) (rects.map Centroid.from_rect)
            (costMatrix s (rects.map Centroid.from_rect) (keysOf s.objects)) ca.2).2.2,
        Except.ok
          ((applyAssignments s (keysOf s.objects) (rects.map Centroid.from_rect)
              (costMatrix s (rects.map Centroid.from_rect) (keysOf s.objects)) ca.2).2.1,
            (applyAssignments s (keysOf s.objects) (rects.map Centroid.from_rect)
              (costMatrix s (rects.map Centroid.from_rect) (keysOf s.objects)) ca.2).2.2,
            current_centroids
              (registerPhase
                (missPhase
                  (applyAssignments s (keysOf s.objects) (rects.map Centroid.from_rect)
                    (costMatrix s (rects.map Centroid.from_rect) (keysOf s.objects)) ca.2).1
                  (keysOf s.objects)
                  (applyAssignments s (keysOf s.objects) (rects.map Centroid.from_rect)
                    (costMatrix s (rects.map Centroid.from_rect) (keysOf s.objects)) ca.2).2.1)
                (rects.map Centroid.from_rect)
                (applyAssignments s (keysOf s.objects) (rects.map Centroid.from_rect)
                  (costMatrix s (rects.map Centroid.from_rect) (keysOf s.objects)) ca.2).2.2))) := by
  unfold updateCore
  rw [if_neg h1, if_neg h2]
  simp only []
  rw [show (s.objects.map (fun p => p.1)) = keysOf s.objects from rfl,
    costMatrix_rowsOk s (rects.map Centroid.from_rect) (keysOf s.objects), h4]
  rfl

/-- C6: with 6 tracked objects and 6 detections the optimal path runs, and
the assignment it applies is exactly a total-cost minimiser over the
quantised cost matrix among ALL permutation assignments (length-6 lists of
distinct column indices below 6, i.e. what brute-force enumeration ranges
over); `update` then applies precisely that assignment row by row,
discarding forbidden (`i32::MAX`) cells. -/
theorem C6_optimal_assignment (s : CentroidTracker) (rects : List Rect)
    (h6 : s.objects.length = 6) (hr : rects.length = 6) :
    ∃ a : List Nat,
      a.length = 6 ∧ a.Nodup ∧ (∀ x ∈ a, x < 6) ∧
      (∀ a2 : List Nat, a2.length = 6 → a2.Nodup → (∀ x ∈ a2, x < 6) →
        assignmentCost (costMatrix s (rects.map Centroid.from_rect) (keysOf s.objects)) a ≤
          assignmentCost (costMatrix s (rects.map Centroid.from_rect) (keysOf s.objects)) a2) ∧
      kuhnMunkresMin (costMatrix s (rects.map Centroid.from_rect) (keysOf s.objects)) =
        some (assignmentCost (costMatrix s (rects.map Centroid.from_rect) (keysOf s.objects)) a,
          a) ∧
      updateCore s rects =
        (registerPhase
            (missPhase
              (applyAssignments s (keysOf s.objects) (rects.map Centroid.from_rect)
                (costMatrix s (rects.map Centroid.from_rect) (keysOf s.objects)) a).1
              (keysOf s.objects)
              (applyAssignments s (keysOf s.objects) (rects.map Centroid.from_rect)
                (costMatrix s (rects.map Centroid.from_rect) (keysOf s.objects)) a).2.1)
            (rects.map Centroid.from_rect)
            (applyAssignments s (keysOf s.objects) (rects.map Centroid.from_rect)
              (costMatrix s (rects.map Centroid.from_rect) (keysOf s.objects)) a).2.2,
          Except.ok
            ((applyAssignments s (keysOf s.objects) (rects.map Centroid.from_rect)
                (costMatrix s (rects.map Centroid.from_rect) (keysOf s.objects)) a).2.1,
              (applyAssignments s (keysOf s.objects) (rects.map Centroid.from_rect)
                (costMatrix s (rects.map Centroid.from_rect) (keysOf s.objects)) a).2.2,
              current_centroids
                (registerPhase
                  (missPhase
                    (applyAssignments s (keysOf s.objects) (rects.map Centroid.from_rect)
                      (costMatrix s (rects.map Centroid.from_rect) (keysOf s.objects)) a).1
                    (keysOf s.objects)
                    (applyAssignments s (keysOf s.objects) (rects.map Centroid.from_rect)
                      (costMatrix s (rects.map Centroid.from_rect) (keysOf s.objects)) a).2.1)
                  (rects.map Centroid.from_rect)
                  (applyAssignments s (keysOf s.objects) (rects.map Centroid.from_rect)
                    (costMatrix s (rects.map Centroid.from_rect) (keysOf s.objects)) a).2.2))) := by
  have hklen : (keysOf s.objects).length = 6 := by
    rw [keysOf, List.length_map]
    exact h6
  have hilen : (rects.map Centroid.from_rect).length = 6 := by
    rw [List.length_map]
    exact hr
  have hmatlen :
      (costMatrix s (rects.map Centroid.from_rect) (keysOf s.objects)).length = 6 := by
    rw [costMatrix, List.length_map]
    exact hklen
  have hkne : keysOf s.objects ≠ [] := by
    intro he
    rw [he] at hklen
    simp at hklen
  have hhead :
      ((costMatrix s (rects.map Centroid.from_rect) (keysOf s.objects)).headD []).length
        = 6 := by
    rw [costMatrix_headD_length s (rects.map Centroid.from_rect) (keysOf s.objects) hkne]
    exact hilen
  obtain ⟨a, hain, hkm, hmin⟩ :=
    kuhnMunkresMin_some (costMatrix s (rects.map Centroid.from_rect) (keysOf s.objects))
      (by rw [hmatlen, hhead])
  rw [hmatlen, hhead] at hain hmin
  obtain ⟨halen, hand, hamem⟩ := injections_sound 6 (List.range 6) (List.nodup_range 6) a hain
  have h1 : ¬ s.objects.isEmpty = true := by
    intro hE
    rw [List.isEmpty_iff.mp hE] at h6
    simp at h6
  have h2 : ¬ (s.objects.length ≤ 5 ∧ (rects.map Centroid.from_rect).length ≤ 5) := by
    intro hh
    rw [h6] at hh
    omega
  refine ⟨a, halen, hand, ?_, ?_, hkm, ?_⟩
  · intro x hx
    exact List.mem_range.mp (hamem x hx)
  · intro a2 h2len h2nd h2mem
    refine hmin a2 (injections_complete 6 (List.range 6) a2 (List.nodup_range 6) h2len h2nd ?_)
    intro x hx
    exact List.mem_range.mpr (h2mem x hx)
  · exact updateCore_optimal_eq s rects
      (assignmentCost (costMatrix s (rects.map Centroid.from_rect) (keysOf s.objects)) a, a)
      h1 h2 hkm

theorem C6_witness :
    stateC6.objects.length = 6 ∧ rectsC6.length = 6 ∧
    (∃ a : List Nat,
      a.length = 6 ∧ a.Nodup ∧ (∀ x ∈ a, x < 6) ∧
      (∀ a2 : List Nat, a2.length = 6 → a2.Nodup → (∀ x ∈ a2, x < 6) →
        assignmentCost
            (costMatrix stateC6 (rectsC6.map Centroid.from_rect) (keysOf stateC6.objects)) a ≤
          assignmentCost
            (costMatrix stateC6 (rectsC6.map Centroid.from_rect) (keysOf stateC6.objects)) a2) ∧
      kuhnMunkresMin
          (costMatrix stateC6 (rectsC6.map Centroid.from_rect) (keysOf stateC6.objects)) =
        some (assignmentCost
            (costMatrix stateC6 (rectsC6.map Centroid.from_rect) (keysOf stateC6.objects)) a,
          a) ∧
      updateCore stateC6 rectsC6 =
        (registerPhase
            (missPhase
              (applyAssignments stateC6 (keysOf stateC6.objects)
                (rectsC6.map Centroid.from_rect)
                (costMatrix stateC6 (rectsC6.map Centroid.from_rect)
                  (keysOf stateC6.objects)) a).1
              (keysOf stateC6.objects)
              (applyAssignments stateC6 (keysOf stateC6.objects)
                (rectsC6.map Centroid.from_rect)
                (costMatrix stateC6 (rectsC6.map Centroid.from_rect)
                  (keysOf stateC6.objects)) a).2.1)
            (rectsC6.map Centroid.from_rect)
            (applyAssignments stateC6 (keysOf stateC6.objects)
              (rectsC6.map Centroid.from_rect)
              (costMatrix stateC6 (rectsC6.map Centroid.from_rect)
                (keysOf stateC6.objects)) a).2.2,
          Except.ok
            ((applyAssignments stateC6 (keysOf stateC6.objects)
                (rectsC6.map Centroid.from_rect)
                (costMatrix stateC6 (rectsC6.map Centroid.from_rect)
                  (keysOf stateC6.objects)) a).2.1,
              (applyAssignments stateC6 (keysOf stateC6.objects)
                (rectsC6.map Centroid.from_rect)
                (costMatrix stateC6 (rectsC6.map Centroid.from_rect)
                  (keysOf stateC6.objects)) a).2.2,
              current_centroids
                (registerPhase
                  (missPhase
                    (applyAssignments stateC6 (keysOf stateC6.objects)
                      (rectsC6.map Centroid.from_rect)
                      (costMatrix stateC6 (rectsC6.map Centroid.from_rect)
                        (keysOf stateC6.objects)) a).1
                    (keysOf stateC6.objects)
                    (applyAssignments stateC6 (keysOf stateC6.objects)
                      (rectsC6.map Centroid.from_rect)
                      (costMatrix stateC6 (rectsC6.map Centroid.from_rect)
                        (keysOf stateC6.objects)) a).2.1)
                  (rectsC6.map Centroid.from_rect)
                  (applyAssignments stateC6 (keysOf stateC6.objects)
                    (rectsC6.map Centroid.from_rect)
                    (costMatrix stateC6 (rectsC6.map Centroid.from_rect)
                      (keysOf stateC6.objects)) a).2.2)))) :=
  ⟨by decide, by decide, C6_optimal_assignment stateC6 rectsC6 (by decide) (by decide)⟩

/-! ## Exact-successor matching (C1) -/

theorem greedyMatchStep_eq (input : List Centroid) (acc : GreedyAcc) (oid : Nat)
    (obj : TrackableObject) (idx : Nat)
    (hget : alGet acc.s.objects oid = some obj)
    (hbm : bestMatch acc.used acc.s.maxDist2 (obj.centroids.getLastD { x := 0, y := 0 }) input
      = some idx) :
    greedyMatchStep input acc oid =
      { s := { acc.s with
                objects := alInsert acc.s.objects oid
                  { obj with centroids := obj.centroids ++ [input.getD idx { x := 0, y := 0 }] }
                disappeared := alRemove acc.s.disappeared oid }
        used := acc.used ++ [idx]
        matched := acc.matched ++ [oid] } := by
  unfold greedyMatchStep
  rw [hget]
  simp only []
  rw [hbm]

theorem greedyFold_targets (input : List Centroid) (f : Nat → Nat) (maxD2 : Nat) :
    ∀ (L : List Nat) (acc : GreedyAcc),
    L.Nodup →
    acc.s.maxDist2 = maxD2 →
    (∀ k ∈ L, ∀ o, alGet acc.s.objects k = some o →
      f k < input.length ∧
      dist2 (o.centroids.getLastD { x := 0, y := 0 }) (input.getD (f k) { x := 0, y := 0 })
        ≤ maxD2 ∧
      (∀ j, j < input.length → j ≠ f k →
        maxD2 < dist2 (o.centroids.getLastD { x := 0, y := 0 })
          (input.getD j { x := 0, y := 0 }))) →
    (∀ k ∈ L, ∃ o, alGet acc.s.objects k = some o) →
    (∀ k ∈ L, f k ∉ acc.used) →
    (∀ k1 ∈ L, ∀ k2 ∈ L, f k1 = f k2 → k1 = k2) →
    (L.foldl (greedyMatchStep input) acc).matched = acc.matched ++ L ∧
    (L.foldl (greedyMatchStep input) acc).used = acc.used ++ L.map f ∧
    (∀ k ∈ L, ∀ o, alGet acc.s.objects k = some o →
      alGet (L.foldl (greedyMatchStep input) acc).s.objects k =
        some { o with centroids := o.centroids ++ [input.getD (f k) { x := 0, y := 0 }] } ∧
      alGet (L.foldl (greedyMatchStep input) acc).s.disappeared k = none) := by
  intro L
  induction L with
  | nil =>
    intro acc _ _ _ _ _ _
    refine ⟨(List.append_nil acc.matched).symm, ?_, ?_⟩
    · simp only [List.map_nil]
      exact (List.append_nil acc.used).symm
    · intro k hk
      exact absurd hk (List.not_mem_nil k)
  | cons a L ih =>
    intro acc hnd hmax hcond hex hused hinj
    rw [List.nodup_cons] at hnd
    obtain ⟨o0, hgo⟩ := hex a (List.mem_cons_self _ _)
    obtain ⟨hfr, hcl, hfar⟩ := hcond a (List.mem_cons_self _ _) o0 hgo
    have hbm : bestMatch acc.used acc.s.maxDist2
        (o0.centroids.getLastD { x := 0, y := 0 }) input = some (f a) := by
      rw [hmax]
      refine (bestMatch_eq_some_iff acc.used maxD2
        (o0.centroids.getLastD { x := 0, y := 0 }) input (f a)).mpr ?_
      refine ⟨⟨hfr, hused a (List.mem_cons_self _ _), hcl⟩, ?_, ?_⟩
      · intro j2 hj2
        by_cases hje : j2 = f a
        · rw [hje]
        · exact absurd hj2.2.2 (not_le.mpr (hfar j2 hj2.1 hje))
      · intro j2 hj2 _
        by_cases hje : j2 = f a
        · rw [hje]
        · exact absurd hj2.2.2 (not_le.mpr (hfar j2 hj2.1 hje))
    have hstep := greedyMatchStep_eq input acc a o0 (f a) hgo hbm
    simp only [List.foldl_cons]
    have hmax1 : (greedyMatchStep input acc a).s.maxDist2 = maxD2 := by
      rw [hstep]
      exact hmax
    have hobj1 : ∀ k ∈ L, alGet (greedyMatchStep input acc a).s.objects k
        = alGet acc.s.objects k := by
      intro k hk
      have hka : k ≠ a := fun he => hnd.1 (he ▸ hk)
      rw [hstep]
      exact alGet_insert_ne _ _ _ _ hka
    have hused1 : ∀ k ∈ L, f k ∉ (greedyMatchStep input acc a).used := by
      intro k hk hmem
      rw [hstep] at hmem
      rcases List.mem_append.mp hmem with h1 | h1
      · exact hused k (List.mem_cons_of_mem _ hk) h1
      · have hfe : f k = f a := by simpa using h1
        have := hinj k (List.mem_cons_of_mem _ hk) a (List.mem_cons_self _ _) hfe
        exact hnd.1 (this ▸ hk)
    obtain ⟨ihm, ihu, ihe⟩ := ih (greedyMatchStep input acc a) hnd.2 hmax1
      (fun k hk o ho => hcond k (List.mem_cons_of_mem _ hk) o ((hobj1 k hk) ▸ ho))
      (fun k hk => (hobj1 k hk) ▸ hex k (List.mem_cons_of_mem _ hk))
      hused1
      (fun k1 h1 k2 h2 he =>
        hinj k1 (List.mem_cons_of_mem _ h1) k2 (List.mem_cons_of_mem _ h2) he)
    refine ⟨?_, ?_, ?_⟩
    · rw [ihm, hstep]
      simp
    · rw [ihu, hstep]
      simp
    · intro k hk o ho
      rcases List.mem_cons.mp hk with hka | hkL
      · subst hka
        have ho0 : o = o0 := by
          rw [hgo] at ho
          exact Option.some_inj.mp ho.symm
        subst ho0
        have hunt := greedyFold_untouched input L (greedyMatchStep input acc k) k hnd.1
        constructor
        · rw [hunt.1, hstep]
          exact alGet_insert_self _ _ _
        · rw [hunt.2, hstep]
          exact alGet_remove_self _ _
      · exact ihe k hkL o ((hobj1 k hkL) ▸ ho)

theorem getD_map_lt {α β : Type} (h : α → β) (l : List α) (j : Nat) (d : α) (db : β)
    (hj : j < l.length) : (l.map h).getD j db = h (l.getD j d) := by
  rw [List.getD_eq_getElem (l.map h) db (by rw [List.length_map]; exact hj),
    List.getD_eq_getElem l d hj]
  exact List.getElem_map h

theorem assignmentCost_cons (r : List Int) (R : List (List Int)) (x : Nat)
    (a2 : List Nat) :
    assignmentCost (r :: R) (x :: a2) = r.getD x 0 + assignmentCost R a2 := by
  unfold assignmentCost
  simp only [List.zip_cons_cons, List.map_cons, List.sum_cons]

theorem sumCost_le (g : Nat → List Int) (f : Nat → Nat) (m : Nat) :
    ∀ (oids a2 : List Nat), a2.length = oids.length → (∀ x ∈ a2, x < m) →
    (∀ k ∈ oids, ∀ j, j < m → (g k).getD (f k) 0 ≤ (g k).getD j 0) →
    assignmentCost (oids.map g) (oids.map f) ≤ assignmentCost (oids.map g) a2 := by
  intro oids
  induction oids with
  | nil =>
    intro a2 hlen _ _
    have : a2 = [] := List.length_eq_zero.mp hlen
    subst this
    exact le_refl _
  | cons k t ih =>
    intro a2 hlen hbnd hmin
    cases a2 with
    | nil => simp at hlen
    | cons x a2 =>
      simp only [List.map_cons, assignmentCost_cons]
      refine add_le_add ?_ ?_
      · exact hmin k (List.mem_cons_self _ _) x (hbnd x (List.mem_cons_self _ _))
      · exact ih a2 (by simpa using hlen) (fun y hy => hbnd y (List.mem_cons_of_mem _ hy))
          (fun k2 hk2 => hmin k2 (List.mem_cons_of_mem _ hk2))

theorem sumCost_lt_of_dev (g : Nat → List Int) (f : Nat → Nat) (m : Nat) :
    ∀ (oids a2 : List Nat), a2.length = oids.length → (∀ x ∈ a2, x < m) →
    (∀ k ∈ oids, ∀ j, j < m → j ≠ f k → (g k).getD (f k) 0 < (g k).getD j 0) →
    a2 ≠ oids.map f →
    assignmentCost (oids.map g) (oids.map f) < assignmentCost (oids.map g) a2 := by
  intro oids
  induction oids with
  | nil =>
    intro a2 hlen _ _ hne
    have : a2 = [] := List.length_eq_zero.mp hlen
    subst this
    simp at hne
  | cons k t ih =>
    intro a2 hlen hbnd hstrict hne
    cases a2 with
    | nil => simp at hlen
    | cons x a2 =>
      have hwk : ∀ k2 ∈ k :: t, ∀ j, j < m → (g k2).getD (f k2) 0 ≤ (g k2).getD j 0 := by
        intro k2 hk2 j hj
        by_cases hje : j = f k2
        · rw [hje]
        · exact le_of_lt (hstrict k2 hk2 j hj hje)
      simp only [List.map_cons, assignmentCost_cons]
      by_cases hx : x = f k
      · subst hx
        have hta : a2 ≠ t.map f := by
          intro he
          exact hne (by rw [he, List.map_cons])
        refine add_lt_add_left ?_ _
        exact ih a2 (by simpa using hlen) (fun y hy => hbnd y (List.mem_cons_of_mem _ hy))
          (fun k2 hk2 => hstrict k2 (List.mem_cons_of_mem _ hk2)) hta
      · refine add_lt_add_of_lt_of_le ?_ ?_
        · exact hstrict k (List.mem_cons_self _ _) x (hbnd x (List.mem_cons_self _ _)) hx
        · exact sumCost_le g f m t a2 (by simpa using hlen)
            (fun y hy => hbnd y (List.mem_cons_of_mem _ hy))
            (fun k2 hk2 => hwk k2 (List.mem_cons_of_mem _ hk2))

theorem zipzip_self_map {α β γ : Type} (g : α → β) (f : α → γ) :
    ∀ (l : List α), (l.zip (l.map g)).zip (l.map f) = l.map (fun k => ((k, g k), f k)) := by
  intro l
  induction l with
  | nil => rfl
  | cons a t ih =>
    simp only [List.map_cons, List.zip_cons_cons, ih]

theorem updateCore_greedy_eq (s : CentroidTracker) (rects : List Rect)
    (h1 : ¬ s.objects.isEmpty = true)
    (h2 : s.objects.length ≤ 5 ∧ (rects.map Centroid.from_rect).length ≤ 5) :
    updateCore s rects =
      ((greedy_update s (rects.map Centroid.from_rect)).1,
        Except.ok ((greedy_update s (rects.map Centroid.from_rect)).2.1,
          (greedy_update s (rects.map Centroid.from_rect)).2.2,
          current_centroids (greedy_update s (rects.map Centroid.from_rect)).1)) := by
  unfold updateCore
  rw [if_neg h1, if_pos h2]

theorem exactMatch_greedy (s : CentroidTracker) (rects : List Rect) (f : Nat → Nat)
    (hinv : RInv s) (hne : s.objects ≠ [])
    (hinj : ∀ k1 ∈ keysOf s.objects, ∀ k2 ∈ keysOf s.objects, f k1 = f k2 → k1 = k2)
    (hprop : ∀ p ∈ s.objects,
      f p.1 < (rects.map Centroid.from_rect).length ∧
      dist2 (p.2.centroids.getLastD { x := 0, y := 0 })
          ((rects.map Centroid.from_rect).getD (f p.1) { x := 0, y := 0 }) ≤ s.maxDist2 ∧
      (∀ j, j < (rects.map Centroid.from_rect).length → j ≠ f p.1 →
        s.maxDist2 < dist2 (p.2.centroids.getLastD { x := 0, y := 0 })
          ((rects.map Centroid.from_rect).getD j { x := 0, y := 0 })))
    (h5 : s.objects.length ≤ 5 ∧ (rects.map Centroid.from_rect).length ≤ 5) :
    ∃ s2 m u out, updateCore s rects = (s2, Except.ok (m, u, out)) ∧
      ∀ p ∈ s.objects, p.1 ∈ m ∧
        alGet s2.objects p.1 = some { p.2 with centroids := p.2.centroids
          ++ [(rects.map Centroid.from_rect).getD (f p.1) { x := 0, y := 0 }] } ∧
        alGet s2.disappeared p.1 = none := by
  have hndk := hinv.1
  have hE : ¬ s.objects.isEmpty = true := fun h => hne (List.isEmpty_iff.mp h)
  have hcond : ∀ k ∈ keysOf s.objects, ∀ o, alGet s.objects k = some o →
      f k < (rects.map Centroid.from_rect).length ∧
      dist2 (o.centroids.getLastD { x := 0, y := 0 })
          ((rects.map Centroid.from_rect).getD (f k) { x := 0, y := 0 }) ≤ s.maxDist2 ∧
      (∀ j, j < (rects.map Centroid.from_rect).length → j ≠ f k →
        s.maxDist2 < dist2 (o.centroids.getLastD { x := 0, y := 0 })
          ((rects.map Centroid.from_rect).getD j { x := 0, y := 0 })) := by
    intro k _ o hget
    exact hprop (k, o) (mem_of_alGet _ _ _ hget)
  obtain ⟨hm, hu, heff⟩ := greedyFold_targets (rects.map Centroid.from_rect) f s.maxDist2
    (keysOf s.objects) { s := s, used := [], matched := [] } hndk rfl
    hcond
    (fun k hk => (mem_keysOf_iff_alGet _ _).mp hk)
    (fun k _ => List.not_mem_nil (f k))
    hinj
  refine ⟨_, _, _, _, updateCore_greedy_eq s rects hE h5, ?_⟩
  intro p hp
  have hk : p.1 ∈ keysOf s.objects := List.mem_map.mpr ⟨p, hp, rfl⟩
  have hget : alGet s.objects p.1 = some p.2 := alGet_of_mem _ _ hndk hp
  have heffp := heff p.1 hk p.2 hget
  have hmm : p.1 ∈ ((keysOf s.objects).foldl (greedyMatchStep (rects.map Centroid.from_rect))
      { s := s, used := [], matched := [] }).matched := by
    rw [hm]
    simpa using hk
  have hmiss := missPhase_untouched
    ((keysOf s.objects).foldl (greedyMatchStep (rects.map Centroid.from_rect))
      { s := s, used := [], matched := [] }).s
    (keysOf s.objects)
    ((keysOf s.objects).foldl (greedyMatchStep (rects.map Centroid.from_rect))
      { s := s, used := [], matched := [] }).matched
    p.1 (Or.inr hmm)
  have hfr1 := greedyFold_frame (rects.map Centroid.from_rect) (keysOf s.objects)
    { s := s, used := [], matched := [] }
  have hfr2 := missPhase_frame
    ((keysOf s.objects).foldl (greedyMatchStep (rects.map Centroid.from_rect))
      { s := s, used := [], matched := [] }).s
    (keysOf s.objects)
    ((keysOf s.objects).foldl (greedyMatchStep (rects.map Centroid.from_rect))
      { s := s, used := [], matched := [] }).matched
  have hlt : p.1 < (missPhase
      ((keysOf s.objects).foldl (greedyMatchStep (rects.map Centroid.from_rect))
        { s := s, used := [], matched := [] }).s
      (keysOf s.objects)
      ((keysOf s.objects).foldl (greedyMatchStep (rects.map Centroid.from_rect))
        { s := s, used := [], matched := [] }).matched).next_oid := by
    rw [hfr2.1, hfr1.1]
    exact hinv.2.1 p.1 hk
  have hreg := registerPhase_get_lt
    (missPhase
      ((keysOf s.objects).foldl (greedyMatchStep (rects.map Centroid.from_rect))
        { s := s, used := [], matched := [] }).s
      (keysOf s.objects)
      ((keysOf s.objects).foldl (greedyMatchStep (rects.map Centroid.from_rect))
        { s := s, used := [], matched := [] }).matched)
    (rects.map Centroid.from_rect)
    ((keysOf s.objects).foldl (greedyMatchStep (rects.map Centroid.from_rect))
      { s := s, used := [], matched := [] }).used
    p.1 hlt
  refine ⟨hmm, ?_, ?_⟩
  · exact (hreg.1.trans hmiss.1).trans heffp.1
  · show alGet (registerPhase
      (missPhase
        ((keysOf s.objects).foldl (greedyMatchStep (rects.map Centroid.from_rect))
          { s := s, used := [], matched := [] }).s
        (keysOf s.objects)
        ((keysOf s.objects).foldl (greedyMatchStep (rects.map Centroid.from_rect))
          { s := s, used := [], matched := [] }).matched)
      (rects.map Centroid.from_rect)
      ((keysOf s.objects).foldl (greedyMatchStep (rects.map Centroid.from_rect))
        { s := s, used := [], matched := [] }).used).disappeared p.1 = none
    rw [hreg.2.1]
    exact hmiss.2.trans heffp.2

theorem exactMatch_optimal (s : CentroidTracker) (rects : List Rect) (f : Nat → Nat)
    (hinv : RInv s) (hne : s.objects ≠ [])
    (hinj : ∀ k1 ∈ keysOf s.objects, ∀ k2 ∈ keysOf s.objects, f k1 = f k2 → k1 = k2)
    (hprop : ∀ p ∈ s.objects,
      f p.1 < (rects.map Centroid.from_rect).length ∧
      dist2 (p.2.centroids.getLastD { x := 0, y := 0 })
          ((rects.map Centroid.from_rect).getD (f p.1) { x := 0, y := 0 }) ≤ s.maxDist2 ∧
      quantCost (dist2 (p.2.centroids.getLastD { x := 0, y := 0 })
          ((rects.map Centroid.from_rect).getD (f p.1) { x := 0, y := 0 })) < i32Max ∧
      (∀ j, j < (rects.map Centroid.from_rect).length → j ≠ f p.1 →
        s.maxDist2 < dist2 (p.2.centroids.getLastD { x := 0, y := 0 })
          ((rects.map Centroid.from_rect).getD j { x := 0, y := 0 })))
    (h5 : ¬ (s.objects.length ≤ 5 ∧ (rects.map Centroid.from_rect).length ≤ 5)) :
    ∃ s2 m u out, updateCore s rects = (s2, Except.ok (m, u, out)) ∧
      ∀ p ∈ s.objects, p.1 ∈ m ∧
        alGet s2.objects p.1 = some { p.2 with centroids := p.2.centroids
          ++ [(rects.map Centroid.from_rect).getD (f p.1) { x := 0, y := 0 }] } ∧
        alGet s2.disappeared p.1 = none := by
  have hndk := hinv.1
  have hE : ¬ s.objects.isEmpty = true := fun h => hne (List.isEmpty_iff.mp h)
  have hkne : keysOf s.objects ≠ [] := by
    intro h
    exact hne (List.map_eq_nil_iff.mp h)
  have hcond : ∀ k ∈ keysOf s.objects, ∀ o, alGet s.objects k = some o →
      f k < (rects.map Centroid.from_rect).length ∧
      dist2 (o.centroids.getLastD { x := 0, y := 0 })
          ((rects.map Centroid.from_rect).getD (f k) { x := 0, y := 0 }) ≤ s.maxDist2 ∧
      quantCost (dist2 (o.centroids.getLastD { x := 0, y := 0 })
          ((rects.map Centroid.from_rect).getD (f k) { x := 0, y := 0 })) < i32Max ∧
      (∀ j, j < (rects.map Centroid.from_rect).length → j ≠ f k →
        s.maxDist2 < dist2 (o.centroids.getLastD { x := 0, y := 0 })
          ((rects.map Centroid.from_rect).getD j { x := 0, y := 0 })) := by
    intro k _ o hget
    exact hprop (k, o) (mem_of_alGet _ _ _ hget)
  have hmatlen : (costMatrix s (rects.map Centroid.from_rect) (keysOf s.objects)).length
      = (keysOf s.objects).length := by
    rw [costMatrix, List.length_map]
  have hhead :
      ((costMatrix s (rects.map Centroid.from_rect) (keysOf s.objects)).headD []).length
        = (rects.map Centroid.from_rect).length :=
    costMatrix_headD_length s _ _ hkne
  have hmapf_nd : ((keysOf s.objects).map f).Nodup := List.Nodup.map_on hinj hndk
  have hmapf_sub : ∀ x ∈ (keysOf s.objects).map f,
      x ∈ List.range (rects.map Centroid.from_rect).length := by
    intro x hx
    rcases List.mem_map.mp hx with ⟨k, hk, rfl⟩
    obtain ⟨o, hgo⟩ := (mem_keysOf_iff_alGet _ _).mp hk
    exact List.mem_range.mpr (hcond k hk o hgo).1
  have hnm : (keysOf s.objects).length ≤ (rects.map Centroid.from_rect).length := by
    have h2 := (List.Nodup.subperm hmapf_nd hmapf_sub).length_le
    rw [List.length_map, List.length_range] at h2
    exact h2
  obtain ⟨aStar, hain, hkm, hmin⟩ := kuhnMunkresMin_some
    (costMatrix s (rects.map Centroid.from_rect) (keysOf s.objects))
    (by rw [hmatlen, hhead]; exact hnm)
  rw [hmatlen, hhead] at hain hmin
  obtain ⟨hslen, hsnd, hsmem⟩ := injections_sound _ _
    (List.nodup_range (rects.map Centroid.from_rect).length) aStar hain
  have htrue_in : (keysOf s.objects).map f ∈ injections (keysOf s.objects).length
      (List.range (rects.map Centroid.from_rect).length) :=
    injections_complete _ _ _
      (List.nodup_range (rects.map Centroid.from_rect).length)
      (List.length_map _ _) hmapf_nd hmapf_sub
  have hstrict : ∀ k ∈ keysOf s.objects, ∀ j,
      j < (rects.map Centroid.from_rect).length → j ≠ f k →
      ((fun oid =>
        match alGet s.objects oid with
        | some obj => costRow s.maxDist2 (obj.centroids.getLastD { x := 0, y := 0 })
            (rects.map Centroid.from_rect)
        | none => (rects.map Centroid.from_rect).map (fun _ => i32Max)) k).getD (f k) 0 <
      ((fun oid =>
        match alGet s.objects oid with
        | some obj => costRow s.maxDist2 (obj.centroids.getLastD { x := 0, y := 0 })
            (rects.map Centroid.from_rect)
        | none => (rects.map Centroid.from_rect).map (fun _ => i32Max)) k).getD j 0 := by
    intro k hk j hj hje
    obtain ⟨o, hgo⟩ := (mem_keysOf_iff_alGet _ _).mp hk
    obtain ⟨hfr, hcl, hq, hfar⟩ := hcond k hk o hgo
    simp only []
    rw [hgo]
    simp only []
    unfold costRow
    rw [getD_map_lt
        (fun c => costEntry s.maxDist2 (dist2 (o.centroids.getLastD { x := 0, y := 0 }) c))
        (rects.map Centroid.from_rect) (f k) { x := 0, y := 0 } 0 hfr,
      getD_map_lt
        (fun c => costEntry s.maxDist2 (dist2 (o.centroids.getLastD { x := 0, y := 0 }) c))
        (rects.map Centroid.from_rect) j { x := 0, y := 0 } 0 hj]
    unfold costEntry
    rw [if_pos hcl, if_neg (not_le.mpr (hfar j hj hje))]
    exact hq
  have hao : aStar = (keysOf s.objects).map f := by
    by_contra hne2
    have hlt2 := sumCost_lt_of_dev
      (fun oid =>
        match alGet s.objects oid with
        | some obj => costRow s.maxDist2 (obj.centroids.getLastD { x := 0, y := 0 })
            (rects.map Centroid.from_rect)
        | none => (rects.map Centroid.from_rect).map (fun _ => i32Max))
      f (rects.map Centroid.from_rect).length
      (keysOf s.objects) aStar hslen
      (fun x hx => List.mem_range.mp (hsmem x hx))
      hstrict hne2
    exact absurd (hmin ((keysOf s.objects).map f) htrue_in) (not_le.mpr hlt2)
  rw [hao] at hkm
  have hueq := updateCore_optimal_eq s rects
    (assignmentCost (costMatrix s (rects.map Centroid.from_rect) (keysOf s.objects))
        ((keysOf s.objects).map f),
      (keysOf s.objects).map f)
    hE h5 hkm
  have hzs : ((keysOf s.objects).zip
        (costMatrix s (rects.map Centroid.from_rect) (keysOf s.objects))).zip
      ((keysOf s.objects).map f)
      = (keysOf s.objects).map (fun k => ((k,
          match alGet s.objects k with
          | some obj => costRow s.maxDist2 (obj.centroids.getLastD { x := 0, y := 0 })
              (rects.map Centroid.from_rect)
          | none => (rects.map Centroid.from_rect).map (fun _ => i32Max)), f k)) :=
    zipzip_self_map _ f (keysOf s.objects)
  have hnd2 : ((((keysOf s.objects).zip
        (costMatrix s (rects.map Centroid.from_rect) (keysOf s.objects))).zip
      ((keysOf s.objects).map f)).map (fun q => q.1.1)).Nodup := by
    rw [hzs, List.map_map]
    have he3 : List.map ((fun (q : (Nat × List Int) × Nat) => q.1.1) ∘ fun k => ((k,
        match alGet s.objects k with
        | some obj => costRow s.maxDist2 (obj.centroids.getLastD { x := 0, y := 0 })
            (rects.map Centroid.from_rect)
        | none => (rects.map Centroid.from_rect).map (fun _ => i32Max)), f k))
        (keysOf s.objects) = keysOf s.objects := List.map_id _
    rw [he3]
    exact hndk
  refine ⟨_, _, _, _, hueq, ?_⟩
  intro p hp
  have hk : p.1 ∈ keysOf s.objects := List.mem_map.mpr ⟨p, hp, rfl⟩
  have hget : alGet s.objects p.1 = some p.2 := alGet_of_mem _ _ hndk hp
  have hq := hcond p.1 hk p.2 hget
  have hqmem : ((p.1,
      match alGet s.objects p.1 with
      | some obj => costRow s.maxDist2 (obj.centroids.getLastD { x := 0, y := 0 })
          (rects.map Centroid.from_rect)
      | none => (rects.map Centroid.from_rect).map (fun _ => i32Max)), f p.1)
      ∈ ((keysOf s.objects).zip
        (costMatrix s (rects.map Centroid.from_rect) (keysOf s.objects))).zip
      ((keysOf s.objects).map f) := by
    rw [hzs]
    exact List.mem_map.mpr ⟨p.1, hk, rfl⟩
  have hcell : ((p.1,
      match alGet s.objects p.1 with
      | some obj => costRow s.maxDist2 (obj.centroids.getLastD { x := 0, y := 0 })
          (rects.map Centroid.from_rect)
      | none => (rects.map Centroid.from_rect).map (fun _ => i32Max)), f p.1).1.2.getD
        ((p.1, match alGet s.objects p.1 with
          | some obj => costRow s.maxDist2 (obj.centroids.getLastD { x := 0, y := 0 })
              (rects.map Centroid.from_rect)
          | none => (rects.map Centroid.from_rect).map (fun _ => i32Max)), f p.1).2 0
      ≠ i32Max := by
    simp only []
    rw [hget]
    simp only []
    unfold costRow
    rw [getD_map_lt
        (fun c => costEntry s.maxDist2 (dist2 (p.2.centroids.getLastD { x := 0, y := 0 }) c))
        (rects.map Centroid.from_rect) (f p.1) { x := 0, y := 0 } 0 hq.1]
    unfold costEntry
    rw [if_pos hq.2.1]
    exact ne_of_lt hq.2.2.1
  have heff := (applyFold_effect (rects.map Centroid.from_rect)
    (((keysOf s.objects).zip
        (costMatrix s (rects.map Centroid.from_rect) (keysOf s.objects))).zip
      ((keysOf s.objects).map f))
    (s, [], []) hnd2
    _ hqmem p.2 hget hq.1).1 hcell
  have hfr1 := applyFold_frame (rects.map Centroid.from_rect)
    (((keysOf s.objects).zip
        (costMatrix s (rects.map Centroid.from_rect) (keysOf s.objects))).zip
      ((keysOf s.objects).map f))
    (s, [], [])
  have hmiss := missPhase_untouched
    ((((keysOf s.objects).zip
        (costMatrix s (rects.map Centroid.from_rect) (keysOf s.objects))).zip
      ((keysOf s.objects).map f)).foldl (applyOne (rects.map Centroid.from_rect))
        (s, [], [])).1
    (keysOf s.objects)
    ((((keysOf s.objects).zip
        (costMatrix s (rects.map Centroid.from_rect) (keysOf s.objects))).zip
      ((keysOf s.objects).map f)).foldl (applyOne (rects.map Centroid.from_rect))
        (s, [], [])).2.1
    p.1 (Or.inr heff.2.2)
  have hfr2 := missPhase_frame
    ((((keysOf s.objects).zip
        (costMatrix s (rects.map Centroid.from_rect) (keysOf s.objects))).zip
      ((keysOf s.objects).map f)).foldl (applyOne (rects.map Centroid.from_rect))
        (s, [], [])).1
    (keysOf s.objects)
    ((((keysOf s.objects).zip
        (costMatrix s (rects.map Centroid.from_rect) (keysOf s.objects))).zip
      ((keysOf s.objects).map f)).foldl (applyOne (rects.map Centroid.from_rect))
        (s, [], [])).2.1
  have hlt : p.1 < (missPhase
      ((((keysOf s.objects).zip
          (costMatrix s (rects.map Centroid.from_rect) (keysOf s.objects))).zip
        ((keysOf s.objects).map f)).foldl (applyOne (rects.map Centroid.from_rect))
          (s, [], [])).1
      (keysOf s.objects)
      ((((keysOf s.objects).zip
          (costMatrix s (rects.map Centroid.from_rect) (keysOf s.objects))).zip
        ((keysOf s.objects).map f)).foldl (applyOne (rects.map Centroid.from_rect))
          (s, [], [])).2.1).next_oid := by
    rw [hfr2.1, hfr1.1]
    exact hinv.2.1 p.1 hk
  have hreg := registerPhase_get_lt
    (missPhase
      ((((keysOf s.objects).zip
          (costMatrix s (rects.map Centroid.from_rect) (keysOf s.objects))).zip
        ((keysOf s.objects).map f)).foldl (applyOne (rects.map Centroid.from_rect))
          (s, [], [])).1
      (keysOf s.objects)
      ((((keysOf s.objects).zip
          (costMatrix s (rects.map Centroid.from_rect) (keysOf s.objects))).zip
        ((keysOf s.objects).map f)).foldl (applyOne (rects.map Centroid.from_rect))
          (s, [], [])).2.1)
    (rects.map Centroid.from_rect)
    ((((keysOf s.objects).zip
        (costMatrix s (rects.map Centroid.from_rect) (keysOf s.objects))).zip
      ((keysOf s.objects).map f)).foldl (applyOne (rects.map Centroid.from_rect))
        (s, [], [])).2.2
    p.1 hlt
  refine ⟨heff.2.2, ?_, ?_⟩
  · exact (hreg.1.trans hmiss.1).trans heff.1
  · show alGet (registerPhase
      (missPhase
        ((((keysOf s.objects).zip
            (costMatrix s (rects.map Centroid.from_rect) (keysOf s.objects))).zip
          ((keysOf s.objects).map f)).foldl (applyOne (rects.map Centroid.from_rect))
            (s, [], [])).1
        (keysOf s.objects)
        ((((keysOf s.objects).zip
            (costMatrix s (rects.map Centroid.from_rect) (keysOf s.objects))).zip
          ((keysOf s.objects).map f)).foldl (applyOne (rects.map Centroid.from_rect))
            (s, [], [])).2.1)
      (rects.map Centroid.from_rect)
      ((((keysOf s.objects).zip
          (costMatrix s (rects.map Centroid.from_rect) (keysOf s.objects))).zip
        ((keysOf s.objects).map f)).foldl (applyOne (rects.map Centroid.from_rect))
          (s, [], [])).2.2).disappeared p.1 = none
    rw [hreg.2.1]
    exact hmiss.2.trans heff.2.1

/-- C1 (amended): if every tracked object has a unique true successor
(an injective choice `f` of detection indices), its distance to that
successor is within `max_distance` AND the scaled quantised cost of that
distance stays below `i32::MAX`, and every other detection is beyond
`max_distance`, then `update` matches each object to its true successor —
appending that detection's centroid and clearing the miss counter — on both
the greedy and the optimal path.  (The quantised-cost bound is the needed
correction: without it the original claim fails, see the saturation
counterexample.) -/
theorem C1_true_successor_matching (s : CentroidTracker) (rects : List Rect) (f : Nat → Nat)
    (hinv : RInv s) (hne : s.objects ≠ [])
    (hinj : ∀ k1 ∈ keysOf s.objects, ∀ k2 ∈ keysOf s.objects, f k1 = f k2 → k1 = k2)
    (hprop : ∀ p ∈ s.objects,
      f p.1 < (rects.map Centroid.from_rect).length ∧
      dist2 (p.2.centroids.getLastD { x := 0, y := 0 })
          ((rects.map Centroid.from_rect).getD (f p.1) { x := 0, y := 0 }) ≤ s.maxDist2 ∧
      quantCost (dist2 (p.2.centroids.getLastD { x := 0, y := 0 })
          ((rects.map Centroid.from_rect).getD (f p.1) { x := 0, y := 0 })) < i32Max ∧
      (∀ j, j < (rects.map Centroid.from_rect).length → j ≠ f p.1 →
        s.maxDist2 < dist2 (p.2.centroids.getLastD { x := 0, y := 0 })
          ((rects.map Centroid.from_rect).getD j { x := 0, y := 0 }))) :
    ∃ s2 m u out, updateCore s rects = (s2, Except.ok (m, u, out)) ∧
      ∀ p ∈ s.objects, p.1 ∈ m ∧
        alGet s2.objects p.1 = some { p.2 with centroids := p.2.centroids
          ++ [(rects.map Centroid.from_rect).getD (f p.1) { x := 0, y := 0 }] } ∧
        alGet s2.disappeared p.1 = none := by
  by_cases h5 : s.objects.length ≤ 5 ∧ (rects.map Centroid.from_rect).length ≤ 5
  · exact exactMatch_greedy s rects f hinv hne hinj
      (fun p hp => ⟨(hprop p hp).1, (hprop p hp).2.1, (hprop p hp).2.2.2⟩) h5
  · exact exactMatch_optimal s rects f hinv hne hinj hprop h5

theorem C1_witness :
    RInv stateM ∧ stateM.objects ≠ [] ∧
    (∃ s2 m u out, updateCore stateM rectsM = (s2, Except.ok (m, u, out)) ∧
      ∀ p ∈ stateM.objects, p.1 ∈ m ∧
        alGet s2.objects p.1 = some { p.2 with centroids := p.2.centroids
          ++ [(rectsM.map Centroid.from_rect).getD ((fun _ => 0) p.1) { x := 0, y := 0 }] } ∧
        alGet s2.disappeared p.1 = none) :=
  ⟨by decide, by decide,
    C1_true_successor_matching stateM rectsM (fun _ => 0)
      (by decide) (by decide) (by decide) (by decide)⟩

set_option maxRecDepth 10000 in
/-- C1 (counterexample): the single object of `stateC1` is within
`max_distance` of exactly its true successor, detection 0, and every other
detection exceeds `max_distance` — the original claim's premises, here on
the optimal path (6 detections).  Yet the match set is empty: the cost
`round(1000·d)` of the true pair exceeds `i32::MAX`, the saturating cast
collapses it onto the forbidden-cell sentinel, and the assignment is
discarded; the object's history is unchanged and its miss counter is
incremented instead. -/
theorem C1_counterexample :
    RInv stateC1 ∧
    (∀ p ∈ stateC1.objects,
      dist2 (p.2.centroids.getLastD { x := 0, y := 0 })
          ((rectsC1.map Centroid.from_rect).getD 0 { x := 0, y := 0 }) ≤ stateC1.maxDist2 ∧
      (∀ j, j < (rectsC1.map Centroid.from_rect).length → j ≠ 0 →
        stateC1.maxDist2 < dist2 (p.2.centroids.getLastD { x := 0, y := 0 })
          ((rectsC1.map Centroid.from_rect).getD j { x := 0, y := 0 }))) ∧
    (updateCore stateC1 rectsC1).2.map (fun r => r.1) = Except.ok [] ∧
    alGet (updateCore stateC1 rectsC1).1.objects 0 = alGet stateC1.objects 0 ∧
    alGet (updateCore stateC1 rectsC1).1.disappeared 0 = some 1 := by
  decide
